import Mathlib

/-!
# libdispatch semaphores and groups (`semaphore.c`)

A shallow embedding of `src/libdispatch-339.92.1/src/semaphore.c`.

* A C `long` is an `Int` kept inside `LONG_MIN .. LONG_MAX`; every atomic
  increment and decrement stores `wrap_long` of the mathematical result.
* One call runs as one thread with nothing interleaved: a compare-and-swap
  that follows the load of its expected value always finds that value.
* The kernel is a collaborator.  What a kernel *wait* answers depends on time
  and on other threads, so the answers still to come are a list carried in the
  `World`; a wait that finds the list empty never comes back (`Result.hang`).
  Every kernel call issued is appended to `World.trace`.
* Both the `USE_MACH_SEM` and the `USE_POSIX_SEM` build are embedded
  (`sem_backend`); the `USE_WIN32_SEM` build is not.
* Reference counting (`_dispatch_retain` / `_dispatch_release`) is left out.
-/

namespace Dispatch

/-! ## Machine integers -/

/-- The constant `LONG_MAX` of an LP64 target: `2^63 - 1`. -/
def LONG_MAX : Int := 9223372036854775807

/-- The constant `LONG_MIN` of an LP64 target: `-2^63`. -/
def LONG_MIN : Int := -9223372036854775808

/-- Reduction of a mathematical integer to the `long` it is stored as
(two's complement, modulo `2^64`). -/
def wrap_long (x : Int) : Int :=
  (x + 9223372036854775808) % 18446744073709551616 - 9223372036854775808

/-- The range of the C type `long`. -/
abbrev is_long (x : Int) : Prop := LONG_MIN ≤ x ∧ x ≤ LONG_MAX

/-- The timeout `DISPATCH_TIME_NOW` (`0`). -/
def DISPATCH_TIME_NOW : Nat := 0

/-- The timeout `DISPATCH_TIME_FOREVER` (`~0ull`). -/
def DISPATCH_TIME_FOREVER : Nat := 18446744073709551615

/-- Value of `KERN_SUCCESS` in `<mach/kern_return.h>` (a system header). -/
def KERN_SUCCESS : Int := 0

/-- Value of `KERN_INVALID_ARGUMENT` in `<mach/kern_return.h>`. -/
def KERN_INVALID_ARGUMENT : Int := 4

/-- Value of `KERN_ABORTED` in `<mach/kern_return.h>`. -/
def KERN_ABORTED : Int := 14

/-- Value of `KERN_OPERATION_TIMED_OUT` in `<mach/kern_return.h>`. -/
def KERN_OPERATION_TIMED_OUT : Int := 49

/-- Value of `EINTR` in `<errno.h>`. -/
def EINTR : Int := 4

/-- Value of `EINVAL` in `<errno.h>`. -/
def EINVAL : Int := 22

/-- Value of `ETIMEDOUT` in `<errno.h>` (Darwin). -/
def ETIMEDOUT : Int := 60

/-! ## Data model -/

/-- Which kernel primitive the build selected: `USE_MACH_SEM` or
`USE_POSIX_SEM`. -/
inductive sem_backend where
  | mach
  | posix
  deriving DecidableEq, Repr

/-- The fields of `struct dispatch_continuation_s` that `semaphore.c` uses.
Addresses are naturals, `0` is `NULL`. -/
structure dispatch_continuation_s where
  do_next : Nat
  dc_data : Nat
  dc_ctxt : Nat
  dc_func : Nat
  deriving DecidableEq, Repr

/-- The fields of `struct dispatch_semaphore_s` that `semaphore.c` uses.  The
declaration itself is in a header that is not part of the sources; the fields
are taken from their uses.  `dsema_port` is the Mach port (`0` while none has
been created); under `USE_POSIX_SEM` it stands for `dsema_sem` and is non-zero
once `sem_init` has run. -/
structure dispatch_semaphore_s where
  dsema_port : Nat
  dsema_orig : Int
  dsema_value : Int
  dsema_sent_ksignals : Int
  dsema_group_waiters : Int
  dsema_notify_head : Nat
  dsema_notify_tail : Nat
  deriving DecidableEq, Repr

/-- One kernel call, as recorded in the trace. -/
inductive kernel_call where
  | create (port : Nat)
  | destroy (port : Nat)
  | signal (port : Nat)
  | timedwait (port : Nat) (timeout : Nat)
  | wait (port : Nat)
  deriving DecidableEq, Repr

/-- What one kernel wait answers: `code` is the `kern_return_t` of
`semaphore_wait` / `semaphore_timedwait`, or the `int` returned by `sem_wait` /
`sem_timedwait`, in which case `err` is the `errno` it leaves on failure. -/
structure kernel_answer where
  code : Int
  err : Int
  deriving DecidableEq, Repr

/-- The semaphore (or group) object together with everything around it that
the code reads or writes. -/
structure World where
  dsema : dispatch_semaphore_s
  -- continuation records; the record at address a ≥ 1 is heap[a - 1]
  heap : List dispatch_continuation_s
  -- answers of the kernel waits still to come
  kernel : List kernel_answer
  -- kernel calls issued so far, oldest first
  trace : List kernel_call
  -- calls of dispatch_async_f so far, oldest first: queue, context, function
  async : List (Nat × Nat × Nat)
  errno : Int
  -- number of kernel semaphores created so far
  ports : Nat
  deriving DecidableEq, Repr

/-- The fixed diagnostics of `DISPATCH_CRASH` and `DISPATCH_CLIENT_CRASH`. -/
inductive crash_reason where
  -- DISPATCH_CRASH: flawed group/semaphore logic
  | flawed_logic
  -- DISPATCH_CLIENT_CRASH: Semaphore/group object deallocated while in use
  | deallocated_in_use
  -- DISPATCH_CLIENT_CRASH: Unbalanced call to dispatch_semaphore_signal()
  | unbalanced_signal
  -- DISPATCH_CLIENT_CRASH: Too many nested calls to dispatch_group_enter()
  | too_many_enter
  -- DISPATCH_CLIENT_CRASH: Unbalanced call to dispatch_group_leave()
  | unbalanced_leave
  -- a read through an address that holds no continuation record
  | invalid_address
  deriving DecidableEq, Repr

/-- How a call ends: it returns a value, it aborts the process, or it never
comes back (parked in the kernel with no answer left, or spinning on a link
that nobody publishes). -/
inductive Result (α : Type) where
  | ret (v : α) (w : World)
  | crash (c : crash_reason) (w : World)
  | hang (w : World)
  deriving DecidableEq, Repr

/-- The world in which a result leaves the process. -/
def Result.world {α : Type} : Result α → World
  | .ret _ w => w
  | .crash _ w => w
  | .hang w => w

/-- Number of kernel waits (`semaphore_wait`, `semaphore_timedwait`, `sem_wait`,
`sem_timedwait`) in a trace. -/
def kernel_waits : List kernel_call → Nat
  | [] => 0
  | .wait _ :: t => kernel_waits t + 1
  | .timedwait _ _ :: t => kernel_waits t + 1
  | _ :: t => kernel_waits t

/-- Number of kernel signals (`semaphore_signal`, `sem_post`) in a trace. -/
def kernel_signals : List kernel_call → Nat
  | [] => 0
  | .signal _ :: t => kernel_signals t + 1
  | _ :: t => kernel_signals t

/-- Memory as `_dispatch_alloc` hands it out: zero-filled. -/
def _dispatch_alloc : dispatch_semaphore_s :=
  { dsema_port := 0, dsema_orig := 0, dsema_value := 0, dsema_sent_ksignals := 0,
    dsema_group_waiters := 0, dsema_notify_head := 0, dsema_notify_tail := 0 }

/-- A process that has not created anything yet, with the given answers of the
kernel waits to come. -/
def World.boot (answers : List kernel_answer) : World :=
  { dsema := _dispatch_alloc, heap := [], kernel := answers, trace := [], async := [],
    errno := 0, ports := 0 }

/-! ## The kernel collaborator -/

/-- Modelled from the spec: `semaphore_create` / `sem_init` of the kernel, which
is not part of the sources ("`ensure_handle`: allocates an OS primitive").  The
call hands out a fresh non-null name. -/
def kernel_create (w : World) : Nat × World :=
  (w.ports + 1,
    { w with ports := w.ports + 1, trace := w.trace ++ [kernel_call.create (w.ports + 1)] })

/-- Modelled from the spec: `semaphore_signal` of the kernel, which is not
part of the sources ("`signal(handle)`: releases one unit.  Fails only on
programmer error (invalid handle)"). -/
def semaphore_signal (port : Nat) (w : World) : Int × World :=
  (if port = 0 then KERN_INVALID_ARGUMENT else KERN_SUCCESS,
    { w with trace := w.trace ++ [kernel_call.signal port] })

/-- Modelled from the spec: `sem_post` of the C library, the POSIX form of
`signal(handle)`: `0`, or `-1` with `errno` set on an invalid handle. -/
def sem_post (sem : Nat) (w : World) : Int × World :=
  if sem = 0 then
    (-1, { w with trace := w.trace ++ [kernel_call.signal sem], errno := EINVAL })
  else (0, { w with trace := w.trace ++ [kernel_call.signal sem] })

/-- Modelled from the spec: `semaphore_destroy` of the kernel, which is not
part of the sources ("`destroy(handle)`: releases the OS resource"); it fails
only on an invalid handle. -/
def semaphore_destroy (port : Nat) (w : World) : Int × World :=
  (if port = 0 then KERN_INVALID_ARGUMENT else KERN_SUCCESS,
    { w with trace := w.trace ++ [kernel_call.destroy port] })

/-- Modelled from the spec: `sem_destroy` of the C library, the POSIX form of
`destroy(handle)`: `0`, or `-1` with `errno` set on an invalid handle. -/
def sem_destroy (sem : Nat) (w : World) : Int × World :=
  if sem = 0 then
    (-1, { w with trace := w.trace ++ [kernel_call.destroy sem], errno := EINVAL })
  else (0, { w with trace := w.trace ++ [kernel_call.destroy sem] })

/-- The `errno` after a kernel call that answered `a`, given the `errno`
before: a failing POSIX call stores its error, a Mach call leaves `errno`
alone. -/
def errno_after (b : sem_backend) (a : kernel_answer) (errno : Int) : Int :=
  match b with
  | .mach => errno
  | .posix => if a.code = -1 then a.err else errno

/-- A kernel wait that is repeated while `again` holds of its answer (the
`do … while` loops around `semaphore_timedwait`, `semaphore_wait`,
`sem_timedwait` and `sem_wait`).  Gives the first answer that ends the loop
(`none` when the answers run out first and the thread stays parked), the
answers left, the number of calls made and the `errno` left. -/
def kernel_wait_retry (b : sem_backend) (again : kernel_answer → Bool) :
    List kernel_answer → Int → Option kernel_answer × List kernel_answer × Nat × Int
  | [], errno => (none, [], 1, errno)
  | a :: rest, errno =>
    if again a then
      let r := kernel_wait_retry b again rest (errno_after b a errno)
      (r.1, r.2.1, r.2.2.1 + 1, r.2.2.2)
    else (some a, rest, 1, errno_after b a errno)

/-- Runs the retried kernel wait `c` in the world: consumes the answers,
records the calls, updates `errno`. -/
def kernel_wait (b : sem_backend) (again : kernel_answer → Bool) (c : kernel_call)
    (w : World) : Option kernel_answer × World :=
  let r := kernel_wait_retry b again w.kernel w.errno
  (r.1, { w with kernel := r.2.1, trace := w.trace ++ List.replicate r.2.2.1 c,
                 errno := r.2.2.2 })

/-! ## `dispatch_semaphore_t` -/

/-- Modelled from the spec: `dispatch_atomic_inc2o(p, f, m)`, a macro of a
header that is not part of the sources.  It adds one to the field and yields
the value after the increment ("post-increment"). -/
def dispatch_atomic_inc (field : Int) : Int := wrap_long (field + 1)

/-- Modelled from the spec: `dispatch_atomic_dec2o(p, f, m)`, a macro of a
header that is not part of the sources.  It subtracts one from the field and
yields the value after the decrement ("post-decrement"). -/
def dispatch_atomic_dec (field : Int) : Int := wrap_long (field - 1)

/-- Store into `dsema_value`. -/
def World.set_value (w : World) (v : Int) : World :=
  { w with dsema := { w.dsema with dsema_value := v } }

/-- Store into `dsema_sent_ksignals`. -/
def World.set_sent_ksignals (w : World) (v : Int) : World :=
  { w with dsema := { w.dsema with dsema_sent_ksignals := v } }

/-- Store into `dsema_group_waiters`. -/
def World.set_group_waiters (w : World) (v : Int) : World :=
  { w with dsema := { w.dsema with dsema_group_waiters := v } }

/-- `_dispatch_semaphore_init` (lines 93-109): both `dsema_value` and
`dsema_orig` receive `value`; the POSIX build initialises `dsema_sem`. -/
def _dispatch_semaphore_init (b : sem_backend) (value : Int) (w : World) : World :=
  let w := { w with dsema := { w.dsema with dsema_value := value, dsema_orig := value } }
  match b with
  | .mach => w
  | .posix =>
    let r := kernel_create w
    { r.2 with dsema := { r.2.dsema with dsema_port := r.1 } }

/-- `dispatch_semaphore_create` (lines 115-135): `none` is the `NULL` result. -/
def dispatch_semaphore_create (b : sem_backend) (value : Int) (w : World) : Option World :=
  if value < 0 then none
  else some (_dispatch_semaphore_init b value { w with dsema := _dispatch_alloc })

/-- `_dispatch_semaphore_create_port` (lines 138-166): nothing when a port
exists; otherwise a port is created and installed.  The retry on a transient
shortage ends with a port, and the compare-and-swap from `0` succeeds. -/
def _dispatch_semaphore_create_port (w : World) : World :=
  if w.dsema.dsema_port ≠ 0 then w
  else
    let r := kernel_create w
    { r.2 with dsema := { r.2.dsema with dsema_port := r.1 } }

/-- `_dispatch_semaphore_dispose` (lines 189-214). -/
def _dispatch_semaphore_dispose (b : sem_backend) (w : World) : Result Unit :=
  if w.dsema.dsema_value < w.dsema.dsema_orig then
    .crash .deallocated_in_use w
  else
    match b with
    | .mach =>
      if w.dsema.dsema_port ≠ 0 then
        let r := semaphore_destroy w.dsema.dsema_port w
        if r.1 ≠ 0 then .crash .flawed_logic r.2 else .ret () r.2
      else .ret () w
    | .posix =>
      let r := sem_destroy w.dsema.dsema_port w
      if r.1 = -1 then .crash .flawed_logic r.2 else .ret () r.2

/-- `_dispatch_semaphore_signal_slow` (lines 235-265). -/
def _dispatch_semaphore_signal_slow (b : sem_backend) (w : World) : Result Int :=
  let w := w.set_sent_ksignals (dispatch_atomic_inc w.dsema.dsema_sent_ksignals)
  match b with
  | .mach =>
    let w := _dispatch_semaphore_create_port w
    let r := semaphore_signal w.dsema.dsema_port w
    if r.1 ≠ 0 then .crash .flawed_logic r.2 else .ret 1 r.2
  | .posix =>
    let r := sem_post w.dsema.dsema_port w
    if r.1 = -1 then .crash .flawed_logic r.2 else .ret 1 r.2

/-- `dispatch_semaphore_signal` (lines 267-279). -/
def dispatch_semaphore_signal (b : sem_backend) (w : World) : Result Int :=
  let value := dispatch_atomic_inc w.dsema.dsema_value
  let w := w.set_value value
  if value > 0 then .ret 0 w
  else if value = LONG_MIN then .crash .unbalanced_signal w
  else _dispatch_semaphore_signal_slow b w

/-- Lines 369-383 of `_dispatch_semaphore_wait_slow`, `case DISPATCH_TIME_NOW`:
while `dsema_value` is negative the compare-and-swap adds one to it and the
call returns the time-out code; `none` when the value is not negative and
control falls through to `case DISPATCH_TIME_FOREVER`. -/
def semaphore_wait_undo (b : sem_backend) (w : World) : Option (Result Int) :=
  let orig := w.dsema.dsema_value
  if orig < 0 then
    let w := w.set_value (wrap_long (orig + 1))
    match b with
    | .mach => some (.ret KERN_OPERATION_TIMED_OUT w)
    | .posix => some (.ret (-1) { w with errno := ETIMEDOUT })
  else none

/-- Lines 386-401 of `_dispatch_semaphore_wait_slow`, `case
DISPATCH_TIME_FOREVER`: the untimed kernel wait.  `.ret ()` is the `break`. -/
def semaphore_wait_forever (b : sem_backend) (w : World) : Result Unit :=
  match b with
  | .mach =>
    match kernel_wait b (fun a => a.code = KERN_ABORTED)
        (kernel_call.wait w.dsema.dsema_port) w with
    | (none, w) => .hang w
    | (some a, w) => if a.code ≠ 0 then .crash .flawed_logic w else .ret () w
  | .posix =>
    match kernel_wait b (fun a => a.code ≠ 0) (kernel_call.wait w.dsema.dsema_port) w with
    | (none, w) => .hang w
    | (some a, w) => if a.code = -1 then .crash .flawed_logic w else .ret () w

/-- Lines 330-402 of `_dispatch_semaphore_wait_slow`, the `switch (timeout)`.
`.ret none` is a `break` out of the switch (then `goto again`), `.ret (some v)`
is `return v`. -/
def semaphore_wait_switch (b : sem_backend) (timeout : Nat) (w : World) :
    Result (Option Int) :=
  let forever (w : World) : Result (Option Int) :=
    match semaphore_wait_forever b w with
    | .ret _ w => .ret none w
    | .crash c w => .crash c w
    | .hang w => .hang w
  let now (w : World) : Result (Option Int) :=
    match semaphore_wait_undo b w with
    | some (.ret v w) => .ret (some v) w
    | some (.crash c w) => .crash c w
    | some (.hang w) => .hang w
    | none => forever w
  if timeout = DISPATCH_TIME_FOREVER then forever w
  else if timeout = DISPATCH_TIME_NOW then now w
  else
    match b with
    | .mach =>
      match kernel_wait b (fun a => a.code = KERN_ABORTED)
          (kernel_call.timedwait w.dsema.dsema_port timeout) w with
      | (none, w) => .hang w
      | (some a, w) =>
        if a.code ≠ KERN_OPERATION_TIMED_OUT then
          if a.code ≠ 0 then .crash .flawed_logic w else .ret none w
        else now w
    | .posix =>
      match kernel_wait b (fun a => a.code = -1 ∧ a.err = EINTR)
          (kernel_call.timedwait w.dsema.dsema_port timeout) w with
      | (none, w) => .hang w
      | (some a, w) =>
        if a.code = -1 ∧ w.errno ≠ ETIMEDOUT then
          if a.code = -1 then .crash .flawed_logic w else .ret none w
        else now w

/-- The body of `_dispatch_semaphore_wait_slow` (lines 283-408) from the label
`again`, with one unit of fuel per pass; every pass that comes back to `again`
has consumed a kernel answer. -/
def semaphore_wait_slow_loop (b : sem_backend) (timeout : Nat) : Nat → World → Result Int
  | 0, w => .hang w
  | fuel + 1, w =>
    let orig := w.dsema.dsema_sent_ksignals
    if orig ≠ 0 then
      .ret 0 (w.set_sent_ksignals (wrap_long (orig - 1)))
    else
      let w := match b with
        | .mach => _dispatch_semaphore_create_port w
        | .posix => w
      match semaphore_wait_switch b timeout w with
      | .ret (some v) w => .ret v w
      | .ret none w => semaphore_wait_slow_loop b timeout fuel w
      | .crash c w => .crash c w
      | .hang w => .hang w

/-- `_dispatch_semaphore_wait_slow` (lines 283-408). -/
def _dispatch_semaphore_wait_slow (b : sem_backend) (timeout : Nat) (w : World) : Result Int :=
  semaphore_wait_slow_loop b timeout (w.kernel.length + 1) w

/-- `dispatch_semaphore_wait` (lines 410-420). -/
def dispatch_semaphore_wait (b : sem_backend) (timeout : Nat) (w : World) : Result Int :=
  let value := dispatch_atomic_dec w.dsema.dsema_value
  let w := w.set_value value
  if value >= 0 then .ret 0 w
  else _dispatch_semaphore_wait_slow b timeout w

/-! ## `dispatch_group_t` -/

/-- `dispatch_group_create` (lines 426-433). -/
def dispatch_group_create (b : sem_backend) (w : World) : World :=
  _dispatch_semaphore_init b LONG_MAX { w with dsema := _dispatch_alloc }

/-- `dispatch_group_enter` (lines 436-445). -/
def dispatch_group_enter (w : World) : Result Unit :=
  let value := dispatch_atomic_dec w.dsema.dsema_value
  let w := w.set_value value
  if value < 0 then .crash .too_many_enter w
  else .ret () w

/-- Lines 471-474 and 476-479 of `_dispatch_group_wake`: the `do … while
(--rval)` loop that signals the kernel semaphore, `n` passes to go. -/
def group_wake_signals (b : sem_backend) : Nat → World → Result Unit
  | 0, w => .ret () w
  | n + 1, w =>
    match b with
    | .mach =>
      let r := semaphore_signal w.dsema.dsema_port w
      if r.1 ≠ 0 then .crash .flawed_logic r.2 else group_wake_signals b n r.2
    | .posix =>
      let r := sem_post w.dsema.dsema_port w
      if r.1 = -1 then .crash .flawed_logic r.2 else group_wake_signals b n r.2

/-- Lines 492-506 of `_dispatch_group_wake`: the walk over the captured
notification list from `head`, with one unit of fuel per record.  A record
whose link is null although it is not the captured tail is spun on for ever. -/
def group_wake_notify (tail : Nat) : Nat → Nat → World → Result Unit
  | 0, _, w => .hang w
  | fuel + 1, head, w =>
    match (if head = 0 then none else w.heap.get? (head - 1)) with
    | none => .crash .invalid_address w
    | some dc =>
      let next := dc.do_next
      if next = 0 ∧ head ≠ tail then .hang w
      else
        let w := { w with async := w.async ++ [(dc.dc_data, dc.dc_ctxt, dc.dc_func)] }
        if next ≠ 0 then group_wake_notify tail fuel next w
        else .ret () w

/-- `_dispatch_group_wake` (lines 453-510).  The number of passes of the signal
loop is the captured `dsema_group_waiters` read modulo `2^64`. -/
def _dispatch_group_wake (b : sem_backend) (w : World) : Result Int :=
  let head := w.dsema.dsema_notify_head
  let w := { w with dsema := { w.dsema with dsema_notify_head := 0 } }
  let tail := if head ≠ 0 then w.dsema.dsema_notify_tail else 0
  let w := if head ≠ 0 then { w with dsema := { w.dsema with dsema_notify_tail := 0 } } else w
  let rval : Int := w.dsema.dsema_group_waiters
  let w := w.set_group_waiters 0
  let signalled : Result Unit :=
    if rval ≠ 0 then
      let w := match b with
        | .mach => _dispatch_semaphore_create_port w
        | .posix => w
      group_wake_signals b (Int.toNat (rval % 18446744073709551616)) w
    else .ret () w
  match signalled with
  | .crash c w => .crash c w
  | .hang w => .hang w
  | .ret _ w =>
    if head ≠ 0 then
      match group_wake_notify tail (w.heap.length + 1) head w with
      | .ret _ w => .ret 0 w
      | .crash c w => .crash c w
      | .hang w => .hang w
    else .ret 0 w

/-- `dispatch_group_leave` (lines 513-535). -/
def dispatch_group_leave (b : sem_backend) (w : World) : Result Unit :=
  let value := dispatch_atomic_inc w.dsema.dsema_value
  let w := w.set_value value
  if value < 0 then .crash .unbalanced_leave w
  else if value = LONG_MAX then
    match _dispatch_group_wake b w with
    | .ret _ w => .ret () w
    | .crash c w => .crash c w
    | .hang w => .hang w
  else .ret () w

/-- Lines 628-640 of `_dispatch_group_wait_slow`, `case DISPATCH_TIME_NOW`:
while `dsema_group_waiters` is not zero the compare-and-swap subtracts one from
it and the call returns the time-out code; `none` when it is zero and control
falls through to `case DISPATCH_TIME_FOREVER`. -/
def group_wait_undo (b : sem_backend) (w : World) : Option (Result Int) :=
  let orig := w.dsema.dsema_group_waiters
  if orig ≠ 0 then
    let w := w.set_group_waiters (wrap_long (orig - 1))
    match b with
    | .mach => some (.ret KERN_OPERATION_TIMED_OUT w)
    | .posix => some (.ret (-1) { w with errno := ETIMEDOUT })
  else none

/-- Lines 643-657 of `_dispatch_group_wait_slow`, `case DISPATCH_TIME_FOREVER`:
the untimed kernel wait.  `.ret ()` is the `break`. -/
def group_wait_forever (b : sem_backend) (w : World) : Result Unit :=
  match b with
  | .mach =>
    match kernel_wait b (fun a => a.code = KERN_ABORTED)
        (kernel_call.wait w.dsema.dsema_port) w with
    | (none, w) => .hang w
    | (some a, w) => if a.code ≠ 0 then .crash .flawed_logic w else .ret () w
  | .posix =>
    match kernel_wait b (fun a => a.code = -1 ∧ a.err = EINTR)
        (kernel_call.wait w.dsema.dsema_port) w with
    | (none, w) => .hang w
    | (some a, w) => if a.code = -1 then .crash .flawed_logic w else .ret () w

/-- Lines 590-658 of `_dispatch_group_wait_slow`, the `switch (timeout)`.
`.ret none` is a `break` out of the switch (then `goto again`), `.ret (some v)`
is `return v`. -/
def group_wait_switch (b : sem_backend) (timeout : Nat) (w : World) : Result (Option Int) :=
  let forever (w : World) : Result (Option Int) :=
    match group_wait_forever b w with
    | .ret _ w => .ret none w
    | .crash c w => .crash c w
    | .hang w => .hang w
  let now (w : World) : Result (Option Int) :=
    match group_wait_undo b w with
    | some (.ret v w) => .ret (some v) w
    | some (.crash c w) => .crash c w
    | some (.hang w) => .hang w
    | none => forever w
  if timeout = DISPATCH_TIME_FOREVER then forever w
  else if timeout = DISPATCH_TIME_NOW then now w
  else
    match b with
    | .mach =>
      match kernel_wait b (fun a => a.code = KERN_ABORTED)
          (kernel_call.timedwait w.dsema.dsema_port timeout) w with
      | (none, w) => .hang w
      | (some a, w) =>
        if a.code ≠ KERN_OPERATION_TIMED_OUT then
          if a.code ≠ 0 then .crash .flawed_logic w else .ret none w
        else now w
    | .posix =>
      match kernel_wait b (fun a => a.code = -1 ∧ a.err = EINTR)
          (kernel_call.timedwait w.dsema.dsema_port timeout) w with
      | (none, w) => .hang w
      | (some a, w) =>
        if ¬ (a.code = -1 ∧ w.errno = ETIMEDOUT) then
          if a.code = -1 then .crash .flawed_logic w else .ret none w
        else now w

/-- The body of `_dispatch_group_wait_slow` (lines 542-660) from the label
`again`, with one unit of fuel per pass; every pass that comes back to `again`
has consumed a kernel answer. -/
def group_wait_slow_loop (b : sem_backend) (timeout : Nat) : Nat → World → Result Int
  | 0, w => .hang w
  | fuel + 1, w =>
    if w.dsema.dsema_value = LONG_MAX then _dispatch_group_wake b w
    else
      let w := w.set_group_waiters (dispatch_atomic_inc w.dsema.dsema_group_waiters)
      if w.dsema.dsema_value = LONG_MAX then _dispatch_group_wake b w
      else
        let w := match b with
          | .mach => _dispatch_semaphore_create_port w
          | .posix => w
        match group_wait_switch b timeout w with
        | .ret (some v) w => .ret v w
        | .ret none w => group_wait_slow_loop b timeout fuel w
        | .crash c w => .crash c w
        | .hang w => .hang w

/-- `_dispatch_group_wait_slow` (lines 542-660). -/
def _dispatch_group_wait_slow (b : sem_backend) (timeout : Nat) (w : World) : Result Int :=
  group_wait_slow_loop b timeout (w.kernel.length + 1) w

/-- `dispatch_group_wait` (lines 663-680). -/
def dispatch_group_wait (b : sem_backend) (timeout : Nat) (w : World) : Result Int :=
  if w.dsema.dsema_value = LONG_MAX then .ret 0 w
  else if timeout = 0 then
    match b with
    | .mach => .ret KERN_OPERATION_TIMED_OUT w
    | .posix => .ret (-1) { w with errno := ETIMEDOUT }
  else _dispatch_group_wait_slow b timeout w

/-- `dispatch_group_notify_f` (lines 688-714).  The new record takes the next
free address of the heap. -/
def dispatch_group_notify_f (b : sem_backend) (dq ctxt func : Nat) (w : World) : Result Unit :=
  let dsn := w.heap.length + 1
  let rec_ : dispatch_continuation_s :=
    { do_next := 0, dc_data := dq, dc_ctxt := ctxt, dc_func := func }
  let w := { w with heap := w.heap ++ [rec_] }
  let prev := w.dsema.dsema_notify_tail
  let w := { w with dsema := { w.dsema with dsema_notify_tail := dsn } }
  if prev ≠ 0 then
    match w.heap.get? (prev - 1) with
    | none => .crash .invalid_address w
    | some dc => .ret () { w with heap := w.heap.set (prev - 1) { dc with do_next := dsn } }
  else
    let w := { w with dsema := { w.dsema with dsema_notify_head := dsn } }
    if w.dsema.dsema_value = LONG_MAX then
      match _dispatch_group_wake b w with
      | .ret _ w => .ret () w
      | .crash c w => .crash c w
      | .hang w => .hang w
    else .ret () w

/-! ## Vocabulary of the properties -/

/-- The time-out code of the build: `KERN_OPERATION_TIMED_OUT` under
`USE_MACH_SEM` (lines 377 and 634), `-1` under `USE_POSIX_SEM` (lines 380 and
637). -/
def timed_out_code (b : sem_backend) : Int :=
  match b with
  | .mach => KERN_OPERATION_TIMED_OUT
  | .posix => -1

/-- The answer of a kernel timed wait whose deadline passed. -/
def timed_out_answer (b : sem_backend) : kernel_answer :=
  match b with
  | .mach => { code := KERN_OPERATION_TIMED_OUT, err := 0 }
  | .posix => { code := -1, err := ETIMEDOUT }

/-- The object carries a usable kernel handle whenever the build needs one up
front: under `USE_POSIX_SEM`, `sem_init` has run (`_dispatch_semaphore_init`
does it); under `USE_MACH_SEM` the port is created on demand. -/
def handle_ready (b : sem_backend) (w : World) : Prop :=
  b = sem_backend.posix → w.dsema.dsema_port ≠ 0

/-- A call on a semaphore. -/
inductive sem_op where
  | signal
  | wait (timeout : Nat)
  deriving DecidableEq, Repr

/-- The call an operation stands for. -/
def sem_op.call (b : sem_backend) : sem_op → World → Result Int
  | .signal, w => dispatch_semaphore_signal b w
  | .wait timeout, w => dispatch_semaphore_wait b timeout w

/-- Runs the calls one after the other.  `some` of the final world when every
call returned `0`; `none` as soon as a call returns something else, aborts or
does not come back. -/
def sem_calls_zero (b : sem_backend) : List sem_op → World → Option World
  | [], w => some w
  | op :: ops, w =>
    match op.call b w with
    | .ret v w1 => if v = 0 then sem_calls_zero b ops w1 else none
    | .crash _ _ => none
    | .hang _ => none

/-- Number of `dispatch_semaphore_signal` calls in a sequence. -/
def count_signals : List sem_op → Nat
  | [] => 0
  | .signal :: ops => count_signals ops + 1
  | .wait _ :: ops => count_signals ops

/-- Number of `dispatch_semaphore_wait` calls in a sequence. -/
def count_waits : List sem_op → Nat
  | [] => 0
  | .signal :: ops => count_waits ops
  | .wait _ :: ops => count_waits ops + 1

/-- A call on a group. -/
inductive group_op where
  | enter
  | leave
  deriving DecidableEq, Repr

/-- The call an operation stands for. -/
def group_op.call (b : sem_backend) : group_op → World → Result Unit
  | .enter, w => dispatch_group_enter w
  | .leave, w => dispatch_group_leave b w

/-- Runs the calls one after the other.  `some` of the final world when every
call returned; `none` as soon as a call aborts or does not come back. -/
def group_calls (b : sem_backend) : List group_op → World → Option World
  | [], w => some w
  | op :: ops, w =>
    match op.call b w with
    | .ret _ w1 => group_calls b ops w1
    | .crash _ _ => none
    | .hang _ => none

/-- Number of `dispatch_group_enter` calls in a sequence. -/
def count_enters : List group_op → Nat
  | [] => 0
  | .enter :: ops => count_enters ops + 1
  | .leave :: ops => count_enters ops

/-- Number of `dispatch_group_leave` calls in a sequence. -/
def count_leaves : List group_op → Nat
  | [] => 0
  | .enter :: ops => count_leaves ops
  | .leave :: ops => count_leaves ops + 1

/-- No thread is parked in `dispatch_group_wait` and no notification is
registered: the state of the extra group fields as long as only `enter` and
`leave` have been called. -/
def group_bare (w : World) : Prop :=
  w.dsema.dsema_group_waiters = 0 ∧ w.dsema.dsema_notify_head = 0

/-- The answer `a` of a kernel timed wait reports that the deadline passed:
`KERN_OPERATION_TIMED_OUT` from `semaphore_timedwait`, `-1` with
`errno == ETIMEDOUT` from `sem_timedwait`. -/
def is_timed_out (b : sem_backend) (a : kernel_answer) : Prop :=
  match b with
  | .mach => a.code = KERN_OPERATION_TIMED_OUT
  | .posix => a.code = -1 ∧ a.err = ETIMEDOUT

/-- A wait with timeout `timeout` that started with the kernel answers `before`
and ended with `after` timed out: the timeout is immediate, or the last answer
the call consumed is that of a timed wait whose deadline passed. -/
def wait_timed_out (b : sem_backend) (timeout : Nat) (before after : List kernel_answer) :
    Prop :=
  timeout ≠ DISPATCH_TIME_FOREVER ∧
    (timeout = DISPATCH_TIME_NOW ∨
      ∃ pre a, before = pre ++ a :: after ∧ is_timed_out b a)

/-- The notification list that starts at the record `head` holds exactly the
records `rs` (queue, context, function), in this order, every link `do_next`
published, the last record being `tail` with a null link.  The empty list is
`head == NULL`. -/
def notify_list (heap : List dispatch_continuation_s) (tail : Nat) :
    Nat → List (Nat × Nat × Nat) → Prop
  | head, [] => head = 0
  | head, [r] => head ≠ 0 ∧ head = tail ∧
      heap.get? (head - 1)
        = some { do_next := 0, dc_data := r.1, dc_ctxt := r.2.1, dc_func := r.2.2 }
  | head, r :: r2 :: rs => head ≠ 0 ∧ ∃ next, next ≠ 0 ∧
      heap.get? (head - 1)
        = some { do_next := next, dc_data := r.1, dc_ctxt := r.2.1, dc_func := r.2.2 } ∧
      notify_list heap tail next (r2 :: rs)

/-- Runs `dispatch_group_notify_f` for each record (queue, context, function)
in turn.  `some` of the final world when every call returned. -/
def group_notifies (b : sem_backend) : List (Nat × Nat × Nat) → World → Option World
  | [], w => some w
  | r :: rs, w =>
    match dispatch_group_notify_f b r.1 r.2.1 r.2.2 w with
    | .ret _ w1 => group_notifies b rs w1
    | .crash _ _ => none
    | .hang _ => none

/-- The answer of a kernel wait that was interrupted and is repeated by the
`do … while` loop around it: `KERN_ABORTED`, or `-1` with `errno == EINTR`. -/
def is_interrupted (b : sem_backend) (a : kernel_answer) : Prop :=
  match b with
  | .mach => a.code = KERN_ABORTED
  | .posix => a.code = -1 ∧ a.err = EINTR

/-! ## `dispatch_once_f` (once.c) -/

/-- `DISPATCH_ONCE_DONE`, line 32 of once.c: `~0l` read as a pointer value. -/
def DISPATCH_ONCE_DONE : Nat := 18446744073709551615

/-- Places of `dispatch_once_f` at which a call can stand, named by the line of
once.c it executes next: each one holds at most one access to shared memory
(the site word, a waiter node, a thread semaphore).  `returned` is line 145;
`crashed` is a dereference of `NULL` or of `DISPATCH_ONCE_DONE`. -/
inductive once_pc where
  | line65 | line66 | line120 | line122 | line123 | line126 | line127 | line128
  | line131 | line132 | line134 | line137 | line138 | line139 | line143
  | returned | crashed
  deriving DecidableEq, Repr

/-- One call of `dispatch_once_f(val, ctxt, func)`: its arguments, its waiter
node `dow` (`struct _dispatch_once_waiter_s`, lines 27-30) and its locals `tmp`
and `sema`.  The node of call `i` lives at address `i + 1`, which is also the
value of the local `tail` (line 121). -/
structure once_frame where
  pc : once_pc
  ctxt : Nat
  func : Nat
  dow_next : Nat
  dow_sema : Nat
  tmp : Nat
  sema : Nat
  deriving DecidableEq, Repr

/-- The memory shared by the calls of `dispatch_once_f` on one site: the site
word `*val`, the frames of the calls, the calls `_dispatch_client_callout` has
received (caller, `ctxt`, `func`), the callers whose compare-and-swap of line 65
succeeded, the counts of the thread semaphores (the kernel's counting
semaphores behind `_dispatch_thread_semaphore_signal` and
`_dispatch_thread_semaphore_wait`, semaphore.c lines 784-826), and the
semaphores `_dispatch_thread_semaphore_signal` was called on, in order. -/
structure once_state where
  val : Nat
  frames : Nat → once_frame
  callouts : List (Nat × Nat × Nat)
  winners : List Nat
  sems : Nat → Nat
  signals : List Nat

/-- Line 60, `dow = { NULL, 0 }`: the frame of a call that has not taken a step. -/
def once_frame.entry (a : Nat × Nat) : once_frame :=
  { pc := .line65, ctxt := a.1, func := a.2, dow_next := 0, dow_sema := 0, tmp := 0, sema := 0 }

/-- A site word that is still `NULL`, with call `i` about to be made with the
arguments `args i`; every thread semaphore has count `0` (they are created with
value `0`, semaphore.c lines 739 and 747). -/
def once_boot (args : Nat → Nat × Nat) : once_state :=
  { val := 0, frames := fun i => once_frame.entry (args i), callouts := [], winners := [],
    sems := fun _ => 0, signals := [] }

def once_state.set_frame (s : once_state) (i : Nat) (c : once_frame) : once_state :=
  { s with frames := fun j => if j = i then c else s.frames j }

/-- Modelled from the spec: `_dispatch_get_thread_semaphore` is not in the
source; "acquire a thread-cached semaphore".  Call `i` runs on its own thread,
whose semaphore has the name `i + 1`. -/
def _dispatch_get_thread_semaphore (i : Nat) : Nat := i + 1

/-- `_dispatch_thread_semaphore_signal(sema)`, semaphore.c lines 784-804: one
`semaphore_signal` / `sem_post` on the kernel semaphore. -/
def _dispatch_thread_semaphore_signal (sema : Nat) (sems : Nat → Nat) : Nat → Nat :=
  fun k => if k = sema then sems k + 1 else sems k

/-- `_dispatch_thread_semaphore_wait(sema)`, semaphore.c lines 806-826: the
kernel wait returns once the count is positive, taking one from it; `none`
while the caller stays blocked. -/
def _dispatch_thread_semaphore_wait (sema : Nat) (sems : Nat → Nat) : Option (Nat → Nat) :=
  if 0 < sems sema then some (fun k => if k = sema then sems k - 1 else sems k) else none

/-- One step of call `i` of `dispatch_once_f` (once.c lines 54-145).  A call that
spins (line 123), is blocked (line 139), has returned or has crashed leaves the
state as it is. -/
def dispatch_once_f_step (i : Nat) (s : once_state) : once_state :=
  let c := s.frames i
  match c.pc with
  | .line65 =>
    if s.val = 0 then
      { s.set_frame i { c with pc := .line66 } with val := i + 1, winners := s.winners ++ [i] }
    else s.set_frame i { c with pc := .line131 }
  | .line66 =>
    { s.set_frame i { c with pc := .line120 } with
      callouts := s.callouts ++ [(i, c.ctxt, c.func)] }
  | .line120 =>
    { s.set_frame i { c with pc := .line122, tmp := s.val } with val := DISPATCH_ONCE_DONE }
  | .line122 =>
    if c.tmp ≠ i + 1 then s.set_frame i { c with pc := .line123 }
    else s.set_frame i { c with pc := .returned }
  | .line123 =>
    if c.tmp = 0 ∨ c.tmp = DISPATCH_ONCE_DONE then s.set_frame i { c with pc := .crashed }
    else if (s.frames (c.tmp - 1)).dow_next = 0 then s
    else s.set_frame i { c with pc := .line126 }
  | .line126 =>
    s.set_frame i { c with pc := .line127, sema := (s.frames (c.tmp - 1)).dow_sema }
  | .line127 =>
    s.set_frame i { c with pc := .line128, tmp := (s.frames (c.tmp - 1)).dow_next }
  | .line128 =>
    { s.set_frame i { c with pc := .line122 } with
      sems := _dispatch_thread_semaphore_signal c.sema s.sems
      signals := s.signals ++ [c.sema] }
  | .line131 =>
    s.set_frame i { c with pc := .line132, dow_sema := _dispatch_get_thread_semaphore i }
  | .line132 => s.set_frame i { c with pc := .line134, tmp := s.val }
  | .line134 =>
    if c.tmp = DISPATCH_ONCE_DONE then s.set_frame i { c with pc := .line143 }
    else s.set_frame i { c with pc := .line137 }
  | .line137 =>
    if s.val = c.tmp then { s.set_frame i { c with pc := .line138 } with val := i + 1 }
    else s.set_frame i { c with pc := .line134, tmp := s.val }
  | .line138 => s.set_frame i { c with pc := .line139, dow_next := c.tmp }
  | .line139 =>
    match _dispatch_thread_semaphore_wait c.dow_sema s.sems with
    | some sems => { s.set_frame i { c with pc := .line143 } with sems := sems }
    | none => s
  | .line143 => s.set_frame i { c with pc := .returned }
  | .returned => s
  | .crashed => s

/-- An interleaving: the calls named by the schedule take one step each, in
that order. -/
def once_run : List Nat → once_state → once_state
  | [], s => s
  | i :: sched, s => once_run sched (dispatch_once_f_step i s)

/-- Call `i` of `dispatch_once_f` run on its own, from entry to return, no other
call taking a step meanwhile (six steps are the longest such run). -/
def dispatch_once_f (i : Nat) (s : once_state) : once_state :=
  once_run (List.replicate 6 i) s

/-- Calls of `dispatch_once_f` made one after the other. -/
def once_sequence : List Nat → once_state → once_state
  | [], s => s
  | i :: calls, s => once_sequence calls (dispatch_once_f i s)

/-- The waiter nodes linked on the site, from the node at address `a` down to
the node of the leader `l` (the bottom of the stack, not in the list): `ws` are
the calls whose nodes they are, most recently linked first, and each waiter's
`dow_next` is published (non-null) and points to the next node down. -/
def once_stack (s : once_state) (l : Nat) : Nat → List Nat → Prop
  | a, [] => a = l + 1
  | a, j :: ws =>
    a = j + 1 ∧ j ≠ l ∧ a ≠ DISPATCH_ONCE_DONE ∧ (s.frames j).dow_next ≠ 0 ∧
      once_stack s l (s.frames j).dow_next ws

instance once_stack_decidable (s : once_state) (l : Nat) :
    ∀ (a : Nat) (ws : List Nat), Decidable (once_stack s l a ws)
  | a, [] => inferInstanceAs (Decidable (a = l + 1))
  | a, j :: ws =>
    have := once_stack_decidable s l (s.frames j).dow_next ws
    inferInstanceAs (Decidable (a = j + 1 ∧ j ≠ l ∧ a ≠ DISPATCH_ONCE_DONE ∧
      (s.frames j).dow_next ≠ 0 ∧ once_stack s l (s.frames j).dow_next ws))

/-! ## Interleaved `dispatch_semaphore_signal` and `dispatch_semaphore_wait` -/

/-- Places of `dispatch_semaphore_signal` / `_dispatch_semaphore_signal_slow`
and `dispatch_semaphore_wait` / `_dispatch_semaphore_wait_slow` at which a call
can stand, named by the line of semaphore.c it executes next; each holds at
most one access to the semaphore object or one kernel call.  `entry` is line
271 of a signal and line 414 of a wait. -/
inductive sem_pc where
  | entry | line247 | line249 | line250 | line252
  | line307 | line309 | line317 | line330 | line370 | line374 | line388
  | returned (v : Int)
  | crashed (c : crash_reason)
  deriving DecidableEq, Repr

/-- One call in progress on the semaphore: which call it is, where it stands,
its local `orig` and the `errno` of its thread. -/
structure sem_frame where
  pc : sem_pc
  op : sem_op
  orig : Int
  errno : Int
  deriving DecidableEq, Repr

/-- The semaphore object and its surroundings together with the calls in
progress on it.  The answers in `world.kernel` are handed to the kernel waits
in the order in which the waits are made, whichever call makes them. -/
structure sem_state where
  world : World
  frames : Nat → sem_frame

/-- Every call `i` about to be made is the call `ops i`; none has taken a step. -/
def sem_boot (w : World) (ops : Nat → sem_op) : sem_state :=
  { world := w, frames := fun i => { pc := .entry, op := ops i, orig := 0, errno := 0 } }

def sem_state.set_frame (s : sem_state) (i : Nat) (c : sem_frame) : sem_state :=
  { s with frames := fun j => if j = i then c else s.frames j }

/-- Where the loop `while (orig)` of lines 308-313 goes with the value `orig`:
to the compare-and-swap of line 309, or past the loop. -/
def sem_pc.drain (b : sem_backend) (orig : Int) : sem_pc :=
  if orig ≠ 0 then .line309
  else
    match b with
    | .mach => .line317
    | .posix => .line330

/-- Where the loop `while (orig < 0)` of lines 373-383 goes with the value
`orig`: to the compare-and-swap of line 374, or on to `case
DISPATCH_TIME_FOREVER`. -/
def sem_pc.undo (orig : Int) : sem_pc :=
  if orig < 0 then .line374 else .line388

/-- One step of call `i` (semaphore.c lines 235-279 and 283-420).  A call whose
kernel wait has no answer yet, or that has returned or crashed, leaves the state
as it is. -/
def sem_step (b : sem_backend) (i : Nat) (s : sem_state) : sem_state :=
  let c := s.frames i
  let w := s.world
  match c.pc with
  | .entry =>
    match c.op with
    | .signal =>
      let value := dispatch_atomic_inc w.dsema.dsema_value
      let pc : sem_pc :=
        if value > 0 then .returned 0
        else if value = LONG_MIN then .crashed .unbalanced_signal
        else .line247
      { s.set_frame i { c with pc := pc } with world := w.set_value value }
    | .wait _ =>
      let value := dispatch_atomic_dec w.dsema.dsema_value
      let pc : sem_pc := if value >= 0 then .returned 0 else .line307
      { s.set_frame i { c with pc := pc } with world := w.set_value value }
  | .line247 =>
    let pc : sem_pc :=
      match b with
      | .mach => .line249
      | .posix => .line252
    { s.set_frame i { c with pc := pc } with
      world := w.set_sent_ksignals (dispatch_atomic_inc w.dsema.dsema_sent_ksignals) }
  | .line249 =>
    { s.set_frame i { c with pc := .line250 } with world := _dispatch_semaphore_create_port w }
  | .line250 =>
    let r := semaphore_signal w.dsema.dsema_port w
    let pc : sem_pc := if r.1 ≠ 0 then .crashed .flawed_logic else .returned 1
    { s.set_frame i { c with pc := pc } with world := r.2 }
  | .line252 =>
    let r := sem_post w.dsema.dsema_port w
    let pc : sem_pc := if r.1 = -1 then .crashed .flawed_logic else .returned 1
    { s.set_frame i { c with pc := pc, errno := if r.1 = -1 then r.2.errno else c.errno } with
      world := { r.2 with errno := w.errno } }
  | .line307 =>
    let orig := w.dsema.dsema_sent_ksignals
    s.set_frame i { c with pc := sem_pc.drain b orig, orig := orig }
  | .line309 =>
    if w.dsema.dsema_sent_ksignals = c.orig then
      { s.set_frame i { c with pc := .returned 0 } with
        world := w.set_sent_ksignals (wrap_long (c.orig - 1)) }
    else
      let orig := w.dsema.dsema_sent_ksignals
      s.set_frame i { c with pc := sem_pc.drain b orig, orig := orig }
  | .line317 =>
    { s.set_frame i { c with pc := .line330 } with world := _dispatch_semaphore_create_port w }
  | .line330 =>
    match c.op with
    | .signal => s
    | .wait timeout =>
      if timeout = DISPATCH_TIME_FOREVER then s.set_frame i { c with pc := .line388 }
      else if timeout = DISPATCH_TIME_NOW then s.set_frame i { c with pc := .line370 }
      else
        match w.kernel with
        | [] => s
        | a :: rest =>
          let call := kernel_call.timedwait w.dsema.dsema_port timeout
          let w := { w with kernel := rest, trace := w.trace ++ [call] }
          let errno := errno_after b a c.errno
          match b with
          | .mach =>
            if a.code = KERN_ABORTED then { s with world := w }
            else if a.code ≠ KERN_OPERATION_TIMED_OUT then
              if a.code ≠ 0 then
                { s.set_frame i { c with pc := .crashed .flawed_logic } with world := w }
              else { s.set_frame i { c with pc := .line307 } with world := w }
            else { s.set_frame i { c with pc := .line370 } with world := w }
          | .posix =>
            if a.code = -1 ∧ errno = EINTR then
              { s.set_frame i { c with errno := errno } with world := w }
            else if a.code = -1 ∧ errno ≠ ETIMEDOUT then
              { s.set_frame i { c with pc := .crashed .flawed_logic, errno := errno } with
                world := w }
            else { s.set_frame i { c with pc := .line370, errno := errno } with world := w }
  | .line370 =>
    let orig := w.dsema.dsema_value
    s.set_frame i { c with pc := sem_pc.undo orig, orig := orig }
  | .line374 =>
    if w.dsema.dsema_value = c.orig then
      match b with
      | .mach =>
        { s.set_frame i { c with pc := .returned KERN_OPERATION_TIMED_OUT } with
          world := w.set_value (wrap_long (c.orig + 1)) }
      | .posix =>
        { s.set_frame i { c with pc := .returned (-1), errno := ETIMEDOUT } with
          world := w.set_value (wrap_long (c.orig + 1)) }
    else
      let orig := w.dsema.dsema_value
      s.set_frame i { c with pc := sem_pc.undo orig, orig := orig }
  | .line388 =>
    match w.kernel with
    | [] => s
    | a :: rest =>
      let call := kernel_call.wait w.dsema.dsema_port
      let w := { w with kernel := rest, trace := w.trace ++ [call] }
      let errno := errno_after b a c.errno
      match b with
      | .mach =>
        if a.code = KERN_ABORTED then { s with world := w }
        else if a.code ≠ 0 then
          { s.set_frame i { c with pc := .crashed .flawed_logic } with world := w }
        else { s.set_frame i { c with pc := .line307 } with world := w }
      | .posix =>
        if a.code ≠ 0 then { s.set_frame i { c with errno := errno } with world := w }
        else { s.set_frame i { c with pc := .line307, errno := errno } with world := w }
  | .returned _ => s
  | .crashed _ => s

/-- An interleaving: the calls named by the schedule take one step each, in
that order. -/
def sem_run (b : sem_backend) : List Nat → sem_state → sem_state
  | [], s => s
  | i :: sched, s => sem_run b sched (sem_step b i s)

/-- The invariant of the interleavings of signal and wait calls on one
semaphore, `n` bounding the steps taken so far: `dsema_sent_ksignals` is
within `0 .. n`, and a call that stands at the compare-and-swap of line 309
holds a non-zero `orig`. -/
def sem_inv (n : Nat) (s : sem_state) : Prop :=
  0 ≤ s.world.dsema.dsema_sent_ksignals ∧ s.world.dsema.dsema_sent_ksignals ≤ n ∧
    ∀ i, (s.frames i).pc = sem_pc.line309 → (s.frames i).orig ≠ 0

end Dispatch

namespace Fishhook

/-! ## fishhook.c: rebinding the indirect symbol pointers of a section -/

/-- Value of `INDIRECT_SYMBOL_LOCAL` in `<mach-o/loader.h>` (a system header). -/
def INDIRECT_SYMBOL_LOCAL : Nat := 2147483648

/-- Value of `INDIRECT_SYMBOL_ABS` in `<mach-o/loader.h>`. -/
def INDIRECT_SYMBOL_ABS : Nat := 1073741824

/-- The bytes of `SEG_DATA_CONST`, `"__DATA_CONST"` (line 54). -/
def SEG_DATA_CONST : List Nat := [95, 95, 68, 65, 84, 65, 95, 67, 79, 78, 83, 84]

/-- Values of `PROT_READ`, `PROT_WRITE`, `PROT_EXEC` in `<sys/mman.h>`; the
`VM_PROT_*` bits of `<mach/vm_prot.h>` have the same values. -/
def PROT_READ : Nat := 1

def PROT_WRITE : Nat := 2

def PROT_EXEC : Nat := 4

/-- `struct rebinding` of fishhook.h, which is not part of the sources; the
fields are taken from their uses in fishhook.c: the bytes at `name`, the
pointer `replacement`, and `replaced`, the address of the cell that is to
receive the pointer found in the slot (`0` is `NULL`). -/
structure rebinding where
  name : List Nat
  replacement : Nat
  replaced : Nat
  deriving DecidableEq, Repr

/-- The fields of `section_t` that `perform_rebinding_with_section` reads. -/
structure section_t where
  segname : List Nat
  addr : Nat
  size : Nat
  reserved1 : Nat
  deriving DecidableEq, Repr

/-- The memory `perform_rebinding_with_section` writes: pointer-sized words by
address, and the `mprotect` calls made so far (address, length, protection). -/
structure Memory where
  mem : Nat → Nat
  mprotect : List (Nat × Nat × Nat)

/-- A store of one pointer. -/
def Memory.write (m : Memory) (a v : Nat) : Memory :=
  { m with mem := fun x => if x = a then v else m.mem x }

/-- The C string that starts with the bytes `s`: the bytes before the first
NUL (bytes past the end of a table read as NUL). -/
def c_string (s : List Nat) : List Nat := s.takeWhile (fun c => c ≠ 0)

/-- Whether `strcmp(a, b) == 0`. -/
def strcmp_zero (a b : List Nat) : Bool := c_string a = c_string b

/-- `prepend_rebindings` (lines 68-85): the return value and the new head of
the list (entries from the head on, each with its `rebindings_nel` elements).
`malloc_ok` says whether the two `malloc` calls succeed. -/
def prepend_rebindings (malloc_ok : Bool × Bool) (rebindings_head : List (List rebinding))
    (rebindings : List rebinding) (nel : Nat) : Int × List (List rebinding) :=
  if malloc_ok.1 = false then (-1, rebindings_head)
  else if malloc_ok.2 = false then (-1, rebindings_head)
  else (0, rebindings.take nel :: rebindings_head)

/-- Line 142: `symbol_name[0] && symbol_name[1]`. -/
def symbol_name_longer_than_1 (symbol_name : List Nat) : Bool :=
  symbol_name.getD 0 0 ≠ 0 && symbol_name.getD 1 0 ≠ 0

/-- Lines 147-162, `for (uint j = 0; j < cur->rebindings_nel; j++)`, from the
index `j` on, with one unit of fuel per element; the entry `cur` is its array
with its `rebindings_nel` elements, and `j` is a 32-bit counter compared with
that `size_t` count.  `some (some r)`: `r` is the first element that passes the
test of lines 149-150 (then `goto symbol_loop`); `some none`: the loop ends
with no match; `none`: the fuel runs out, which happens only when the counter
wraps before it reaches the count, and the loop never ends. -/
def match_in_entry (symbol_name : List Nat) (cur : List rebinding) :
    Nat → Nat → Option (Option rebinding)
  | 0, j => if j < cur.length then none else some none
  | fuel + 1, j =>
    if h : j < cur.length then
      if symbol_name_longer_than_1 symbol_name
          && strcmp_zero (symbol_name.drop 1) cur[j].name then
        some (some cur[j])
      else match_in_entry symbol_name cur fuel ((j + 1) % 4294967296)
    else some none

/-- Lines 144-164, `while (cur)`: the entries are searched from the head of the
list; the search ends at the first match (`goto symbol_loop`).  `none` when
the loop over an entry never ends. -/
def match_in_list (symbol_name : List Nat) :
    List (List rebinding) → Option (Option rebinding)
  | [] => some none
  | cur :: next =>
    match match_in_entry symbol_name cur cur.length 0 with
    | none => none
    | some (some r) => some (some r)
    | some none => match_in_list symbol_name next

/-- Address of `indirect_symbol_bindings[i]` (line 122; pointers are 8 bytes,
`__LP64__`). -/
def slot_address (sect : section_t) (slide : Nat) (i : Nat) : Nat :=
  ((slide + sect.addr) % 18446744073709551616 + 8 * i) % 18446744073709551616

/-- Lines 131-165, the body of the loop over the section for the slot `i`;
`none` when an index lies outside its table or when the search through the
rebindings never ends. -/
def rebind_slot (rebindings : List (List rebinding)) (sect : section_t) (slide : Nat)
    (symtab strtab indirect_symtab : List Nat) (i : Nat) (m : Memory) : Option Memory :=
  match indirect_symtab.get? (sect.reserved1 + i) with
  | none => none
  | some symtab_index =>
    if symtab_index = INDIRECT_SYMBOL_ABS ∨ symtab_index = INDIRECT_SYMBOL_LOCAL ∨
        symtab_index = INDIRECT_SYMBOL_LOCAL ||| INDIRECT_SYMBOL_ABS then some m
    else
      match symtab.get? symtab_index with
      | none => none
      | some strtab_offset =>
        let symbol_name := strtab.drop strtab_offset
        match match_in_list symbol_name rebindings with
        | none => none
        | some none => some m
        | some (some r) =>
          let slot := slot_address sect slide i
          let m :=
            if r.replaced ≠ 0 ∧ m.mem slot ≠ r.replacement then m.write r.replaced (m.mem slot)
            else m
          some (m.write slot r.replacement)

/-- Lines 130-166, `for (uint i = 0; i < section->size / sizeof(void *); i++)`
from the index `i` on, with one unit of fuel per slot; `i` is a 32-bit
counter.  `none` also when the fuel runs out, which happens only when the
counter wraps before it reaches the bound. -/
def rebind_loop (rebindings : List (List rebinding)) (sect : section_t) (slide : Nat)
    (symtab strtab indirect_symtab : List Nat) : Nat → Nat → Memory → Option Memory
  | 0, i, m => if i < sect.size / 8 then none else some m
  | fuel + 1, i, m =>
    if i < sect.size / 8 then
      match rebind_slot rebindings sect slide symtab strtab indirect_symtab i m with
      | none => none
      | some m =>
        rebind_loop rebindings sect slide symtab strtab indirect_symtab fuel
          ((i + 1) % 4294967296) m
    else some m

/-- `perform_rebinding_with_section` (lines 110-180).  `oldProtection` is what
`get_protection` obtains from `vm_region`. -/
def perform_rebinding_with_section (rebindings : List (List rebinding)) (sect : section_t)
    (slide : Nat) (symtab strtab indirect_symtab : List Nat) (oldProtection : Nat)
    (m : Memory) : Option Memory :=
  let isDataConst := strcmp_zero sect.segname SEG_DATA_CONST
  let indirect_symbol_bindings := slot_address sect slide 0
  let m :=
    if isDataConst then
      { m with mprotect :=
          m.mprotect ++ [(indirect_symbol_bindings, sect.size, PROT_READ ||| PROT_WRITE)] }
    else m
  match rebind_loop rebindings sect slide symtab strtab indirect_symtab (sect.size / 8) 0 m with
  | none => none
  | some m =>
    if isDataConst then
      let protection :=
        (if oldProtection &&& PROT_READ ≠ 0 then PROT_READ else 0)
        ||| (if oldProtection &&& PROT_WRITE ≠ 0 then PROT_WRITE else 0)
        ||| (if oldProtection &&& PROT_EXEC ≠ 0 then PROT_EXEC else 0)
      some { m with mprotect :=
        m.mprotect ++ [(indirect_symbol_bindings, sect.size, protection)] }
    else some m

/-- The rebinding in force for a symbol, in the words of the property rather
than of the code: the entries of the list are taken from its head (the most
recent `rebind_symbols` call first), and the rebinding is the first one whose
name equals the symbol name without its first character. -/
def most_recent_rebinding (rebindings : List (List rebinding)) (symbol_name : List Nat) :
    Option rebinding :=
  rebindings.flatten.find? (fun r => c_string r.name = (c_string symbol_name).drop 1)

/-- The index of an indirect symbol that the loop skips (lines 133-136). -/
def is_abs_or_local (symtab_index : Nat) : Prop :=
  symtab_index = INDIRECT_SYMBOL_ABS ∨ symtab_index = INDIRECT_SYMBOL_LOCAL ∨
    symtab_index = INDIRECT_SYMBOL_LOCAL ||| INDIRECT_SYMBOL_ABS

instance is_abs_or_local_decidable (symtab_index : Nat) :
    Decidable (is_abs_or_local symtab_index) :=
  inferInstanceAs (Decidable (symtab_index = INDIRECT_SYMBOL_ABS ∨
    symtab_index = INDIRECT_SYMBOL_LOCAL ∨
    symtab_index = INDIRECT_SYMBOL_LOCAL ||| INDIRECT_SYMBOL_ABS))

/-- The pointer `perform_rebinding_with_section` leaves in slot `i`, `old`
being the pointer it finds there. -/
def rebound (rebindings : List (List rebinding)) (sect : section_t)
    (symtab strtab indirect_symtab : List Nat) (i : Nat) (old : Nat) : Nat :=
  match indirect_symtab.get? (sect.reserved1 + i) with
  | none => old
  | some symtab_index =>
    if symtab_index = INDIRECT_SYMBOL_ABS ∨ symtab_index = INDIRECT_SYMBOL_LOCAL ∨
        symtab_index = INDIRECT_SYMBOL_LOCAL ||| INDIRECT_SYMBOL_ABS then old
    else
      match symtab.get? symtab_index with
      | none => old
      | some strtab_offset =>
        match match_in_list (strtab.drop strtab_offset) rebindings with
        | some (some r) => r.replacement
        | _ => old

end Fishhook

namespace Dispatch

/-! ## Auxiliary facts -/

theorem dispatch_atomic_inc_eq (x : Int) (h1 : LONG_MIN ≤ x) (h2 : x < LONG_MAX) :
    dispatch_atomic_inc x = x + 1 := by
  unfold LONG_MIN at h1
  unfold LONG_MAX at h2
  unfold dispatch_atomic_inc wrap_long
  omega

theorem dispatch_atomic_inc_max : dispatch_atomic_inc LONG_MAX = LONG_MIN := by
  decide

theorem dispatch_atomic_dec_eq (x : Int) (h1 : LONG_MIN < x) (h2 : x ≤ LONG_MAX) :
    dispatch_atomic_dec x = x - 1 := by
  unfold LONG_MIN at h1
  unfold LONG_MAX at h2
  unfold dispatch_atomic_dec wrap_long
  omega

theorem kernel_waits_append (s t : List kernel_call) :
    kernel_waits (s ++ t) = kernel_waits s + kernel_waits t := by
  induction s with
  | nil => simp [kernel_waits]
  | cons c s ih =>
    cases c
    all_goals simp [kernel_waits, ih]
    all_goals omega

theorem kernel_signals_append (s t : List kernel_call) :
    kernel_signals (s ++ t) = kernel_signals s + kernel_signals t := by
  induction s with
  | nil => simp [kernel_signals]
  | cons c s ih =>
    cases c
    all_goals simp [kernel_signals, ih]
    all_goals omega

theorem kernel_wait_dsema (b : sem_backend) (again : kernel_answer → Bool) (c : kernel_call)
    (w : World) : (kernel_wait b again c w).2.dsema = w.dsema := by
  simp [kernel_wait]

theorem kernel_wait_heap (b : sem_backend) (again : kernel_answer → Bool) (c : kernel_call)
    (w : World) : (kernel_wait b again c w).2.heap = w.heap := by
  simp [kernel_wait]

theorem kernel_wait_eq {b : sem_backend} {again : kernel_answer → Bool} {c : kernel_call}
    {w w1 : World} {o : Option kernel_answer} (h : kernel_wait b again c w = (o, w1)) :
    w1.dsema = w.dsema ∧ w1.heap = w.heap ∧ w1.async = w.async := by
  have h2 : w1 = (kernel_wait b again c w).2 := by rw [h]
  subst h2
  simp [kernel_wait]

theorem group_wait_forever_ret (b : sem_backend) (w w1 : World) (u : Unit)
    (h : group_wait_forever b w = Result.ret u w1) : w1.dsema = w.dsema := by
  unfold group_wait_forever at h
  cases b
  all_goals simp only at h
  all_goals split at h
  all_goals first
    | (exact Result.noConfusion h)
    | (split at h
       all_goals first
         | (exact Result.noConfusion h)
         | (injection h with _ h2
            subst h2
            exact (kernel_wait_eq (by assumption)).1))

theorem group_wait_undo_ret (b : sem_backend) (w : World) (r : Result Int)
    (h : group_wait_undo b w = some r) :
    ∃ w1, r = Result.ret (timed_out_code b) w1 ∧ w1.dsema.dsema_value = w.dsema.dsema_value := by
  unfold group_wait_undo at h
  simp only at h
  split at h
  · cases b
    all_goals simp only [Option.some.injEq] at h
    all_goals subst h
    all_goals exact ⟨_, rfl, rfl⟩
  · cases h

theorem group_wait_switch_ret (b : sem_backend) (timeout : Nat) (w w1 : World) (r : Option Int)
    (h : group_wait_switch b timeout w = Result.ret r w1) :
    w1.dsema.dsema_value = w.dsema.dsema_value ∧ ∀ v, r = some v → v = timed_out_code b := by
  have hforever : ∀ (w w1 : World) (r : Option Int),
      (match group_wait_forever b w with
        | Result.ret _ w => Result.ret none w
        | Result.crash c w => Result.crash c w
        | Result.hang w => Result.hang w) = Result.ret r w1 →
      w1.dsema.dsema_value = w.dsema.dsema_value ∧ ∀ v, r = some v → v = timed_out_code b := by
    intro w w1 r h
    split at h
    · rename_i u w2 heq
      injection h with h1 h2
      subst h1 h2
      exact ⟨by rw [group_wait_forever_ret b w w2 u heq], fun v hv => by cases hv⟩
    · cases h
    · cases h
  have hnow : ∀ (w w1 : World) (r : Option Int),
      (match group_wait_undo b w with
        | some (Result.ret v w) => Result.ret (some v) w
        | some (Result.crash c w) => Result.crash c w
        | some (Result.hang w) => Result.hang w
        | none =>
          match group_wait_forever b w with
          | Result.ret _ w => Result.ret none w
          | Result.crash c w => Result.crash c w
          | Result.hang w => Result.hang w) = Result.ret r w1 →
      w1.dsema.dsema_value = w.dsema.dsema_value ∧ ∀ v, r = some v → v = timed_out_code b := by
    intro w w1 r h
    split at h
    · rename_i v w2 heq
      obtain ⟨w3, h3, h4⟩ := group_wait_undo_ret b w _ heq
      injection h3 with h5 h6
      injection h with h1 h2
      subst h1 h2 h5 h6
      exact ⟨h4, fun v hv => by cases hv; rfl⟩
    · cases h
    · cases h
    · exact hforever w w1 r h
  unfold group_wait_switch at h
  simp only at h
  split at h
  · exact hforever w w1 r h
  · split at h
    · exact hnow w w1 r h
    · cases b
      all_goals simp only at h
      all_goals split at h
      all_goals first
        | (exact Result.noConfusion h)
        | (have key := (kernel_wait_eq (by assumption)).1
           rw [← key]
           split at h
           · split at h
             · cases h
             · injection h with h1 h2
               subst h1 h2
               exact ⟨rfl, fun v hv => by cases hv⟩
           · exact hnow _ w1 r h)

theorem timed_out_code_ne_zero (b : sem_backend) : timed_out_code b ≠ 0 := by
  cases b <;> decide

theorem _dispatch_semaphore_create_port_dsema_value (w : World) :
    (_dispatch_semaphore_create_port w).dsema.dsema_value = w.dsema.dsema_value := by
  unfold _dispatch_semaphore_create_port
  split <;> simp [kernel_create]

theorem group_wait_slow_loop_ne_zero (b : sem_backend) (timeout : Nat) (n : Nat) :
    ∀ (w w1 : World), w.dsema.dsema_value ≠ LONG_MAX →
      group_wait_slow_loop b timeout n w ≠ Result.ret 0 w1 := by
  induction n with
  | zero =>
    intro w w1 _ h
    simp [group_wait_slow_loop] at h
  | succ n ih =>
    intro w w1 hv h
    unfold group_wait_slow_loop at h
    simp only [hv, if_false, World.set_group_waiters] at h
    split at h
    · rename_i v w2 heq
      obtain ⟨_, h2⟩ := group_wait_switch_ret b timeout _ _ _ heq
      injection h with h3 h4
      exact timed_out_code_ne_zero b ((h2 v rfl).symm.trans h3)
    · rename_i w2 heq
      obtain ⟨h1, _⟩ := group_wait_switch_ret b timeout _ _ _ heq
      refine ih w2 w1 ?_ h
      rw [h1]
      cases b
      · simpa [_dispatch_semaphore_create_port_dsema_value] using hv
      · simpa using hv
    · cases h
    · cases h

theorem dispatch_group_wait_zero_iff (b : sem_backend) (timeout : Nat) (w : World) :
    (∃ w1, dispatch_group_wait b timeout w = Result.ret 0 w1) ↔
      w.dsema.dsema_value = LONG_MAX := by
  constructor
  · rintro ⟨w1, h⟩
    by_contra hv
    unfold dispatch_group_wait at h
    simp only [hv, if_false] at h
    split at h
    · cases b
      all_goals simp only at h
      all_goals injection h with h1 _
      all_goals revert h1
      all_goals decide
    · exact group_wait_slow_loop_ne_zero b timeout _ w w1 hv h
  · intro h
    exact ⟨w, by simp [dispatch_group_wait, h]⟩

theorem set_value_set_value (w : World) (x y : Int) :
    (w.set_value x).set_value y = w.set_value y := rfl

theorem set_value_self (w : World) : w.set_value w.dsema.dsema_value = w := rfl

theorem set_value_dsema_value (w : World) (x : Int) : (w.set_value x).dsema.dsema_value = x := rfl

theorem dispatch_group_enter_ok (w : World) (h1 : 0 < w.dsema.dsema_value)
    (h2 : w.dsema.dsema_value ≤ LONG_MAX) :
    dispatch_group_enter w = Result.ret () (w.set_value (w.dsema.dsema_value - 1)) := by
  have hd : dispatch_atomic_dec w.dsema.dsema_value = w.dsema.dsema_value - 1 :=
    dispatch_atomic_dec_eq _ (by unfold LONG_MIN; omega) h2
  have h3 : ¬ (w.dsema.dsema_value - 1 < 0) := by omega
  simp [dispatch_group_enter, hd, h3]

theorem dispatch_group_enter_ret (w w1 : World) (u : Unit) (h1 : LONG_MIN < w.dsema.dsema_value)
    (h2 : w.dsema.dsema_value ≤ LONG_MAX) (h : dispatch_group_enter w = Result.ret u w1) :
    0 < w.dsema.dsema_value ∧ w1 = w.set_value (w.dsema.dsema_value - 1) := by
  have hd : dispatch_atomic_dec w.dsema.dsema_value = w.dsema.dsema_value - 1 :=
    dispatch_atomic_dec_eq _ h1 h2
  unfold dispatch_group_enter at h
  simp only [hd] at h
  split at h
  · cases h
  · injection h with _ h4
    exact ⟨by omega, h4.symm⟩

theorem _dispatch_group_wake_bare (b : sem_backend) (w : World) (h : group_bare w) :
    _dispatch_group_wake b w = Result.ret 0 w := by
  obtain ⟨h1, h2⟩ := h
  obtain ⟨d, hp, k, t, a, e, p⟩ := w
  obtain ⟨o1, o2, o3, o4, o5, o6, o7⟩ := d
  simp only at h1 h2
  subst h1 h2
  simp [_dispatch_group_wake, World.set_group_waiters]

theorem dispatch_group_leave_ret (b : sem_backend) (w w1 : World) (u : Unit)
    (h1 : 0 ≤ w.dsema.dsema_value) (h2 : w.dsema.dsema_value ≤ LONG_MAX) (hb : group_bare w)
    (h : dispatch_group_leave b w = Result.ret u w1) :
    w.dsema.dsema_value < LONG_MAX ∧ w1 = w.set_value (w.dsema.dsema_value + 1) := by
  have hlt : w.dsema.dsema_value < LONG_MAX := by
    by_contra hc
    have he : w.dsema.dsema_value = LONG_MAX := by omega
    unfold dispatch_group_leave at h
    simp only [he, dispatch_atomic_inc_max] at h
    simp [show LONG_MIN < 0 by decide] at h
  have hi : dispatch_atomic_inc w.dsema.dsema_value = w.dsema.dsema_value + 1 :=
    dispatch_atomic_inc_eq _ (by unfold LONG_MIN; omega) hlt
  refine ⟨hlt, ?_⟩
  unfold dispatch_group_leave at h
  simp only [hi] at h
  have h3 : ¬ (w.dsema.dsema_value + 1 < 0) := by omega
  simp only [h3, if_false] at h
  split at h
  · have hb2 : group_bare (w.set_value (w.dsema.dsema_value + 1)) := hb
    rw [_dispatch_group_wake_bare b _ hb2] at h
    simp only at h
    injection h with _ h4
    exact h4.symm
  · injection h with _ h4
    exact h4.symm

theorem group_calls_value (b : sem_backend) (ops : List group_op) :
    ∀ (w w1 : World), 0 ≤ w.dsema.dsema_value → w.dsema.dsema_value ≤ LONG_MAX → group_bare w →
      group_calls b ops w = some w1 →
      w1.dsema.dsema_value = w.dsema.dsema_value - (count_enters ops - count_leaves ops : Int) ∧
      0 ≤ w1.dsema.dsema_value ∧ w1.dsema.dsema_value ≤ LONG_MAX ∧ group_bare w1 ∧
      w1.dsema.dsema_orig = w.dsema.dsema_orig := by
  induction ops with
  | nil =>
    intro w w1 h1 h2 hb h
    simp only [group_calls, Option.some.injEq] at h
    subst h
    simp [count_enters, count_leaves, h1, h2, hb]
  | cons op ops ih =>
    intro w w1 h1 h2 hb h
    unfold group_calls at h
    split at h
    · rename_i u w2 heq
      cases op
      · obtain ⟨h3, h4⟩ := dispatch_group_enter_ret w w2 u (by unfold LONG_MIN; omega) h2 heq
        subst h4
        obtain ⟨h5, h6, h7, h8, h9⟩ := ih (w.set_value (w.dsema.dsema_value - 1)) w1
          (by simp only [set_value_dsema_value]; omega)
          (by simp only [set_value_dsema_value]; omega) hb h
        simp only [set_value_dsema_value] at h5
        refine ⟨?_, h6, h7, h8, h9⟩
        simp only [count_enters, count_leaves]
        push_cast
        omega
      · obtain ⟨h3, h4⟩ := dispatch_group_leave_ret b w w2 u h1 h2 hb heq
        subst h4
        obtain ⟨h5, h6, h7, h8, h9⟩ := ih (w.set_value (w.dsema.dsema_value + 1)) w1
          (by simp only [set_value_dsema_value]; omega)
          (by simp only [set_value_dsema_value]; omega) hb h
        simp only [set_value_dsema_value] at h5
        refine ⟨?_, h6, h7, h8, h9⟩
        simp only [count_enters, count_leaves]
        push_cast
        omega
    · cases h
    · cases h

theorem dispatch_group_create_fresh (b : sem_backend) (w : World) :
    (dispatch_group_create b w).dsema.dsema_value = LONG_MAX ∧
    (dispatch_group_create b w).dsema.dsema_orig = LONG_MAX ∧
    group_bare (dispatch_group_create b w) := by
  cases b <;> simp [dispatch_group_create, _dispatch_semaphore_init, _dispatch_alloc,
    kernel_create, group_bare]

theorem semaphore_wait_forever_ret (b : sem_backend) (w w1 : World) (u : Unit)
    (h : semaphore_wait_forever b w = Result.ret u w1) : w1.dsema = w.dsema := by
  unfold semaphore_wait_forever at h
  cases b
  all_goals simp only at h
  all_goals split at h
  all_goals first
    | (exact Result.noConfusion h)
    | (split at h
       all_goals first
         | (exact Result.noConfusion h)
         | (injection h with _ h2
            subst h2
            exact (kernel_wait_eq (by assumption)).1))

theorem semaphore_wait_undo_ret (b : sem_backend) (w : World) (r : Result Int)
    (h : semaphore_wait_undo b w = some r) :
    ∃ w1, r = Result.ret (timed_out_code b) w1 ∧
      w1.dsema.dsema_sent_ksignals = w.dsema.dsema_sent_ksignals := by
  unfold semaphore_wait_undo at h
  simp only at h
  split at h
  · cases b
    all_goals simp only [Option.some.injEq] at h
    all_goals subst h
    all_goals exact ⟨_, rfl, rfl⟩
  · cases h

theorem semaphore_wait_switch_ret (b : sem_backend) (timeout : Nat) (w w1 : World)
    (r : Option Int) (h : semaphore_wait_switch b timeout w = Result.ret r w1) :
    w1.dsema.dsema_sent_ksignals = w.dsema.dsema_sent_ksignals ∧
      ∀ v, r = some v → v = timed_out_code b := by
  have hforever : ∀ (w w1 : World) (r : Option Int),
      (match semaphore_wait_forever b w with
        | Result.ret _ w => Result.ret none w
        | Result.crash c w => Result.crash c w
        | Result.hang w => Result.hang w) = Result.ret r w1 →
      w1.dsema.dsema_sent_ksignals = w.dsema.dsema_sent_ksignals ∧
        ∀ v, r = some v → v = timed_out_code b := by
    intro w w1 r h
    split at h
    · rename_i u w2 heq
      injection h with h1 h2
      subst h1 h2
      exact ⟨by rw [semaphore_wait_forever_ret b w w2 u heq], fun v hv => by cases hv⟩
    · cases h
    · cases h
  have hnow : ∀ (w w1 : World) (r : Option Int),
      (match semaphore_wait_undo b w with
        | some (Result.ret v w) => Result.ret (some v) w
        | some (Result.crash c w) => Result.crash c w
        | some (Result.hang w) => Result.hang w
        | none =>
          match semaphore_wait_forever b w with
          | Result.ret _ w => Result.ret none w
          | Result.crash c w => Result.crash c w
          | Result.hang w => Result.hang w) = Result.ret r w1 →
      w1.dsema.dsema_sent_ksignals = w.dsema.dsema_sent_ksignals ∧
        ∀ v, r = some v → v = timed_out_code b := by
    intro w w1 r h
    split at h
    · rename_i v w2 heq
      obtain ⟨w3, h3, h4⟩ := semaphore_wait_undo_ret b w _ heq
      injection h3 with h5 h6
      injection h with h1 h2
      subst h1 h2 h5 h6
      exact ⟨h4, fun v hv => by cases hv; rfl⟩
    · cases h
    · cases h
    · exact hforever w w1 r h
  unfold semaphore_wait_switch at h
  simp only at h
  split at h
  · exact hforever w w1 r h
  · split at h
    · exact hnow w w1 r h
    · cases b
      all_goals simp only at h
      all_goals split at h
      all_goals first
        | (exact Result.noConfusion h)
        | (have key := (kernel_wait_eq (by assumption)).1
           rw [← key]
           split at h
           · split at h
             · cases h
             · injection h with h1 h2
               subst h1 h2
               exact ⟨rfl, fun v hv => by cases hv⟩
           · exact hnow _ w1 r h)

theorem _dispatch_semaphore_create_port_sent_ksignals (w : World) :
    (_dispatch_semaphore_create_port w).dsema.dsema_sent_ksignals
      = w.dsema.dsema_sent_ksignals := by
  unfold _dispatch_semaphore_create_port
  split <;> simp [kernel_create]

theorem semaphore_wait_slow_loop_ne_zero (b : sem_backend) (timeout : Nat) (n : Nat) :
    ∀ (w w1 : World), w.dsema.dsema_sent_ksignals = 0 →
      semaphore_wait_slow_loop b timeout n w ≠ Result.ret 0 w1 := by
  induction n with
  | zero =>
    intro w w1 _ h
    simp [semaphore_wait_slow_loop] at h
  | succ n ih =>
    intro w w1 hs h
    unfold semaphore_wait_slow_loop at h
    simp only [hs, ne_eq, not_true_eq_false, if_false] at h
    split at h
    · rename_i v w2 heq
      obtain ⟨_, h2⟩ := semaphore_wait_switch_ret b timeout _ _ _ heq
      injection h with h3 h4
      exact timed_out_code_ne_zero b ((h2 v rfl).symm.trans h3)
    · rename_i w2 heq
      obtain ⟨h1, _⟩ := semaphore_wait_switch_ret b timeout _ _ _ heq
      refine ih w2 w1 ?_ h
      rw [h1]
      cases b
      · simpa [_dispatch_semaphore_create_port_sent_ksignals] using hs
      · simpa using hs
    · cases h
    · cases h

theorem dispatch_semaphore_wait_zero (b : sem_backend) (timeout : Nat) (w w1 : World)
    (h1 : 0 ≤ w.dsema.dsema_value) (h2 : w.dsema.dsema_value ≤ LONG_MAX)
    (hs : w.dsema.dsema_sent_ksignals = 0)
    (h : dispatch_semaphore_wait b timeout w = Result.ret 0 w1) :
    0 < w.dsema.dsema_value ∧ w1 = w.set_value (w.dsema.dsema_value - 1) := by
  have hd : dispatch_atomic_dec w.dsema.dsema_value = w.dsema.dsema_value - 1 :=
    dispatch_atomic_dec_eq _ (by unfold LONG_MIN; omega) h2
  unfold dispatch_semaphore_wait at h
  simp only [hd] at h
  split at h
  · injection h with _ h4
    exact ⟨by omega, h4.symm⟩
  · exact absurd h (semaphore_wait_slow_loop_ne_zero b timeout _ _ w1 hs)

theorem dispatch_semaphore_signal_zero (b : sem_backend) (w w1 : World)
    (h1 : 0 ≤ w.dsema.dsema_value) (h2 : w.dsema.dsema_value ≤ LONG_MAX)
    (h : dispatch_semaphore_signal b w = Result.ret 0 w1) :
    w.dsema.dsema_value < LONG_MAX ∧ w1 = w.set_value (w.dsema.dsema_value + 1) := by
  have hlt : w.dsema.dsema_value < LONG_MAX := by
    by_contra hc
    have he : w.dsema.dsema_value = LONG_MAX := by omega
    unfold dispatch_semaphore_signal at h
    simp only [he, dispatch_atomic_inc_max] at h
    simp [show ¬ (LONG_MIN > 0) by decide] at h
  have hi : dispatch_atomic_inc w.dsema.dsema_value = w.dsema.dsema_value + 1 :=
    dispatch_atomic_inc_eq _ (by unfold LONG_MIN; omega) hlt
  refine ⟨hlt, ?_⟩
  unfold dispatch_semaphore_signal at h
  simp only [hi] at h
  have h3 : w.dsema.dsema_value + 1 > 0 := by omega
  simp only [h3, if_true] at h
  injection h with _ h4
  exact h4.symm

theorem sem_calls_zero_value (b : sem_backend) (ops : List sem_op) :
    ∀ (w w1 : World), 0 ≤ w.dsema.dsema_value → w.dsema.dsema_value ≤ LONG_MAX →
      w.dsema.dsema_sent_ksignals = 0 → sem_calls_zero b ops w = some w1 →
      w1.dsema.dsema_value = w.dsema.dsema_value + count_signals ops - count_waits ops ∧
      w1.dsema.dsema_orig = w.dsema.dsema_orig := by
  induction ops with
  | nil =>
    intro w w1 h1 h2 hs h
    simp only [sem_calls_zero, Option.some.injEq] at h
    subst h
    simp [count_signals, count_waits]
  | cons op ops ih =>
    intro w w1 h1 h2 hs h
    unfold sem_calls_zero at h
    split at h
    · rename_i v w2 heq
      split at h
      · rename_i hv
        subst hv
        cases op
        · obtain ⟨h3, h4⟩ := dispatch_semaphore_signal_zero b w w2 h1 h2 heq
          subst h4
          obtain ⟨h5, h6⟩ := ih (w.set_value (w.dsema.dsema_value + 1)) w1
            (by simp only [set_value_dsema_value]; omega)
            (by simp only [set_value_dsema_value]; omega) hs h
          simp only [set_value_dsema_value] at h5
          refine ⟨?_, h6⟩
          simp only [count_signals, count_waits]
          push_cast
          omega
        · obtain ⟨h3, h4⟩ := dispatch_semaphore_wait_zero b _ w w2 h1 h2 hs heq
          subst h4
          obtain ⟨h5, h6⟩ := ih (w.set_value (w.dsema.dsema_value - 1)) w1
            (by simp only [set_value_dsema_value]; omega)
            (by simp only [set_value_dsema_value]; omega) hs h
          simp only [set_value_dsema_value] at h5
          refine ⟨?_, h6⟩
          simp only [count_signals, count_waits]
          push_cast
          omega
      · cases h
    · cases h
    · cases h

theorem dispatch_semaphore_create_fresh (b : sem_backend) (v : Int) (w0 s : World)
    (h : dispatch_semaphore_create b v w0 = some s) :
    0 ≤ v ∧ s.dsema.dsema_value = v ∧ s.dsema.dsema_orig = v ∧
      s.dsema.dsema_sent_ksignals = 0 ∧ s.kernel = w0.kernel := by
  unfold dispatch_semaphore_create at h
  split at h
  · cases h
  · simp only [Option.some.injEq] at h
    subst h
    refine ⟨by omega, ?_⟩
    cases b <;> simp [_dispatch_semaphore_init, _dispatch_alloc, kernel_create]

theorem dispatch_semaphore_create_some (b : sem_backend) (v : Int) (w0 : World) (h : 0 ≤ v) :
    ∃ s, dispatch_semaphore_create b v w0 = some s := by
  have h1 : ¬ v < 0 := by omega
  exact ⟨_dispatch_semaphore_init b v { w0 with dsema := _dispatch_alloc },
    by simp [dispatch_semaphore_create, h1]⟩

theorem sem_calls_zero_waits (b : sem_backend) (timeout : Nat) (k : Nat) :
    ∀ (w : World), (k : Int) ≤ w.dsema.dsema_value → w.dsema.dsema_value ≤ LONG_MAX →
      sem_calls_zero b (List.replicate k (sem_op.wait timeout)) w
        = some (w.set_value (w.dsema.dsema_value - k)) := by
  induction k with
  | zero =>
    intro w _ _
    simp [sem_calls_zero, set_value_self]
  | succ k ih =>
    intro w h1 h2
    push_cast at h1
    have hd : dispatch_atomic_dec w.dsema.dsema_value = w.dsema.dsema_value - 1 :=
      dispatch_atomic_dec_eq _ (by unfold LONG_MIN; omega) h2
    have h3 : w.dsema.dsema_value - 1 ≥ 0 := by omega
    have h4 := ih (w.set_value (w.dsema.dsema_value - 1))
      (by simp only [set_value_dsema_value]; omega)
      (by simp only [set_value_dsema_value]; omega)
    simp only [set_value_dsema_value, set_value_set_value] at h4
    simp only [List.replicate_succ, sem_calls_zero, sem_op.call, dispatch_semaphore_wait, hd, h3,
      if_true, h4]
    push_cast
    congr 2
    omega

theorem dispatch_semaphore_wait_deadline (b : sem_backend) (timeout : Nat) (w : World)
    (rest : List kernel_answer) (ht1 : timeout ≠ DISPATCH_TIME_NOW)
    (ht2 : timeout ≠ DISPATCH_TIME_FOREVER) (hv : w.dsema.dsema_value = 0)
    (hs : w.dsema.dsema_sent_ksignals = 0) (hk : w.kernel = timed_out_answer b :: rest) :
    ∃ w1, dispatch_semaphore_wait b timeout w = Result.ret (timed_out_code b) w1 ∧
      w1.dsema.dsema_value = 0 ∧ kernel_waits w1.trace = kernel_waits w.trace + 1 := by
  have hd : dispatch_atomic_dec 0 = -1 := by decide
  have hw : wrap_long 0 = 0 := by decide
  cases b
  · by_cases hp : w.dsema.dsema_port = 0
    all_goals simp [dispatch_semaphore_wait, hv, hd, _dispatch_semaphore_wait_slow,
      semaphore_wait_slow_loop, World.set_value, hs, semaphore_wait_switch, ht1, ht2,
      _dispatch_semaphore_create_port, hp, kernel_create, kernel_wait, hk, kernel_wait_retry,
      timed_out_answer, KERN_OPERATION_TIMED_OUT, KERN_ABORTED, semaphore_wait_undo, hw,
      timed_out_code, kernel_waits_append, kernel_waits, errno_after]
  · simp [dispatch_semaphore_wait, hv, hd, _dispatch_semaphore_wait_slow,
      semaphore_wait_slow_loop, World.set_value, hs, semaphore_wait_switch, ht1, ht2,
      kernel_wait, hk, kernel_wait_retry,
      timed_out_answer, ETIMEDOUT, EINTR, semaphore_wait_undo, hw,
      timed_out_code, kernel_waits_append, kernel_waits, errno_after]

theorem group_calls_append (b : sem_backend) (xs ys : List group_op) :
    ∀ (w : World), group_calls b (xs ++ ys) w = (group_calls b xs w).bind (group_calls b ys) := by
  induction xs with
  | nil =>
    intro w
    simp [group_calls]
  | cons x xs ih =>
    intro w
    simp only [List.cons_append, group_calls]
    split
    · exact ih _
    · rfl
    · rfl

theorem group_calls_enters (b : sem_backend) (k : Nat) :
    ∀ (w : World), (k : Int) ≤ w.dsema.dsema_value → w.dsema.dsema_value ≤ LONG_MAX →
      group_calls b (List.replicate k group_op.enter) w
        = some (w.set_value (w.dsema.dsema_value - k)) := by
  induction k with
  | zero =>
    intro w _ _
    simp [group_calls, set_value_self]
  | succ k ih =>
    intro w h1 h2
    push_cast at h1
    have h3 := dispatch_group_enter_ok w (by omega) h2
    have h4 := ih (w.set_value (w.dsema.dsema_value - 1))
      (by simp only [set_value_dsema_value]; omega)
      (by simp only [set_value_dsema_value]; omega)
    simp only [set_value_dsema_value, set_value_set_value] at h4
    simp only [List.replicate_succ, group_calls, group_op.call, h3, h4]
    push_cast
    congr 2
    omega

/-! ## The fuel of the wait loops is never exhausted -/

theorem kernel_wait_retry_length (b : sem_backend) (again : kernel_answer → Bool) :
    ∀ (l : List kernel_answer) (e : Int) (a : kernel_answer),
      (kernel_wait_retry b again l e).1 = some a →
      (kernel_wait_retry b again l e).2.1.length < l.length := by
  intro l
  induction l with
  | nil =>
    intro e a h
    simp [kernel_wait_retry] at h
  | cons x l ih =>
    intro e a h
    unfold kernel_wait_retry at h ⊢
    split
    · rename_i hx
      simp only [hx, if_true] at h
      have := ih _ a h
      simp only [List.length_cons]
      omega
    · simp

theorem kernel_wait_length {b : sem_backend} {again : kernel_answer → Bool} {c : kernel_call}
    {w w1 : World} {a : kernel_answer} (h : kernel_wait b again c w = (some a, w1)) :
    w1.kernel.length < w.kernel.length := by
  have h1 : (kernel_wait b again c w).1 = some a := by rw [h]
  have h2 : w1 = (kernel_wait b again c w).2 := by rw [h]
  subst h2
  simp only [kernel_wait] at h1 ⊢
  exact kernel_wait_retry_length b again _ _ a h1

theorem _dispatch_semaphore_create_port_kernel (w : World) :
    (_dispatch_semaphore_create_port w).kernel = w.kernel := by
  unfold _dispatch_semaphore_create_port
  split <;> simp [kernel_create]

theorem semaphore_wait_forever_length (b : sem_backend) (w w1 : World) (u : Unit)
    (h : semaphore_wait_forever b w = Result.ret u w1) :
    w1.kernel.length < w.kernel.length := by
  unfold semaphore_wait_forever at h
  cases b
  all_goals simp only at h
  all_goals split at h
  all_goals first
    | (exact Result.noConfusion h)
    | (split at h
       all_goals first
         | (exact Result.noConfusion h)
         | (injection h with _ h2
            subst h2
            exact kernel_wait_length (by assumption)))

theorem semaphore_wait_undo_kernel (b : sem_backend) (w w1 : World) (v : Int)
    (h : semaphore_wait_undo b w = some (Result.ret v w1)) : w1.kernel = w.kernel := by
  unfold semaphore_wait_undo at h
  simp only at h
  split at h
  · cases b
    all_goals simp only [Option.some.injEq, Result.ret.injEq] at h
    all_goals obtain ⟨_, h2⟩ := h
    all_goals subst h2
    all_goals rfl
  · cases h

theorem semaphore_wait_switch_length (b : sem_backend) (timeout : Nat) (w w1 : World)
    (h : semaphore_wait_switch b timeout w = Result.ret none w1) :
    w1.kernel.length < w.kernel.length := by
  have hforever : ∀ (w w1 : World),
      (match semaphore_wait_forever b w with
        | Result.ret _ w => Result.ret none w
        | Result.crash c w => Result.crash c w
        | Result.hang w => Result.hang w) = Result.ret (none : Option Int) w1 →
      w1.kernel.length < w.kernel.length := by
    intro w w1 h
    split at h
    · rename_i u w2 heq
      injection h with h1 h2
      subst h2
      exact semaphore_wait_forever_length b w w2 u heq
    · cases h
    · cases h
  have hnow : ∀ (w w1 : World),
      (match semaphore_wait_undo b w with
        | some (Result.ret v w) => Result.ret (some v) w
        | some (Result.crash c w) => Result.crash c w
        | some (Result.hang w) => Result.hang w
        | none =>
          match semaphore_wait_forever b w with
          | Result.ret _ w => Result.ret none w
          | Result.crash c w => Result.crash c w
          | Result.hang w => Result.hang w) = Result.ret (none : Option Int) w1 →
      w1.kernel.length < w.kernel.length := by
    intro w w1 h
    split at h
    · cases h
    · cases h
    · cases h
    · exact hforever w w1 h
  unfold semaphore_wait_switch at h
  simp only at h
  split at h
  · exact hforever w w1 h
  · split at h
    · exact hnow w w1 h
    · cases b
      all_goals simp only at h
      all_goals split at h
      all_goals first
        | (exact Result.noConfusion h)
        | (have key := kernel_wait_length (by assumption)
           split at h
           · split at h
             · cases h
             · injection h with h1 h2
               subst h2
               exact key
           · exact lt_trans (hnow _ w1 h) key)

theorem semaphore_wait_slow_loop_fuel (b : sem_backend) (timeout : Nat) (n : Nat) :
    ∀ (m : Nat) (w : World), w.kernel.length < n → w.kernel.length < m →
      semaphore_wait_slow_loop b timeout n w = semaphore_wait_slow_loop b timeout m w := by
  induction n with
  | zero =>
    intro m w h
    omega
  | succ n ih =>
    intro m w hn hm
    cases m with
    | zero => omega
    | succ m =>
      have hk : ∀ w2 : World, w2.kernel = w.kernel →
          (match semaphore_wait_switch b timeout w2 with
            | Result.ret (some v) w => Result.ret v w
            | Result.ret none w => semaphore_wait_slow_loop b timeout n w
            | Result.crash c w => Result.crash c w
            | Result.hang w => Result.hang w) =
          (match semaphore_wait_switch b timeout w2 with
            | Result.ret (some v) w => Result.ret v w
            | Result.ret none w => semaphore_wait_slow_loop b timeout m w
            | Result.crash c w => Result.crash c w
            | Result.hang w => Result.hang w) := by
        intro w2 hw2
        cases hsw : semaphore_wait_switch b timeout w2 with
        | ret r w3 =>
          cases r with
          | none =>
            have hlen := semaphore_wait_switch_length b timeout w2 w3 hsw
            rw [hw2] at hlen
            exact ih m w3 (by omega) (by omega)
          | some v => rfl
        | crash c w3 => rfl
        | hang w3 => rfl
      unfold semaphore_wait_slow_loop
      simp only
      split
      · rfl
      · cases b
        · exact hk _ (_dispatch_semaphore_create_port_kernel w)
        · exact hk _ rfl

theorem _dispatch_semaphore_wait_slow_fuel (b : sem_backend) (timeout : Nat) (w : World)
    (n : Nat) (h : w.kernel.length < n) :
    semaphore_wait_slow_loop b timeout n w = _dispatch_semaphore_wait_slow b timeout w :=
  semaphore_wait_slow_loop_fuel b timeout n _ w h (Nat.lt_succ_self _)

theorem group_wait_forever_length (b : sem_backend) (w w1 : World) (u : Unit)
    (h : group_wait_forever b w = Result.ret u w1) :
    w1.kernel.length < w.kernel.length := by
  unfold group_wait_forever at h
  cases b
  all_goals simp only at h
  all_goals split at h
  all_goals first
    | (exact Result.noConfusion h)
    | (split at h
       all_goals first
         | (exact Result.noConfusion h)
         | (injection h with _ h2
            subst h2
            exact kernel_wait_length (by assumption)))

theorem group_wait_switch_length (b : sem_backend) (timeout : Nat) (w w1 : World)
    (h : group_wait_switch b timeout w = Result.ret none w1) :
    w1.kernel.length < w.kernel.length := by
  have hforever : ∀ (w w1 : World),
      (match group_wait_forever b w with
        | Result.ret _ w => Result.ret none w
        | Result.crash c w => Result.crash c w
        | Result.hang w => Result.hang w) = Result.ret (none : Option Int) w1 →
      w1.kernel.length < w.kernel.length := by
    intro w w1 h
    split at h
    · rename_i u w2 heq
      injection h with h1 h2
      subst h2
      exact group_wait_forever_length b w w2 u heq
    · cases h
    · cases h
  have hnow : ∀ (w w1 : World),
      (match group_wait_undo b w with
        | some (Result.ret v w) => Result.ret (some v) w
        | some (Result.crash c w) => Result.crash c w
        | some (Result.hang w) => Result.hang w
        | none =>
          match group_wait_forever b w with
          | Result.ret _ w => Result.ret none w
          | Result.crash c w => Result.crash c w
          | Result.hang w => Result.hang w) = Result.ret (none : Option Int) w1 →
      w1.kernel.length < w.kernel.length := by
    intro w w1 h
    split at h
    · cases h
    · cases h
    · cases h
    · exact hforever w w1 h
  unfold group_wait_switch at h
  simp only at h
  split at h
  · exact hforever w w1 h
  · split at h
    · exact hnow w w1 h
    · cases b
      all_goals simp only at h
      all_goals split at h
      all_goals first
        | (exact Result.noConfusion h)
        | (have key := kernel_wait_length (by assumption)
           split at h
           · split at h
             · cases h
             · injection h with h1 h2
               subst h2
               exact key
           · exact lt_trans (hnow _ w1 h) key)

theorem group_wait_slow_loop_fuel (b : sem_backend) (timeout : Nat) (n : Nat) :
    ∀ (m : Nat) (w : World), w.kernel.length < n → w.kernel.length < m →
      group_wait_slow_loop b timeout n w = group_wait_slow_loop b timeout m w := by
  induction n with
  | zero =>
    intro m w h
    omega
  | succ n ih =>
    intro m w hn hm
    cases m with
    | zero => omega
    | succ m =>
      have hk : ∀ w2 : World, w2.kernel = w.kernel →
          (match group_wait_switch b timeout w2 with
            | Result.ret (some v) w => Result.ret v w
            | Result.ret none w => group_wait_slow_loop b timeout n w
            | Result.crash c w => Result.crash c w
            | Result.hang w => Result.hang w) =
          (match group_wait_switch b timeout w2 with
            | Result.ret (some v) w => Result.ret v w
            | Result.ret none w => group_wait_slow_loop b timeout m w
            | Result.crash c w => Result.crash c w
            | Result.hang w => Result.hang w) := by
        intro w2 hw2
        cases hsw : group_wait_switch b timeout w2 with
        | ret r w3 =>
          cases r with
          | none =>
            have hlen := group_wait_switch_length b timeout w2 w3 hsw
            rw [hw2] at hlen
            exact ih m w3 (by omega) (by omega)
          | some v => rfl
        | crash c w3 => rfl
        | hang w3 => rfl
      unfold group_wait_slow_loop
      simp only
      split
      · rfl
      · split
        · rfl
        · cases b
          · exact hk _ (by rw [_dispatch_semaphore_create_port_kernel]; rfl)
          · exact hk _ rfl

theorem _dispatch_group_wait_slow_fuel (b : sem_backend) (timeout : Nat) (w : World)
    (n : Nat) (h : w.kernel.length < n) :
    group_wait_slow_loop b timeout n w = _dispatch_group_wait_slow b timeout w :=
  group_wait_slow_loop_fuel b timeout n _ w h (Nat.lt_succ_self _)

/-! ## C1 -/

/-- C1: `dispatch_semaphore_create(value)` is `NULL` for every `value < 0`; for
every `value >= 0` it is a semaphore whose `dsema_value` and `dsema_orig` both
equal `value`. -/
theorem dispatch_semaphore_create_stores_value (b : sem_backend) (value : Int) (w : World) :
    (value < 0 → dispatch_semaphore_create b value w = none) ∧
    (0 ≤ value → ∃ s, dispatch_semaphore_create b value w = some s ∧
      s.dsema.dsema_value = value ∧ s.dsema.dsema_orig = value) := by
  constructor
  · intro h
    simp [dispatch_semaphore_create, h]
  · intro h
    have h' : ¬ value < 0 := by omega
    cases b <;> simp [dispatch_semaphore_create, h', _dispatch_semaphore_init, kernel_create]

/-- C1 at concrete inputs: `create(-1)` is `NULL`, `create(3)` holds `3` twice. -/
theorem dispatch_semaphore_create_stores_value_witness :
    dispatch_semaphore_create sem_backend.mach (-1) (World.boot []) = none ∧
    ∃ s, dispatch_semaphore_create sem_backend.mach 3 (World.boot []) = some s ∧
      s.dsema.dsema_value = 3 ∧ s.dsema.dsema_orig = 3 :=
  ⟨(dispatch_semaphore_create_stores_value sem_backend.mach (-1) (World.boot [])).1 (by decide),
   (dispatch_semaphore_create_stores_value sem_backend.mach 3 (World.boot [])).2 (by decide)⟩

/-! ## C2 -/

/-- C2: on a semaphore created with initial value `v`, after any sequence of
`dispatch_semaphore_signal` and `dispatch_semaphore_wait` calls that all
return `0`, `dsema_value` is `v + N - M` for `N` signals and `M` waits; in
particular, from value `0`, a signal followed by a wait return `0` both and
leave the value `0`. -/
theorem semaphore_value_after_calls (b : sem_backend) (v : Int) (w0 s : World)
    (ops : List sem_op) (w : World) (hv : v ≤ LONG_MAX)
    (hc : dispatch_semaphore_create b v w0 = some s)
    (hr : sem_calls_zero b ops s = some w) :
    w.dsema.dsema_value = v + count_signals ops - count_waits ops ∧
    ∀ (timeout : Nat) (u : World), u.dsema.dsema_value = 0 →
      ∃ u1 u2, dispatch_semaphore_signal b u = Result.ret 0 u1 ∧
        dispatch_semaphore_wait b timeout u1 = Result.ret 0 u2 ∧ u2.dsema.dsema_value = 0 := by
  obtain ⟨h0, h1, _, h3, _⟩ := dispatch_semaphore_create_fresh b v w0 s hc
  constructor
  · have := (sem_calls_zero_value b ops s w (by omega) (by omega) h3 hr).1
    rw [this, h1]
  · intro timeout u hu
    have hi : dispatch_atomic_inc 0 = 1 := by decide
    have hd : dispatch_atomic_dec 1 = 0 := by decide
    refine ⟨u.set_value 1, (u.set_value 1).set_value 0, ?_, ?_, rfl⟩
    · simp [dispatch_semaphore_signal, hu, hi]
    · simp [dispatch_semaphore_wait, set_value_dsema_value, hd]

/-- C2 at a concrete input: `create(1)`, then `signal; wait; wait; signal`
under `USE_MACH_SEM`. -/
theorem semaphore_value_after_calls_witness :
    (_dispatch_semaphore_init sem_backend.mach 1 (World.boot [])).dsema.dsema_value
      = 1 + count_signals [sem_op.signal, sem_op.wait 7, sem_op.wait 0, sem_op.signal]
          - count_waits [sem_op.signal, sem_op.wait 7, sem_op.wait 0, sem_op.signal] ∧
    ∀ (timeout : Nat) (u : World), u.dsema.dsema_value = 0 →
      ∃ u1 u2, dispatch_semaphore_signal sem_backend.mach u = Result.ret 0 u1 ∧
        dispatch_semaphore_wait sem_backend.mach timeout u1 = Result.ret 0 u2 ∧
        u2.dsema.dsema_value = 0 :=
  semaphore_value_after_calls sem_backend.mach 1 (World.boot [])
    (_dispatch_semaphore_init sem_backend.mach 1 (World.boot []))
    [sem_op.signal, sem_op.wait 7, sem_op.wait 0, sem_op.signal]
    (_dispatch_semaphore_init sem_backend.mach 1 (World.boot []))
    (by decide) (by decide) (by decide)

/-! ## C3 -/

/-- C3: on a semaphore whose value is `0`, or more generally `<= 0` (within the
data model's `value >= -LONG_MAX`), with no pending
`dsema_sent_ksignals`, `dispatch_semaphore_wait` with `DISPATCH_TIME_NOW`
returns the time-out code, issues no kernel wait and consumes no kernel answer,
and leaves `dsema_value` as it was before the call. -/
theorem dispatch_semaphore_wait_now_times_out (b : sem_backend) (w : World)
    (hlo : -LONG_MAX ≤ w.dsema.dsema_value) (hhi : w.dsema.dsema_value ≤ 0)
    (hs : w.dsema.dsema_sent_ksignals = 0) :
    ∃ w1, dispatch_semaphore_wait b DISPATCH_TIME_NOW w = Result.ret (timed_out_code b) w1 ∧
      w1.dsema.dsema_value = w.dsema.dsema_value ∧
      w1.kernel = w.kernel ∧ kernel_waits w1.trace = kernel_waits w.trace := by
  have h1 : dispatch_atomic_dec w.dsema.dsema_value = w.dsema.dsema_value - 1 := by
    unfold dispatch_atomic_dec wrap_long
    unfold LONG_MAX at hlo
    omega
  have h2 : wrap_long w.dsema.dsema_value = w.dsema.dsema_value := by
    unfold wrap_long
    unfold LONG_MAX at hlo
    omega
  have h3 : ¬ (w.dsema.dsema_value - 1 ≥ 0) := by omega
  have h4 : w.dsema.dsema_value - 1 < 0 := by omega
  cases b
  · by_cases hp : w.dsema.dsema_port = 0
    all_goals simp [dispatch_semaphore_wait, h1, h3, _dispatch_semaphore_wait_slow,
      semaphore_wait_slow_loop, World.set_value, hs, semaphore_wait_switch, DISPATCH_TIME_NOW,
      DISPATCH_TIME_FOREVER, semaphore_wait_undo, h4, h2, timed_out_code,
      _dispatch_semaphore_create_port, hp, kernel_create, kernel_waits, kernel_waits_append]
  · simp [dispatch_semaphore_wait, h1, h3, _dispatch_semaphore_wait_slow,
      semaphore_wait_slow_loop, World.set_value, hs, semaphore_wait_switch, DISPATCH_TIME_NOW,
      DISPATCH_TIME_FOREVER, semaphore_wait_undo, h4, h2, timed_out_code]

/-- C3 at a concrete input: a semaphore with value `-1` (one earlier waiter)
under `USE_MACH_SEM`. -/
theorem dispatch_semaphore_wait_now_times_out_witness :
    ∃ w1, dispatch_semaphore_wait sem_backend.mach DISPATCH_TIME_NOW
        ((World.boot []).set_value (-1)) = Result.ret (timed_out_code sem_backend.mach) w1 ∧
      w1.dsema.dsema_value = ((World.boot []).set_value (-1)).dsema.dsema_value ∧
      w1.kernel = ((World.boot []).set_value (-1)).kernel ∧
      kernel_waits w1.trace = kernel_waits ((World.boot []).set_value (-1)).trace :=
  dispatch_semaphore_wait_now_times_out sem_backend.mach ((World.boot []).set_value (-1))
    (by decide) (by decide) (by decide)

/-! ## C4 -/

/-- C4: for every `n >= 0`, on a semaphore created with `create(n)`: each of
the first `n` waits returns `0` on the fast path (the value after the `k`-th is
`n - k >= 0`, no kernel call is made and no kernel answer consumed); the
`(n+1)`-th wait, with a deadline, whose kernel timed wait times out returns the
time-out code and leaves the value `0`; a following signal returns `0` and
makes the value `1`; and the next wait returns `0`. -/
theorem semaphore_bounded_resource (b : sem_backend) (n : Nat) (w0 : World)
    (rest : List kernel_answer) (t1 t t2 : Nat) (hn : (n : Int) ≤ LONG_MAX)
    (hk : w0.kernel = timed_out_answer b :: rest)
    (ht1 : t ≠ DISPATCH_TIME_NOW) (ht2 : t ≠ DISPATCH_TIME_FOREVER) :
    ∃ s w1 w2 w3 w4, dispatch_semaphore_create b n w0 = some s ∧
      (∀ k, k ≤ n → ∃ wk, sem_calls_zero b (List.replicate k (sem_op.wait t1)) s = some wk ∧
        wk.dsema.dsema_value = n - k ∧ wk.trace = s.trace ∧ wk.kernel = s.kernel) ∧
      sem_calls_zero b (List.replicate n (sem_op.wait t1)) s = some w1 ∧
      dispatch_semaphore_wait b t w1 = Result.ret (timed_out_code b) w2 ∧
      kernel_waits w2.trace = kernel_waits w1.trace + 1 ∧
      w2.dsema.dsema_value = 0 ∧
      dispatch_semaphore_signal b w2 = Result.ret 0 w3 ∧ w3.dsema.dsema_value = 1 ∧
      dispatch_semaphore_wait b t2 w3 = Result.ret 0 w4 := by
  obtain ⟨s, hc⟩ := dispatch_semaphore_create_some b n w0 (by omega)
  obtain ⟨_, hsv, _, hss, hsk⟩ := dispatch_semaphore_create_fresh b n w0 s hc
  have hpre : ∀ k, k ≤ n →
      sem_calls_zero b (List.replicate k (sem_op.wait t1)) s = some (s.set_value (n - k)) := by
    intro k hkn
    have := sem_calls_zero_waits b t1 k s (by rw [hsv]; omega) (by rw [hsv]; exact hn)
    rw [this, hsv]
  obtain ⟨w2, hw2, hv2, hkw⟩ := dispatch_semaphore_wait_deadline b t (s.set_value 0) rest ht1 ht2
    rfl hss (hsk.trans hk)
  have hi : dispatch_atomic_inc 0 = 1 := by decide
  have hd : dispatch_atomic_dec 1 = 0 := by decide
  refine ⟨s, s.set_value 0, w2, w2.set_value 1, (w2.set_value 1).set_value 0, hc, ?_, ?_, hw2,
    hkw, hv2, ?_, rfl, ?_⟩
  · intro k hkn
    exact ⟨_, hpre k hkn, rfl, rfl, rfl⟩
  · have := hpre n (le_refl n)
    simpa using this
  · simp [dispatch_semaphore_signal, hv2, hi]
  · simp [dispatch_semaphore_wait, set_value_dsema_value, hd]

/-- C4 at a concrete input: `create(2)` under `USE_MACH_SEM`, the kernel
answering `KERN_OPERATION_TIMED_OUT` to the first timed wait. -/
theorem semaphore_bounded_resource_witness :
    ∃ s w1 w2 w3 w4,
      dispatch_semaphore_create sem_backend.mach (2 : Nat)
        (World.boot [timed_out_answer sem_backend.mach]) = some s ∧
      (∀ k, k ≤ 2 →
        ∃ wk, sem_calls_zero sem_backend.mach (List.replicate k (sem_op.wait 100)) s = some wk ∧
          wk.dsema.dsema_value = (2 : Nat) - k ∧ wk.trace = s.trace ∧ wk.kernel = s.kernel) ∧
      sem_calls_zero sem_backend.mach (List.replicate 2 (sem_op.wait 100)) s = some w1 ∧
      dispatch_semaphore_wait sem_backend.mach 100 w1
        = Result.ret (timed_out_code sem_backend.mach) w2 ∧
      kernel_waits w2.trace = kernel_waits w1.trace + 1 ∧
      w2.dsema.dsema_value = 0 ∧
      dispatch_semaphore_signal sem_backend.mach w2 = Result.ret 0 w3 ∧
      w3.dsema.dsema_value = 1 ∧
      dispatch_semaphore_wait sem_backend.mach 100 w3 = Result.ret 0 w4 :=
  semaphore_bounded_resource sem_backend.mach 2 (World.boot [timed_out_answer sem_backend.mach])
    [] 100 100 100 (by decide) rfl (by decide) (by decide)

/-! ## C5 -/

/-- C5: `_dispatch_semaphore_dispose` returns, having destroyed the handle when
there is one, when `dsema_value == dsema_orig`, and aborts with the
"deallocated while in use" crash when `dsema_value < dsema_orig`; so disposing
a group with more enters than leaves, or a semaphore on which more waits than
signals returned, aborts. -/
theorem _dispatch_semaphore_dispose_in_use (b : sem_backend) (w : World) :
    (w.dsema.dsema_value = w.dsema.dsema_orig → handle_ready b w →
      ∃ w1, _dispatch_semaphore_dispose b w = Result.ret () w1 ∧
        (w.dsema.dsema_port ≠ 0 →
          w1.trace = w.trace ++ [kernel_call.destroy w.dsema.dsema_port])) ∧
    (w.dsema.dsema_value < w.dsema.dsema_orig →
      _dispatch_semaphore_dispose b w = Result.crash crash_reason.deallocated_in_use w) ∧
    (∀ (w0 : World) (ops : List group_op),
      group_calls b ops (dispatch_group_create b w0) = some w →
      count_leaves ops < count_enters ops →
      _dispatch_semaphore_dispose b w = Result.crash crash_reason.deallocated_in_use w) ∧
    (∀ (w0 s : World) (v : Int) (ops : List sem_op), v ≤ LONG_MAX →
      dispatch_semaphore_create b v w0 = some s → sem_calls_zero b ops s = some w →
      count_signals ops < count_waits ops →
      _dispatch_semaphore_dispose b w = Result.crash crash_reason.deallocated_in_use w) := by
  have hlt : w.dsema.dsema_value < w.dsema.dsema_orig →
      _dispatch_semaphore_dispose b w = Result.crash crash_reason.deallocated_in_use w := by
    intro h
    simp [_dispatch_semaphore_dispose, h]
  refine ⟨?_, hlt, ?_, ?_⟩
  · intro h hr
    have h1 : ¬ (w.dsema.dsema_orig < w.dsema.dsema_orig) := by omega
    cases b
    · by_cases hp : w.dsema.dsema_port = 0
      all_goals simp [_dispatch_semaphore_dispose, h, h1, hp, semaphore_destroy, KERN_SUCCESS]
    · have hp : w.dsema.dsema_port ≠ 0 := hr rfl
      simp [_dispatch_semaphore_dispose, h, h1, hp, sem_destroy]
  · intro w0 ops hc hn
    obtain ⟨f1, f2, f3⟩ := dispatch_group_create_fresh b w0
    obtain ⟨g1, _, _, _, g5⟩ := group_calls_value b ops _ w (by rw [f1]; decide)
      (by rw [f1]) f3 hc
    apply hlt
    rw [g1, g5, f1, f2]
    have : (count_leaves ops : Int) < count_enters ops := by exact_mod_cast hn
    omega
  · intro w0 s v ops hv hc hr hn
    obtain ⟨h0, h1, h2, h3, _⟩ := dispatch_semaphore_create_fresh b v w0 s hc
    obtain ⟨g1, g2⟩ := sem_calls_zero_value b ops s w (by omega) (by omega) h3 hr
    apply hlt
    rw [g1, g2, h1, h2]
    have : (count_signals ops : Int) < count_waits ops := by exact_mod_cast hn
    omega

/-- C5 at concrete inputs under `USE_MACH_SEM`: a fresh `create(1)` is disposed
of; after one `wait` its disposal aborts. -/
theorem _dispatch_semaphore_dispose_in_use_witness :
    (∃ w1, _dispatch_semaphore_dispose sem_backend.mach
        (_dispatch_semaphore_init sem_backend.mach 1 (World.boot [])) = Result.ret () w1) ∧
    _dispatch_semaphore_dispose sem_backend.mach
        ((_dispatch_semaphore_init sem_backend.mach 1 (World.boot [])).set_value 0)
      = Result.crash crash_reason.deallocated_in_use
        ((_dispatch_semaphore_init sem_backend.mach 1 (World.boot [])).set_value 0) :=
  ⟨((_dispatch_semaphore_dispose_in_use sem_backend.mach
      (_dispatch_semaphore_init sem_backend.mach 1 (World.boot []))).1 (by decide)
      (fun h => by cases h)).imp (fun _ h => h.1),
   (_dispatch_semaphore_dispose_in_use sem_backend.mach
      ((_dispatch_semaphore_init sem_backend.mach 1 (World.boot [])).set_value 0)).2.2.2
      (World.boot []) (_dispatch_semaphore_init sem_backend.mach 1 (World.boot [])) 1
      [sem_op.wait 0] (by decide) (by decide) (by decide) (by decide)⟩

/-! ## C6 -/

/-- C6: after every sequence of `dispatch_group_enter` / `dispatch_group_leave`
calls on a freshly created group in which no call aborts, `dsema_value` equals
`LONG_MAX - (enters - leaves)` and lies within `0 .. LONG_MAX`, and
`dispatch_group_wait` then returns `0` iff `enters == leaves`, whatever the
timeout; a fresh group, and a group after an `enter; leave` pair, are both
quiescent. -/
theorem dispatch_group_value_invariant (b : sem_backend) (w0 : World) :
    (∀ (ops : List group_op) (w : World),
      group_calls b ops (dispatch_group_create b w0) = some w →
      w.dsema.dsema_value = LONG_MAX - ((count_enters ops : Int) - count_leaves ops) ∧
      0 ≤ w.dsema.dsema_value ∧ w.dsema.dsema_value ≤ LONG_MAX ∧
      ∀ timeout, (∃ w1, dispatch_group_wait b timeout w = Result.ret 0 w1) ↔
        count_enters ops = count_leaves ops) ∧
    (∀ timeout, dispatch_group_wait b timeout (dispatch_group_create b w0)
      = Result.ret 0 (dispatch_group_create b w0)) ∧
    (∃ w, group_calls b [group_op.enter, group_op.leave] (dispatch_group_create b w0) = some w ∧
      ∀ timeout, dispatch_group_wait b timeout w = Result.ret 0 w) := by
  obtain ⟨f1, f2, f3⟩ := dispatch_group_create_fresh b w0
  refine ⟨?_, ?_, ?_⟩
  · intro ops w hc
    obtain ⟨g1, g2, g3, _, _⟩ := group_calls_value b ops _ w (by rw [f1]; decide)
      (by rw [f1]) f3 hc
    rw [f1] at g1
    refine ⟨g1, g2, g3, ?_⟩
    intro timeout
    rw [dispatch_group_wait_zero_iff, g1]
    constructor
    · intro h
      have : (count_enters ops : Int) = count_leaves ops := by omega
      exact_mod_cast this
    · intro h
      rw [h]
      omega
  · intro timeout
    simp [dispatch_group_wait, f1]
  · have h1 := dispatch_group_enter_ok (dispatch_group_create b w0) (by rw [f1]; decide)
      (by rw [f1])
    have hinc : dispatch_atomic_inc (LONG_MAX - 1) = LONG_MAX := by decide
    have hb : group_bare ((dispatch_group_create b w0).set_value LONG_MAX) := f3
    have h2 : dispatch_group_leave b ((dispatch_group_create b w0).set_value (LONG_MAX - 1))
        = Result.ret () ((dispatch_group_create b w0).set_value LONG_MAX) := by
      simp [dispatch_group_leave, set_value_dsema_value, hinc, set_value_set_value,
        _dispatch_group_wake_bare b _ hb, show ¬ (LONG_MAX < 0) by decide]
    refine ⟨(dispatch_group_create b w0).set_value LONG_MAX, ?_, ?_⟩
    · simp only [group_calls, group_op.call, h1, f1, h2]
    · intro timeout
      simp [dispatch_group_wait, set_value_dsema_value]

/-- C6 at a concrete input: `enter; enter; leave` on a fresh group under
`USE_MACH_SEM` leaves one `enter` outstanding. -/
theorem dispatch_group_value_invariant_witness :
    ((dispatch_group_create sem_backend.mach (World.boot [])).set_value
        (LONG_MAX - 1)).dsema.dsema_value
      = LONG_MAX - ((count_enters [group_op.enter, group_op.enter, group_op.leave] : Int)
          - count_leaves [group_op.enter, group_op.enter, group_op.leave]) :=
  ((dispatch_group_value_invariant sem_backend.mach (World.boot [])).1
    [group_op.enter, group_op.enter, group_op.leave]
    ((dispatch_group_create sem_backend.mach (World.boot [])).set_value (LONG_MAX - 1))
    (by decide)).1

/-! ## C7 -/

/-- C7: `dispatch_group_leave` on a quiescent group (`dsema_value == LONG_MAX`)
aborts with the unbalanced-leave crash, because the increment of `LONG_MAX`
wraps to `LONG_MIN`, which is negative; so the second `leave` of
`create; enter; leave; leave` aborts. -/
theorem dispatch_group_leave_quiescent_aborts (b : sem_backend) (w : World) :
    (w.dsema.dsema_value = LONG_MAX →
      dispatch_group_leave b w = Result.crash crash_reason.unbalanced_leave (w.set_value LONG_MIN)) ∧
    dispatch_atomic_inc LONG_MAX = LONG_MIN ∧ LONG_MIN < 0 ∧
    ∃ w1 w2 w3, dispatch_group_enter (dispatch_group_create b w) = Result.ret () w1 ∧
      dispatch_group_leave b w1 = Result.ret () w2 ∧
      dispatch_group_leave b w2 = Result.crash crash_reason.unbalanced_leave w3 := by
  have hinc : dispatch_atomic_inc LONG_MAX = LONG_MIN := by decide
  have hneg : LONG_MIN < 0 := by decide
  have hne : LONG_MIN ≠ LONG_MAX := by decide
  have hdec : dispatch_atomic_dec LONG_MAX = LONG_MAX - 1 := by decide
  have hinc2 : dispatch_atomic_inc (LONG_MAX - 1) = LONG_MAX := by decide
  have h0 : ¬ (LONG_MAX - 1 < 0) := by decide
  have h1 : ¬ (LONG_MAX < 0) := by decide
  refine ⟨?_, hinc, hneg, ?_⟩
  · intro h
    simp [dispatch_group_leave, h, hinc, hneg]
  · cases b
    all_goals simp [dispatch_group_create, _dispatch_semaphore_init, _dispatch_alloc,
      dispatch_group_enter, World.set_value, hdec, h0, dispatch_group_leave, hinc2, h1,
      _dispatch_group_wake, World.set_group_waiters, hinc, hneg, kernel_create]

/-- C7 at a concrete input: a freshly created group. -/
theorem dispatch_group_leave_quiescent_aborts_witness :
    dispatch_group_leave sem_backend.mach (dispatch_group_create sem_backend.mach (World.boot []))
      = Result.crash crash_reason.unbalanced_leave
          ((dispatch_group_create sem_backend.mach (World.boot [])).set_value LONG_MIN) :=
  (dispatch_group_leave_quiescent_aborts sem_backend.mach
    (dispatch_group_create sem_backend.mach (World.boot []))).1 (by decide)

/-! ## C8 -/

/-- C8: `dispatch_group_enter` aborts with the "too many nested calls" crash
iff the value after the decrement is negative, which (within the data model's
`value >= -LONG_MAX`) is iff the value before the call was `<= 0`; on a fresh group
exactly `LONG_MAX` consecutive enters succeed and the next one aborts. -/
theorem dispatch_group_enter_aborts_iff (b : sem_backend) (w : World) :
    ((∃ w1, dispatch_group_enter w = Result.crash crash_reason.too_many_enter w1) ↔
      dispatch_atomic_dec w.dsema.dsema_value < 0) ∧
    (-LONG_MAX ≤ w.dsema.dsema_value → w.dsema.dsema_value ≤ LONG_MAX →
      (dispatch_atomic_dec w.dsema.dsema_value < 0 ↔ w.dsema.dsema_value ≤ 0)) ∧
    (∀ k : Nat, (k : Int) ≤ LONG_MAX →
      ∃ w1, group_calls b (List.replicate k group_op.enter) (dispatch_group_create b w) = some w1 ∧
        w1.dsema.dsema_value = LONG_MAX - k) ∧
    (∃ w1 w2, group_calls b (List.replicate (Int.toNat LONG_MAX) group_op.enter)
        (dispatch_group_create b w) = some w1 ∧
      dispatch_group_enter w1 = Result.crash crash_reason.too_many_enter w2) ∧
    group_calls b (List.replicate (Int.toNat LONG_MAX + 1) group_op.enter)
      (dispatch_group_create b w) = none := by
  obtain ⟨f1, f2, f3⟩ := dispatch_group_create_fresh b w
  have hall : ∀ k : Nat, (k : Int) ≤ LONG_MAX →
      group_calls b (List.replicate k group_op.enter) (dispatch_group_create b w)
        = some ((dispatch_group_create b w).set_value (LONG_MAX - k)) := by
    intro k hk
    have := group_calls_enters b k (dispatch_group_create b w) (by rw [f1]; exact hk)
      (by rw [f1])
    rw [this, f1]
  have hcast : ((Int.toNat LONG_MAX : Nat) : Int) = LONG_MAX := by decide
  have hlast : dispatch_group_enter ((dispatch_group_create b w).set_value 0)
      = Result.crash crash_reason.too_many_enter
          ((dispatch_group_create b w).set_value (-1)) := by
    simp [dispatch_group_enter, set_value_dsema_value, set_value_set_value,
      show dispatch_atomic_dec 0 = -1 by decide]
  have hfull := hall (Int.toNat LONG_MAX) (by rw [hcast])
  rw [hcast, sub_self] at hfull
  refine ⟨?_, ?_, ?_, ?_, ?_⟩
  · constructor
    · rintro ⟨w1, h⟩
      unfold dispatch_group_enter at h
      simp only at h
      split at h
      · assumption
      · cases h
    · intro h
      exact ⟨w.set_value (dispatch_atomic_dec w.dsema.dsema_value),
        by simp [dispatch_group_enter, h]⟩
  · intro h1 h2
    rw [dispatch_atomic_dec_eq _ (by unfold LONG_MIN; unfold LONG_MAX at h1; omega) h2]
    omega
  · intro k hk
    exact ⟨_, hall k hk, rfl⟩
  · exact ⟨_, _, hfull, hlast⟩
  · have happ : List.replicate (Int.toNat LONG_MAX + 1) group_op.enter
        = List.replicate (Int.toNat LONG_MAX) group_op.enter ++ [group_op.enter] := by
      rw [List.replicate_succ']
    rw [happ, group_calls_append, hfull]
    simp [group_calls, group_op.call, hlast]

/-- C8 at a concrete input: a group whose value has come down to `0`. -/
theorem dispatch_group_enter_aborts_iff_witness :
    dispatch_atomic_dec
        ((dispatch_group_create sem_backend.mach (World.boot [])).set_value 0).dsema.dsema_value < 0
      ↔ ((dispatch_group_create sem_backend.mach (World.boot [])).set_value 0).dsema.dsema_value
          ≤ 0 :=
  (dispatch_group_enter_aborts_iff sem_backend.mach
    ((dispatch_group_create sem_backend.mach (World.boot [])).set_value 0)).2.1
    (by decide) (by decide)

/-! ## C9 -/

/-- C9: `dispatch_semaphore_signal` aborts with the unbalanced-signal crash
exactly when the value after the increment is `LONG_MIN`, that is exactly when
the value before the call was `LONG_MAX` and the increment wrapped; for every
other value before the call it returns (the object carrying a usable handle). -/
theorem dispatch_semaphore_signal_aborts_iff (b : sem_backend) (w : World)
    (hv : is_long w.dsema.dsema_value) :
    ((∃ w1, dispatch_semaphore_signal b w = Result.crash crash_reason.unbalanced_signal w1) ↔
      dispatch_atomic_inc w.dsema.dsema_value = LONG_MIN) ∧
    (dispatch_atomic_inc w.dsema.dsema_value = LONG_MIN ↔ w.dsema.dsema_value = LONG_MAX) ∧
    (w.dsema.dsema_value ≠ LONG_MAX → handle_ready b w →
      ∃ v w1, dispatch_semaphore_signal b w = Result.ret v w1) := by
  have hwrap : dispatch_atomic_inc w.dsema.dsema_value = LONG_MIN ↔
      w.dsema.dsema_value = LONG_MAX := by
    unfold is_long LONG_MIN LONG_MAX at hv
    unfold dispatch_atomic_inc wrap_long LONG_MIN LONG_MAX
    omega
  have hmin : ¬ (LONG_MIN > 0) := by decide
  refine ⟨?_, hwrap, ?_⟩
  · constructor
    · rintro ⟨w1, h⟩
      by_contra hne
      unfold dispatch_semaphore_signal at h
      simp only [hne, if_false] at h
      split at h
      · cases h
      · cases b
        · unfold _dispatch_semaphore_signal_slow at h
          simp only at h
          split at h <;> cases h
        · unfold _dispatch_semaphore_signal_slow at h
          simp only at h
          split at h <;> cases h
    · intro h
      exact ⟨w.set_value LONG_MIN, by simp [dispatch_semaphore_signal, h, hmin]⟩
  · intro hne hr
    have hne2 : dispatch_atomic_inc w.dsema.dsema_value ≠ LONG_MIN := fun h => hne (hwrap.1 h)
    unfold dispatch_semaphore_signal
    simp only [hne2, if_false]
    split
    · exact ⟨_, _, rfl⟩
    · cases b
      · by_cases hp : w.dsema.dsema_port = 0
        all_goals simp [_dispatch_semaphore_signal_slow, _dispatch_semaphore_create_port,
          World.set_value, World.set_sent_ksignals, hp, kernel_create, semaphore_signal,
          KERN_SUCCESS]
      · have hp : w.dsema.dsema_port ≠ 0 := hr rfl
        simp [_dispatch_semaphore_signal_slow, World.set_value, World.set_sent_ksignals, hp,
          sem_post]

/-- C9 at a concrete input: a semaphore with one waiter (`dsema_value == -1`)
under `USE_MACH_SEM`. -/
theorem dispatch_semaphore_signal_aborts_iff_witness :
    ∃ v w1, dispatch_semaphore_signal sem_backend.mach ((World.boot []).set_value (-1))
      = Result.ret v w1 :=
  (dispatch_semaphore_signal_aborts_iff sem_backend.mach ((World.boot []).set_value (-1))
    (by decide)).2.2 (by decide) (fun h => by cases h)

/-! ## C10 -/

/-- C10: `dispatch_group_wait` with the immediate timeout on a group that is
not quiescent (`dsema_value != LONG_MAX`) returns the time-out code and leaves
every field of the group (`dsema_group_waiters`, `dsema_value`, the
notification list) and the continuation records unchanged, with no kernel call;
on a quiescent group it returns `0` for every timeout, changing nothing. -/
theorem dispatch_group_wait_immediate (b : sem_backend) (w : World) :
    (w.dsema.dsema_value ≠ LONG_MAX →
      ∃ w1, dispatch_group_wait b DISPATCH_TIME_NOW w = Result.ret (timed_out_code b) w1 ∧
        w1.dsema = w.dsema ∧ w1.heap = w.heap ∧ w1.trace = w.trace ∧ w1.kernel = w.kernel ∧
        w1.async = w.async) ∧
    (w.dsema.dsema_value = LONG_MAX →
      ∀ timeout, dispatch_group_wait b timeout w = Result.ret 0 w) := by
  constructor
  · intro h
    cases b
    all_goals simp [dispatch_group_wait, h, DISPATCH_TIME_NOW, timed_out_code]
  · intro h timeout
    simp [dispatch_group_wait, h]

/-- C10 at a concrete input: a group with one outstanding `enter`. -/
theorem dispatch_group_wait_immediate_witness :
    ∃ w1, dispatch_group_wait sem_backend.mach DISPATCH_TIME_NOW
        ((dispatch_group_create sem_backend.mach (World.boot [])).set_value (LONG_MAX - 1))
        = Result.ret (timed_out_code sem_backend.mach) w1 ∧
      w1.dsema =
        ((dispatch_group_create sem_backend.mach (World.boot [])).set_value (LONG_MAX - 1)).dsema ∧
      w1.heap =
        ((dispatch_group_create sem_backend.mach (World.boot [])).set_value (LONG_MAX - 1)).heap ∧
      w1.trace =
        ((dispatch_group_create sem_backend.mach (World.boot [])).set_value (LONG_MAX - 1)).trace ∧
      w1.kernel =
        ((dispatch_group_create sem_backend.mach (World.boot [])).set_value (LONG_MAX - 1)).kernel ∧
      w1.async =
        ((dispatch_group_create sem_backend.mach (World.boot [])).set_value (LONG_MAX - 1)).async :=
  (dispatch_group_wait_immediate sem_backend.mach
    ((dispatch_group_create sem_backend.mach (World.boot [])).set_value (LONG_MAX - 1))).1
    (by decide)

/-! ## The notification list -/

theorem group_wake_signals_ok (b : sem_backend) (n : Nat) :
    ∀ (w : World), w.dsema.dsema_port ≠ 0 →
      group_wake_signals b n w = Result.ret ()
        { w with trace := w.trace ++ List.replicate n (kernel_call.signal w.dsema.dsema_port) } := by
  induction n with
  | zero =>
    intro w _
    simp [group_wake_signals]
  | succ n ih =>
    intro w hp
    cases b
    · simp only [group_wake_signals, semaphore_signal, hp, if_false, KERN_SUCCESS, ne_eq,
        not_true_eq_false]
      rw [ih { w with trace := w.trace ++ [kernel_call.signal w.dsema.dsema_port] } hp]
      simp [List.replicate_succ]
    · simp only [group_wake_signals, sem_post, hp, if_false]
      simp only [show ¬ ((0 : Int) = -1) by decide, if_false]
      rw [ih { w with trace := w.trace ++ [kernel_call.signal w.dsema.dsema_port] } hp]
      simp [List.replicate_succ]

theorem kernel_signals_replicate (n port : Nat) :
    kernel_signals (List.replicate n (kernel_call.signal port)) = n := by
  induction n with
  | zero => rfl
  | succ n ih => simp [List.replicate_succ, kernel_signals, ih]

theorem notify_list_functional (heap : List dispatch_continuation_s) (tail : Nat) :
    ∀ (rs rs2 : List (Nat × Nat × Nat)) (head : Nat),
      notify_list heap tail head rs → notify_list heap tail head rs2 → rs = rs2 := by
  intro rs
  induction rs with
  | nil =>
    intro rs2 head h1 h2
    simp only [notify_list] at h1
    cases rs2 with
    | nil => rfl
    | cons r2 t2 =>
      cases t2 with
      | nil => exact absurd h1 h2.1
      | cons r3 t3 => exact absurd h1 h2.1
  | cons r t ih =>
    intro rs2 head h1 h2
    cases t with
    | nil =>
      obtain ⟨a1, a2, a3⟩ := h1
      cases rs2 with
      | nil => exact absurd h2 a1
      | cons r2 t2 =>
        cases t2 with
        | nil =>
          obtain ⟨_, _, b3⟩ := h2
          rw [a3] at b3
          simp only [Option.some.injEq, dispatch_continuation_s.mk.injEq, true_and] at b3
          obtain ⟨c1, c2, c3⟩ := b3
          exact congrArg (· :: []) (Prod.ext c1 (Prod.ext c2 c3))
        | cons r3 t3 =>
          obtain ⟨_, next, b2, b3, _⟩ := h2
          rw [a3] at b3
          simp only [Option.some.injEq, dispatch_continuation_s.mk.injEq] at b3
          exact absurd b3.1.symm b2
    | cons r1 t1 =>
      obtain ⟨a1, next, a2, a3, a4⟩ := h1
      cases rs2 with
      | nil => exact absurd h2 a1
      | cons r2 t2 =>
        cases t2 with
        | nil =>
          obtain ⟨_, _, b3⟩ := h2
          rw [a3] at b3
          simp only [Option.some.injEq, dispatch_continuation_s.mk.injEq] at b3
          exact absurd b3.1 a2
        | cons r3 t3 =>
          obtain ⟨_, next2, b2, b3, b4⟩ := h2
          rw [a3] at b3
          simp only [Option.some.injEq, dispatch_continuation_s.mk.injEq] at b3
          obtain ⟨c0, c1, c2, c3⟩ := b3
          subst c0
          have := ih (r3 :: t3) next a4 b4
          rw [this]
          exact congrArg (· :: (r3 :: t3)) (Prod.ext c1 (Prod.ext c2 c3))

theorem notify_list_head (heap : List dispatch_continuation_s) (tail head : Nat)
    (r : Nat × Nat × Nat) (t : List (Nat × Nat × Nat))
    (h : notify_list heap tail head (r :: t)) : head ≠ 0 ∧ head ≤ heap.length := by
  cases t with
  | nil =>
    obtain ⟨a1, _, a3⟩ := h
    have := (List.get?_eq_some.mp a3).1
    exact ⟨a1, by omega⟩
  | cons r1 t1 =>
    obtain ⟨a1, next, _, a3, _⟩ := h
    have := (List.get?_eq_some.mp a3).1
    exact ⟨a1, by omega⟩

theorem notify_list_drop (heap : List dispatch_continuation_s) (tail : Nat) :
    ∀ (rs : List (Nat × Nat × Nat)) (head i : Nat), notify_list heap tail head rs →
      i < rs.length →
      ∃ a, a ≠ 0 ∧ a ≤ heap.length ∧ notify_list heap tail a (rs.drop i) := by
  intro rs
  induction rs with
  | nil =>
    intro head i _ hi
    simp at hi
  | cons r t ih =>
    intro head i h hi
    cases i with
    | zero =>
      obtain ⟨h1, h2⟩ := notify_list_head heap tail head r t h
      exact ⟨head, h1, h2, h⟩
    | succ i =>
      cases t with
      | nil => simp at hi
      | cons r1 t1 =>
        obtain ⟨_, next, _, _, a4⟩ := h
        have hi2 : i < (r1 :: t1).length := by
          simp only [List.length_cons] at hi ⊢
          omega
        obtain ⟨a, b1, b2, b3⟩ := ih next i a4 hi2
        exact ⟨a, b1, b2, by simpa using b3⟩

theorem notify_list_length (heap : List dispatch_continuation_s) (tail head : Nat)
    (rs : List (Nat × Nat × Nat)) (h : notify_list heap tail head rs) :
    rs.length ≤ heap.length := by
  have hex : ∀ i : Fin rs.length, ∃ a : Fin heap.length,
      notify_list heap tail (a.val + 1) (rs.drop i.val) := by
    intro i
    obtain ⟨a, a1, a2, a3⟩ := notify_list_drop heap tail rs head i.val h i.isLt
    refine ⟨⟨a - 1, by omega⟩, ?_⟩
    have : a - 1 + 1 = a := by omega
    simpa [this] using a3
  choose f hf using hex
  have hinj : Function.Injective f := by
    intro i j hij
    have h1 := hf i
    have h2 := hf j
    rw [hij] at h1
    have h3 := notify_list_functional heap tail _ _ _ h1 h2
    have h4 := congrArg List.length h3
    simp only [List.length_drop] at h4
    have hi := i.isLt
    have hj := j.isLt
    exact Fin.ext (by omega)
  have := Fintype.card_le_of_injective f hinj
  simpa using this

theorem group_wake_notify_list (tail : Nat) :
    ∀ (rs : List (Nat × Nat × Nat)) (fuel head : Nat) (w : World), rs ≠ [] →
      notify_list w.heap tail head rs → rs.length ≤ fuel →
      group_wake_notify tail fuel head w = Result.ret () { w with async := w.async ++ rs } := by
  intro rs
  induction rs with
  | nil =>
    intro fuel head w hne
    exact absurd rfl hne
  | cons r t ih =>
    intro fuel head w _ h hfuel
    cases fuel with
    | zero => simp at hfuel
    | succ fuel =>
      cases t with
      | nil =>
        obtain ⟨a1, a2, a3⟩ := h
        subst a2
        simp only [List.get?_eq_getElem?] at a3
        simp [group_wake_notify, a1, a3]
      | cons r1 t1 =>
        obtain ⟨a1, next, a2, a3, a4⟩ := h
        have hf2 : (r1 :: t1).length ≤ fuel := by
          simp only [List.length_cons] at hfuel ⊢
          omega
        have := ih fuel next { w with async := w.async ++ [(r.1, r.2.1, r.2.2)] }
          (by simp) a4 hf2
        simp only [group_wake_notify, a1, a3, a2, if_false, false_and, ne_eq, not_false_eq_true,
          if_true, this]
        simp

theorem notify_list_nil_iff (heap : List dispatch_continuation_s) (tail head : Nat)
    (rs : List (Nat × Nat × Nat)) (h : notify_list heap tail head rs) :
    head = 0 ↔ rs = [] := by
  cases rs with
  | nil => exact ⟨fun _ => rfl, fun _ => h⟩
  | cons r t =>
    have := (notify_list_head heap tail head r t h).1
    exact ⟨fun h0 => absurd h0 this, fun hn => by cases hn⟩

/-- What the signalling part of `_dispatch_group_wake` (lines 466-488) does to a
world whose handle is usable: `n` kernel signals, after the port is created
under `USE_MACH_SEM` when there was none. -/
theorem group_wake_signal_part (b : sem_backend) (n : Nat) (w : World)
    (hr : handle_ready b w) :
    ∃ w1, group_wake_signals b n
        (match b with
          | sem_backend.mach => _dispatch_semaphore_create_port w
          | sem_backend.posix => w) = Result.ret () w1 ∧
      w1.heap = w.heap ∧ w1.async = w.async ∧ w1.kernel = w.kernel ∧
      w1.dsema.dsema_value = w.dsema.dsema_value ∧ w1.dsema.dsema_orig = w.dsema.dsema_orig ∧
      w1.dsema.dsema_group_waiters = w.dsema.dsema_group_waiters ∧
      w1.dsema.dsema_notify_head = w.dsema.dsema_notify_head ∧
      w1.dsema.dsema_notify_tail = w.dsema.dsema_notify_tail ∧
      kernel_signals w1.trace = kernel_signals w.trace + n ∧ handle_ready b w1 := by
  cases b
  · by_cases hp : w.dsema.dsema_port = 0
    · have hp2 : (_dispatch_semaphore_create_port w).dsema.dsema_port ≠ 0 := by
        simp [_dispatch_semaphore_create_port, hp, kernel_create]
      refine ⟨_, group_wake_signals_ok _ n _ hp2, ?_⟩
      simp [_dispatch_semaphore_create_port, hp, kernel_create, kernel_signals_append,
        kernel_signals_replicate, kernel_signals, handle_ready]
    · have hp2 : (_dispatch_semaphore_create_port w).dsema.dsema_port ≠ 0 := by
        simp [_dispatch_semaphore_create_port, hp]
      refine ⟨_, group_wake_signals_ok _ n _ hp2, ?_⟩
      simp [_dispatch_semaphore_create_port, hp, kernel_signals_append,
        kernel_signals_replicate, handle_ready]
  · have hp : w.dsema.dsema_port ≠ 0 := hr rfl
    refine ⟨_, group_wake_signals_ok _ n _ hp, ?_⟩
    simp [kernel_signals_append, kernel_signals_replicate, handle_ready, hp]

theorem _dispatch_group_wake_unfold (b : sem_backend) (w u : World)
    (hu : u = ((if w.dsema.dsema_notify_head ≠ 0 then
      { w with dsema := { w.dsema with dsema_notify_head := 0, dsema_notify_tail := 0 } }
      else { w with dsema := { w.dsema with dsema_notify_head := 0 } }) :
        World).set_group_waiters 0) :
    _dispatch_group_wake b w =
      (match (if w.dsema.dsema_group_waiters ≠ 0 then
        group_wake_signals b (Int.toNat (w.dsema.dsema_group_waiters % 18446744073709551616))
          (match b with
            | sem_backend.mach => _dispatch_semaphore_create_port u
            | sem_backend.posix => u)
        else Result.ret () u) with
      | Result.crash c w => Result.crash c w
      | Result.hang w => Result.hang w
      | Result.ret _ w2 =>
        if w.dsema.dsema_notify_head ≠ 0 then
          match group_wake_notify w.dsema.dsema_notify_tail (w2.heap.length + 1)
              w.dsema.dsema_notify_head w2 with
          | Result.ret _ w => Result.ret 0 w
          | Result.crash c w => Result.crash c w
          | Result.hang w => Result.hang w
        else Result.ret 0 w2) := by
  subst hu
  unfold _dispatch_group_wake
  cases b
  all_goals by_cases hg : w.dsema.dsema_group_waiters = 0
  all_goals by_cases hh : w.dsema.dsema_notify_head = 0
  all_goals simp only [hh, hg, World.set_group_waiters, ne_eq, not_true_eq_false,
    not_false_eq_true, if_true, if_false]

theorem _dispatch_group_wake_list (b : sem_backend) (w : World) (rs : List (Nat × Nat × Nat))
    (hr : handle_ready b w)
    (hl : notify_list w.heap w.dsema.dsema_notify_tail w.dsema.dsema_notify_head rs) :
    ∃ w1, _dispatch_group_wake b w = Result.ret 0 w1 ∧ w1.async = w.async ++ rs ∧
      kernel_signals w1.trace = kernel_signals w.trace
        + Int.toNat (w.dsema.dsema_group_waiters % 18446744073709551616) ∧
      w1.dsema.dsema_group_waiters = 0 ∧ w1.dsema.dsema_notify_head = 0 ∧
      w1.dsema.dsema_notify_tail
        = (if w.dsema.dsema_notify_head ≠ 0 then 0 else w.dsema.dsema_notify_tail) ∧
      w1.dsema.dsema_value = w.dsema.dsema_value ∧ w1.dsema.dsema_orig = w.dsema.dsema_orig ∧
      w1.heap = w.heap ∧ w1.kernel = w.kernel ∧ handle_ready b w1 := by
  have hlen := notify_list_length _ _ _ _ hl
  have hnil := notify_list_nil_iff _ _ _ _ hl
  -- the world after the three exchanges
  obtain ⟨u, hu⟩ : ∃ u : World, u = ((if w.dsema.dsema_notify_head ≠ 0 then
      { w with dsema := { w.dsema with dsema_notify_head := 0, dsema_notify_tail := 0 } }
      else { w with dsema := { w.dsema with dsema_notify_head := 0 } }) : World).set_group_waiters 0 :=
    ⟨_, rfl⟩
  have hu_ready : handle_ready b u := by
    intro hb
    have := hr hb
    rw [hu]
    split <;> simpa [World.set_group_waiters] using this
  have hu_heap : u.heap = w.heap := by
    rw [hu]
    split <;> rfl
  have hu_async : u.async = w.async := by
    rw [hu]
    split <;> rfl
  have hu_trace : u.trace = w.trace := by
    rw [hu]
    split <;> rfl
  have hu_kernel : u.kernel = w.kernel := by
    rw [hu]
    split <;> rfl
  have hu_value : u.dsema.dsema_value = w.dsema.dsema_value := by
    rw [hu]
    split <;> rfl
  have hu_orig : u.dsema.dsema_orig = w.dsema.dsema_orig := by
    rw [hu]
    split <;> rfl
  have hu_gw : u.dsema.dsema_group_waiters = 0 := by
    rw [hu]
    split <;> rfl
  have hu_head : u.dsema.dsema_notify_head = 0 := by
    rw [hu]
    split <;> rfl
  have hu_tail : u.dsema.dsema_notify_tail
      = (if w.dsema.dsema_notify_head ≠ 0 then 0 else w.dsema.dsema_notify_tail) := by
    rw [hu]
    split <;> rfl
  -- the signalling part
  obtain ⟨u2, hsig, s1, s2, s3, s4, s5, s6, s7, s8, s9, s10⟩ : ∃ u2,
      (if w.dsema.dsema_group_waiters ≠ 0 then
        group_wake_signals b (Int.toNat (w.dsema.dsema_group_waiters % 18446744073709551616))
          (match b with
            | sem_backend.mach => _dispatch_semaphore_create_port u
            | sem_backend.posix => u)
        else Result.ret () u) = Result.ret () u2 ∧
      u2.heap = u.heap ∧ u2.async = u.async ∧ u2.kernel = u.kernel ∧
      u2.dsema.dsema_value = u.dsema.dsema_value ∧ u2.dsema.dsema_orig = u.dsema.dsema_orig ∧
      u2.dsema.dsema_group_waiters = u.dsema.dsema_group_waiters ∧
      u2.dsema.dsema_notify_head = u.dsema.dsema_notify_head ∧
      u2.dsema.dsema_notify_tail = u.dsema.dsema_notify_tail ∧
      kernel_signals u2.trace = kernel_signals u.trace
        + Int.toNat (w.dsema.dsema_group_waiters % 18446744073709551616) ∧
      handle_ready b u2 := by
    by_cases hg : w.dsema.dsema_group_waiters = 0
    · exact ⟨u, by simp [hg], rfl, rfl, rfl, rfl, rfl, rfl, rfl, rfl, by simp [hg], hu_ready⟩
    · simp only [hg, ne_eq, not_false_eq_true, if_true]
      exact group_wake_signal_part b _ u hu_ready
  rw [_dispatch_group_wake_unfold b w u hu, hsig]
  simp only
  by_cases hh : w.dsema.dsema_notify_head = 0
  · have hrs : rs = [] := hnil.mp hh
    subst hrs
    simp only [hh, ne_eq, not_true_eq_false, if_false]
    refine ⟨u2, rfl, ?_, ?_, ?_, ?_, ?_, ?_, ?_, ?_, ?_, s10⟩
    · rw [s2, hu_async, List.append_nil]
    · rw [s9, hu_trace]
    · rw [s6, hu_gw]
    · rw [s7, hu_head]
    · rw [s8, hu_tail]
      simp [hh]
    · rw [s4, hu_value]
    · rw [s5, hu_orig]
    · rw [s1, hu_heap]
    · rw [s3, hu_kernel]
  · have hrs : rs ≠ [] := fun h => hh (hnil.mpr h)
    have hl2 : notify_list u2.heap w.dsema.dsema_notify_tail w.dsema.dsema_notify_head rs := by
      rw [s1, hu_heap]
      exact hl
    have hwalk := group_wake_notify_list w.dsema.dsema_notify_tail rs (u2.heap.length + 1)
      w.dsema.dsema_notify_head u2 hrs hl2 (by rw [s1, hu_heap]; omega)
    simp only [hh, ne_eq, not_false_eq_true, if_true, hwalk]
    refine ⟨_, rfl, ?_, ?_, ?_, ?_, ?_, ?_, ?_, ?_, ?_, s10⟩
    · simp only
      rw [s2, hu_async]
    · simp only
      rw [s9, hu_trace]
    · simp only
      rw [s6, hu_gw]
    · simp only
      rw [s7, hu_head]
    · simp only
      rw [s8, hu_tail]
      simp [hh]
    · simp only
      rw [s4, hu_value]
    · simp only
      rw [s5, hu_orig]
    · simp only
      rw [s1, hu_heap]
    · simp only
      rw [s3, hu_kernel]

theorem notify_list_tail (heap : List dispatch_continuation_s) (tail : Nat) :
    ∀ (rs : List (Nat × Nat × Nat)) (head : Nat), rs ≠ [] → notify_list heap tail head rs →
      tail ≠ 0 ∧ ∃ dc, heap.get? (tail - 1) = some dc ∧ dc.do_next = 0 := by
  intro rs
  induction rs with
  | nil =>
    intro head hne
    exact absurd rfl hne
  | cons r t ih =>
    intro head _ h
    cases t with
    | nil =>
      obtain ⟨a1, a2, a3⟩ := h
      subst a2
      exact ⟨a1, _, a3, rfl⟩
    | cons r1 t1 =>
      obtain ⟨_, next, _, _, a4⟩ := h
      exact ih next (by simp) a4

theorem notify_list_append (heap : List dispatch_continuation_s) (tail : Nat)
    (dc : dispatch_continuation_s) (r : Nat × Nat × Nat)
    (hdc : heap.get? (tail - 1) = some dc) (hnext : dc.do_next = 0) (htail : tail ≠ 0) :
    ∀ (rs : List (Nat × Nat × Nat)) (head : Nat), rs ≠ [] → notify_list heap tail head rs →
      notify_list
        ((heap ++ [(⟨0, r.1, r.2.1, r.2.2⟩ : dispatch_continuation_s)]).set
          (tail - 1) { dc with do_next := heap.length + 1 })
        (heap.length + 1) head (rs ++ [r]) := by
  have hlt : tail - 1 < heap.length := (List.get?_eq_some.mp hdc).1
  have hnew : ((heap ++ [(⟨0, r.1, r.2.1, r.2.2⟩ : dispatch_continuation_s)]).set (tail - 1)
        { dc with do_next := heap.length + 1 }).get? (heap.length + 1 - 1)
      = some { do_next := 0, dc_data := r.1, dc_ctxt := r.2.1, dc_func := r.2.2 } := by
    simp only [Nat.add_sub_cancel, List.get?_eq_getElem?]
    rw [List.getElem?_set_ne (by omega)]
    simp
  intro rs
  induction rs with
  | nil =>
    intro head hne
    exact absurd rfl hne
  | cons r0 t ih =>
    intro head _ h
    cases t with
    | nil =>
      obtain ⟨a1, a2, a3⟩ := h
      subst a2
      rw [hdc] at a3
      simp only [Option.some.injEq] at a3
      subst a3
      refine ⟨a1, heap.length + 1, by omega, ?_, ⟨by omega, rfl, hnew⟩⟩
      simp only [List.get?_eq_getElem?]
      rw [List.getElem?_set_self (by simp; omega)]
    | cons r1 t1 =>
      obtain ⟨a1, next, a2, a3, a4⟩ := h
      have hne : head - 1 ≠ tail - 1 := by
        intro he
        rw [he, hdc] at a3
        simp only [Option.some.injEq] at a3
        subst a3
        exact a2 hnext
      have hlt2 : head - 1 < heap.length := (List.get?_eq_some.mp a3).1
      refine ⟨a1, next, a2, ?_, ih next (by simp) a4⟩
      simp only [List.get?_eq_getElem?] at a3 ⊢
      rw [List.getElem?_set_ne (fun h => hne h.symm), List.getElem?_append_left hlt2]
      exact a3

theorem dispatch_group_notify_f_append (b : sem_backend) (dq ctxt func : Nat) (w : World)
    (rs : List (Nat × Nat × Nat)) (hq : w.dsema.dsema_value ≠ LONG_MAX)
    (hl : notify_list w.heap w.dsema.dsema_notify_tail w.dsema.dsema_notify_head rs)
    (he : rs = [] → w.dsema.dsema_notify_tail = 0) :
    ∃ w1, dispatch_group_notify_f b dq ctxt func w = Result.ret () w1 ∧
      notify_list w1.heap w1.dsema.dsema_notify_tail w1.dsema.dsema_notify_head
        (rs ++ [(dq, ctxt, func)]) ∧
      w1.dsema.dsema_notify_tail = w.heap.length + 1 ∧
      w1.async = w.async ∧ w1.trace = w.trace ∧ w1.kernel = w.kernel ∧
      w1.dsema.dsema_value = w.dsema.dsema_value ∧ w1.dsema.dsema_orig = w.dsema.dsema_orig ∧
      w1.dsema.dsema_group_waiters = w.dsema.dsema_group_waiters ∧
      w1.dsema.dsema_port = w.dsema.dsema_port := by
  by_cases hrs : rs = []
  · subst hrs
    have ht := he rfl
    have hh : w.dsema.dsema_notify_head = 0 := hl
    refine ⟨_, by simp [dispatch_group_notify_f, ht, hq]; rfl, ?_⟩
    simp [notify_list]
  · obtain ⟨t1, dc, t2, t3⟩ := notify_list_tail _ _ rs _ hrs hl
    have hlt : w.dsema.dsema_notify_tail - 1 < w.heap.length := (List.get?_eq_some.mp t2).1
    have hget : (w.heap ++ [(⟨0, dq, ctxt, func⟩ : dispatch_continuation_s)]).get?
        (w.dsema.dsema_notify_tail - 1) = some dc := by
      simp only [List.get?_eq_getElem?] at t2 ⊢
      rw [List.getElem?_append_left hlt]
      exact t2
    have happ := notify_list_append w.heap w.dsema.dsema_notify_tail dc (dq, ctxt, func) t2 t3 t1
      rs _ hrs hl
    have hget2 := hget
    simp only [List.get?_eq_getElem?] at hget2
    refine ⟨_, by simp [dispatch_group_notify_f, t1, hget2]; rfl, ?_⟩
    simp only [and_true]
    exact happ

theorem group_notifies_list (b : sem_backend) :
    ∀ (rs rs0 : List (Nat × Nat × Nat)) (w : World), w.dsema.dsema_value ≠ LONG_MAX →
      notify_list w.heap w.dsema.dsema_notify_tail w.dsema.dsema_notify_head rs0 →
      (rs0 = [] → w.dsema.dsema_notify_tail = 0) →
      ∃ w1, group_notifies b rs w = some w1 ∧
        notify_list w1.heap w1.dsema.dsema_notify_tail w1.dsema.dsema_notify_head (rs0 ++ rs) ∧
        (rs0 ++ rs = [] → w1.dsema.dsema_notify_tail = 0) ∧
        w1.async = w.async ∧ w1.trace = w.trace ∧ w1.kernel = w.kernel ∧
        w1.dsema.dsema_value = w.dsema.dsema_value ∧
        w1.dsema.dsema_orig = w.dsema.dsema_orig ∧
        w1.dsema.dsema_group_waiters = w.dsema.dsema_group_waiters ∧
        w1.dsema.dsema_port = w.dsema.dsema_port := by
  intro rs
  induction rs with
  | nil =>
    intro rs0 w _ hl he
    exact ⟨w, rfl, by simpa using hl, by simpa using he, rfl, rfl, rfl, rfl, rfl, rfl, rfl⟩
  | cons r t ih =>
    intro rs0 w hq hl he
    obtain ⟨w1, h1, h2, h3, h4, h5, h6, h7, h8, h9, h10⟩ :=
      dispatch_group_notify_f_append b r.1 r.2.1 r.2.2 w rs0 hq hl he
    obtain ⟨w2, k1, k2, k3, k4, k5, k6, k7, k8, k9, k10⟩ :=
      ih (rs0 ++ [r]) w1 (by rw [h7]; exact hq) h2 (by simp)
    refine ⟨w2, ?_, ?_, ?_, k4.trans h4, k5.trans h5, k6.trans h6, k7.trans h7, k8.trans h8,
      k9.trans h9, k10.trans h10⟩
    · simp only [group_notifies, h1, k1]
    · simpa using k2
    · simp

theorem handle_ready_of_port (b : sem_backend) (w w1 : World)
    (h : w1.dsema.dsema_port = w.dsema.dsema_port) (hr : handle_ready b w) :
    handle_ready b w1 := by
  intro hb
  rw [h]
  exact hr hb

theorem toNat_mod_of_long (x : Int) (h0 : 0 ≤ x) (h1 : x ≤ LONG_MAX) :
    Int.toNat (x % 18446744073709551616) = Int.toNat x := by
  unfold LONG_MAX at h1
  congr 1
  omega

/-! ## C11 -/

/-- C11: after any sequence of `dispatch_group_notify_f` calls
`(q1, c1, f1), …, (qk, ck, fk)` on a non-quiescent group whose notification
list was empty, every call returns without enqueuing anything, and the
`_dispatch_group_wake` that follows (whatever `dsema_value` has become) hands
exactly these `k` records to `dispatch_async_f`, in insertion order, each with
its queue, context and function; the list is empty afterwards, so that a
further wake hands over nothing. -/
theorem group_notifications_in_order (b : sem_backend) (w : World)
    (rs : List (Nat × Nat × Nat)) (value : Int) (hq : w.dsema.dsema_value ≠ LONG_MAX)
    (hh : w.dsema.dsema_notify_head = 0) (ht : w.dsema.dsema_notify_tail = 0)
    (hr : handle_ready b w) :
    ∃ w1 w2 w3, group_notifies b rs w = some w1 ∧ w1.async = w.async ∧
      _dispatch_group_wake b (w1.set_value value) = Result.ret 0 w2 ∧
      w2.async = w.async ++ rs ∧
      w2.dsema.dsema_notify_head = 0 ∧ w2.dsema.dsema_notify_tail = 0 ∧
      _dispatch_group_wake b w2 = Result.ret 0 w3 ∧ w3.async = w2.async := by
  obtain ⟨w1, k1, k2, k3, k4, k5, k6, k7, k8, k9, k10⟩ :=
    group_notifies_list b rs [] w hq hh (fun _ => ht)
  simp only [List.nil_append] at k2 k3
  have hr1 : handle_ready b (w1.set_value value) := handle_ready_of_port b w _ k10 hr
  obtain ⟨w2, m1, m2, _, _, m5, m6, _, _, _, _, hr2⟩ :=
    _dispatch_group_wake_list b (w1.set_value value) rs hr1 k2
  have m6b : w2.dsema.dsema_notify_tail = 0 := by
    rw [m6]
    split
    · rfl
    · rename_i hn
      have hn2 : w1.dsema.dsema_notify_head = 0 := not_not.mp hn
      exact k3 ((notify_list_nil_iff _ _ _ _ k2).mp hn2)
  obtain ⟨w3, n1, n2, _⟩ := _dispatch_group_wake_list b w2 [] hr2 (by rw [m5]; rfl)
  refine ⟨w1, w2, w3, k1, k4, m1, ?_, m5, m6b, n1, ?_⟩
  · rw [m2]
    show w1.async ++ rs = w.async ++ rs
    rw [k4]
  · simpa using n2

/-- C11 at a concrete input: scenario 4 of the specification, `enter; enter;
notify(Q, f1, a); notify(Q, f2, b)` on a fresh group under `USE_MACH_SEM`, with
queue `7`, contexts `1`, `2` and functions `11`, `12`. -/
theorem group_notifications_in_order_witness :
    ∃ w1 w2 w3,
      group_notifies sem_backend.mach [(7, 1, 11), (7, 2, 12)]
        ((dispatch_group_create sem_backend.mach (World.boot [])).set_value (LONG_MAX - 2))
        = some w1 ∧
      w1.async
        = ((dispatch_group_create sem_backend.mach (World.boot [])).set_value
            (LONG_MAX - 2)).async ∧
      _dispatch_group_wake sem_backend.mach (w1.set_value LONG_MAX) = Result.ret 0 w2 ∧
      w2.async
        = ((dispatch_group_create sem_backend.mach (World.boot [])).set_value
            (LONG_MAX - 2)).async ++ [(7, 1, 11), (7, 2, 12)] ∧
      w2.dsema.dsema_notify_head = 0 ∧ w2.dsema.dsema_notify_tail = 0 ∧
      _dispatch_group_wake sem_backend.mach w2 = Result.ret 0 w3 ∧ w3.async = w2.async :=
  group_notifications_in_order sem_backend.mach
    ((dispatch_group_create sem_backend.mach (World.boot [])).set_value (LONG_MAX - 2))
    [(7, 1, 11), (7, 2, 12)] LONG_MAX (by decide) (by decide) (by decide)
    (fun h => by cases h)

/-! ## C19 -/

/-- C19, the claim fails: `_dispatch_group_wake` run while a
`dispatch_group_notify_f` has exchanged `dsema_notify_tail` (here to the record
at address `1`) but not yet stored `dsema_notify_head` finds a null head, so it
leaves `dsema_notify_tail` alone (line 461): it returns `0` with
`dsema_notify_tail` still non-null. -/
theorem _dispatch_group_wake_keeps_tail :
    ∃ w1, _dispatch_group_wake sem_backend.mach
        { World.boot [] with
          dsema := { _dispatch_alloc with
            dsema_value := LONG_MAX, dsema_orig := LONG_MAX, dsema_notify_tail := 1 }
          heap := [{ do_next := 0, dc_data := 7, dc_ctxt := 1, dc_func := 11 }] }
        = Result.ret 0 w1 ∧
      w1.dsema.dsema_notify_head = 0 ∧ w1.dsema.dsema_notify_tail ≠ 0 := by
  refine ⟨_, rfl, ?_, ?_⟩ <;> decide

/-- C19, amended: `_dispatch_group_wake`, run on a group with
`dsema_group_waiters == n >= 0` whose notification list has every link
published and whose handle is usable, issues exactly `n` kernel signals, leaves
`dsema_group_waiters == 0` and `dsema_notify_head == NULL`, sets
`dsema_notify_tail` to `NULL` when `dsema_notify_head` was non-null on entry and
leaves it as it is otherwise, does not change `dsema_value`, and returns `0`. -/
theorem _dispatch_group_wake_effect (b : sem_backend) (w : World)
    (rs : List (Nat × Nat × Nat)) (hr : handle_ready b w)
    (hl : notify_list w.heap w.dsema.dsema_notify_tail w.dsema.dsema_notify_head rs)
    (h0 : 0 ≤ w.dsema.dsema_group_waiters) (h1 : w.dsema.dsema_group_waiters ≤ LONG_MAX) :
    ∃ w1, _dispatch_group_wake b w = Result.ret 0 w1 ∧
      kernel_signals w1.trace
        = kernel_signals w.trace + Int.toNat w.dsema.dsema_group_waiters ∧
      w1.dsema.dsema_group_waiters = 0 ∧ w1.dsema.dsema_notify_head = 0 ∧
      (w.dsema.dsema_notify_head ≠ 0 → w1.dsema.dsema_notify_tail = 0) ∧
      (w.dsema.dsema_notify_head = 0 →
        w1.dsema.dsema_notify_tail = w.dsema.dsema_notify_tail) ∧
      w1.dsema.dsema_value = w.dsema.dsema_value := by
  obtain ⟨w1, m1, _, m3, m4, m5, m6, m7, _⟩ := _dispatch_group_wake_list b w rs hr hl
  rw [toNat_mod_of_long _ h0 h1] at m3
  refine ⟨w1, m1, m3, m4, m5, ?_, ?_, m7⟩
  · intro hn
    rw [m6]
    simp [hn]
  · intro hn
    rw [m6]
    simp [hn]

/-- C19 amended, at a concrete input: a group under `USE_MACH_SEM` with three
parked waiters and an empty notification list. -/
theorem _dispatch_group_wake_effect_witness :
    ∃ w1, _dispatch_group_wake sem_backend.mach
        ((dispatch_group_create sem_backend.mach (World.boot [])).set_group_waiters 3)
        = Result.ret 0 w1 ∧
      kernel_signals w1.trace
        = kernel_signals
            ((dispatch_group_create sem_backend.mach
              (World.boot [])).set_group_waiters 3).trace
          + Int.toNat ((dispatch_group_create sem_backend.mach
              (World.boot [])).set_group_waiters 3).dsema.dsema_group_waiters ∧
      w1.dsema.dsema_group_waiters = 0 ∧ w1.dsema.dsema_notify_head = 0 ∧
      (((dispatch_group_create sem_backend.mach
          (World.boot [])).set_group_waiters 3).dsema.dsema_notify_head ≠ 0 →
        w1.dsema.dsema_notify_tail = 0) ∧
      (((dispatch_group_create sem_backend.mach
          (World.boot [])).set_group_waiters 3).dsema.dsema_notify_head = 0 →
        w1.dsema.dsema_notify_tail
          = ((dispatch_group_create sem_backend.mach
              (World.boot [])).set_group_waiters 3).dsema.dsema_notify_tail) ∧
      w1.dsema.dsema_value
        = ((dispatch_group_create sem_backend.mach
            (World.boot [])).set_group_waiters 3).dsema.dsema_value :=
  _dispatch_group_wake_effect sem_backend.mach
    ((dispatch_group_create sem_backend.mach (World.boot [])).set_group_waiters 3) []
    (fun h => by cases h) rfl (by decide) (by decide)

theorem notify_list_last (heap : List dispatch_continuation_s) (tail : Nat)
    (r : Nat × Nat × Nat) :
    ∀ (rs : List (Nat × Nat × Nat)) (head : Nat), notify_list heap tail head (rs ++ [r]) →
      heap.get? (tail - 1)
        = some { do_next := 0, dc_data := r.1, dc_ctxt := r.2.1, dc_func := r.2.2 } := by
  intro rs
  induction rs with
  | nil =>
    intro head h
    obtain ⟨_, a2, a3⟩ := h
    rw [← a2]
    exact a3
  | cons r0 t ih =>
    intro head h
    cases t with
    | nil =>
      obtain ⟨_, next, _, _, a4⟩ := h
      exact ih next a4
    | cons r1 t1 =>
      obtain ⟨_, next, _, _, a4⟩ := h
      exact ih next a4

/-! ## C20 -/

/-- C20: `dispatch_group_notify_f` on a quiescent group
(`dsema_value == LONG_MAX`) whose notification list is empty hands its
`(queue, ctxt, func)` to `dispatch_async_f` within the call and leaves the
list empty; on a non-quiescent group it hands over nothing and leaves its
record as the new tail of the list, after the records already there. -/
theorem dispatch_group_notify_f_quiescent (b : sem_backend) (dq ctxt func : Nat) (w : World)
    (rs : List (Nat × Nat × Nat)) (hr : handle_ready b w) :
    (w.dsema.dsema_value = LONG_MAX → w.dsema.dsema_notify_head = 0 →
      w.dsema.dsema_notify_tail = 0 →
      ∃ w1, dispatch_group_notify_f b dq ctxt func w = Result.ret () w1 ∧
        w1.async = w.async ++ [(dq, ctxt, func)] ∧
        w1.dsema.dsema_notify_head = 0 ∧ w1.dsema.dsema_notify_tail = 0) ∧
    (w.dsema.dsema_value ≠ LONG_MAX →
      notify_list w.heap w.dsema.dsema_notify_tail w.dsema.dsema_notify_head rs →
      (rs = [] → w.dsema.dsema_notify_tail = 0) →
      ∃ w1, dispatch_group_notify_f b dq ctxt func w = Result.ret () w1 ∧
        w1.async = w.async ∧
        notify_list w1.heap w1.dsema.dsema_notify_tail w1.dsema.dsema_notify_head
          (rs ++ [(dq, ctxt, func)]) ∧
        w1.dsema.dsema_notify_tail = w.heap.length + 1 ∧
        w1.heap.get? w.heap.length
          = some { do_next := 0, dc_data := dq, dc_ctxt := ctxt, dc_func := func }) := by
  constructor
  · intro hq hh ht
    -- the world in which the wake runs
    obtain ⟨u, hu⟩ : ∃ u : World, u = { w with
        heap := w.heap ++ [(⟨0, dq, ctxt, func⟩ : dispatch_continuation_s)]
        dsema := { w.dsema with
          dsema_notify_tail := w.heap.length + 1, dsema_notify_head := w.heap.length + 1 } } :=
      ⟨_, rfl⟩
    have hur : handle_ready b u := by
      subst hu
      exact hr
    have hul : notify_list u.heap u.dsema.dsema_notify_tail u.dsema.dsema_notify_head
        [(dq, ctxt, func)] := by
      subst hu
      simp [notify_list]
    obtain ⟨w1, m1, m2, _, _, m5, m6, _⟩ := _dispatch_group_wake_list b u _ hur hul
    subst hu
    refine ⟨w1, ?_, m2, m5, ?_⟩
    · simp only [hq] at m1
      simp only [dispatch_group_notify_f, ht, hq, ne_eq, not_true_eq_false, if_false, if_true,
        m1]
    · rw [m6]
      simp
  · intro hq hl he
    obtain ⟨w1, h1, h2, h3, h4, _⟩ := dispatch_group_notify_f_append b dq ctxt func w rs hq hl he
    refine ⟨w1, h1, h4, h2, h3, ?_⟩
    have hlast := notify_list_tail _ _ (rs ++ [(dq, ctxt, func)]) _ (by simp) h2
    obtain ⟨_, dc, k1, k2⟩ := hlast
    rw [h3] at k1
    simp only [Nat.add_sub_cancel] at k1
    have := notify_list_last _ _ _ _ _ h2
    rw [h3] at this
    simpa using this

/-- C20 at a concrete input: a notification registered on a fresh (quiescent)
group under `USE_MACH_SEM` is enqueued at once. -/
theorem dispatch_group_notify_f_quiescent_witness :
    ∃ w1, dispatch_group_notify_f sem_backend.mach 7 1 11
        (dispatch_group_create sem_backend.mach (World.boot [])) = Result.ret () w1 ∧
      w1.async = (dispatch_group_create sem_backend.mach (World.boot [])).async ++ [(7, 1, 11)] ∧
      w1.dsema.dsema_notify_head = 0 ∧ w1.dsema.dsema_notify_tail = 0 :=
  (dispatch_group_notify_f_quiescent sem_backend.mach 7 1 11
    (dispatch_group_create sem_backend.mach (World.boot [])) [] (fun h => by cases h)).1
    (by decide) (by decide) (by decide)

/-! ## C18 -/

theorem dispatch_group_leave_below (b : sem_backend) (w : World)
    (h0 : 0 ≤ w.dsema.dsema_value) (h1 : w.dsema.dsema_value + 1 < LONG_MAX) :
    dispatch_group_leave b w = Result.ret () (w.set_value (w.dsema.dsema_value + 1)) := by
  have hi : dispatch_atomic_inc w.dsema.dsema_value = w.dsema.dsema_value + 1 :=
    dispatch_atomic_inc_eq _ (by unfold LONG_MIN; omega) (by omega)
  have h2 : ¬ (w.dsema.dsema_value + 1 < 0) := by omega
  have h3 : ¬ (w.dsema.dsema_value + 1 = LONG_MAX) := by omega
  simp [dispatch_group_leave, hi, h2, h3]

theorem group_calls_leaves (b : sem_backend) (k : Nat) :
    ∀ (w : World), 0 ≤ w.dsema.dsema_value → w.dsema.dsema_value + k < LONG_MAX →
      group_calls b (List.replicate k group_op.leave) w
        = some (w.set_value (w.dsema.dsema_value + k)) := by
  induction k with
  | zero =>
    intro w _ _
    simp [group_calls, set_value_self]
  | succ k ih =>
    intro w h0 h1
    push_cast at h1
    have h3 := dispatch_group_leave_below b w h0 (by omega)
    have h4 := ih (w.set_value (w.dsema.dsema_value + 1))
      (by simp only [set_value_dsema_value]; omega)
      (by simp only [set_value_dsema_value]; omega)
    simp only [set_value_dsema_value, set_value_set_value] at h4
    simp only [List.replicate_succ, group_calls, group_op.call, h3, h4]
    push_cast
    congr 2
    omega

theorem dispatch_group_create_ready (b : sem_backend) (w : World) :
    handle_ready b (dispatch_group_create b w) ∧
      (dispatch_group_create b w).dsema.dsema_notify_tail = 0 := by
  cases b <;> simp [dispatch_group_create, _dispatch_semaphore_init, _dispatch_alloc,
    kernel_create, handle_ready]

/-- C18: `dispatch_group_leave` runs `_dispatch_group_wake` iff the value after
its increment equals `LONG_MAX`: in that case it ends in the world the wake
ends in, otherwise it only stores the incremented value.  Consequently, for
every `n >= 1`, after `n` enters on a fresh group (and any notifications
registered then), each of the first `n - 1` leaves changes nothing but the
value and `dispatch_group_wait` does not return `0` yet; the `n`-th leave is
the one that runs the wake and hands over the notifications, after which
`dispatch_group_wait` returns `0`. -/
theorem dispatch_group_leave_wakes (b : sem_backend) (w : World) :
    (dispatch_atomic_inc w.dsema.dsema_value = LONG_MAX →
      (dispatch_group_leave b w).world
        = (_dispatch_group_wake b (w.set_value LONG_MAX)).world) ∧
    (dispatch_atomic_inc w.dsema.dsema_value ≠ LONG_MAX →
      (dispatch_group_leave b w).world
        = w.set_value (dispatch_atomic_inc w.dsema.dsema_value)) ∧
    (∀ (n : Nat) (rs : List (Nat × Nat × Nat)), 1 ≤ n → (n : Int) ≤ LONG_MAX →
      ∃ u, (group_calls b (List.replicate n group_op.enter) (dispatch_group_create b w)).bind
          (group_notifies b rs) = some u ∧
        (∀ j, j < n → ∃ uj, group_calls b (List.replicate j group_op.leave) u = some uj ∧
          uj = u.set_value (LONG_MAX - n + j) ∧
          ∀ timeout w1, dispatch_group_wait b timeout uj ≠ Result.ret 0 w1) ∧
        ∃ un, group_calls b (List.replicate n group_op.leave) u = some un ∧
          un.async = u.async ++ rs ∧ un.dsema.dsema_notify_head = 0 ∧
          un.dsema.dsema_value = LONG_MAX ∧
          ∀ timeout, dispatch_group_wait b timeout un = Result.ret 0 un) := by
  refine ⟨?_, ?_, ?_⟩
  · intro h
    have h1 : ¬ (LONG_MAX < 0) := by decide
    simp only [dispatch_group_leave, h, h1, if_false, if_true]
    split <;> rename_i heq <;> rw [heq] <;> rfl
  · intro h
    simp only [dispatch_group_leave, h, if_false]
    split <;> rfl
  · intro n rs hn1 hn2
    obtain ⟨f1, f2, f3⟩ := dispatch_group_create_fresh b w
    obtain ⟨f4, f5⟩ := dispatch_group_create_ready b w
    have he := group_calls_enters b n (dispatch_group_create b w) (by rw [f1]; exact hn2)
      (by rw [f1])
    rw [f1] at he
    have hq : ((dispatch_group_create b w).set_value (LONG_MAX - n)).dsema.dsema_value
        ≠ LONG_MAX := by
      simp only [set_value_dsema_value]
      omega
    obtain ⟨u, k1, k2, k3, k4, k5, k6, k7, k8, k9, k10⟩ :=
      group_notifies_list b rs [] _ hq f3.2 (fun _ => f5)
    simp only [List.nil_append] at k2
    simp only [set_value_dsema_value] at k7
    have hur : handle_ready b u := handle_ready_of_port b (dispatch_group_create b w) u k10 f4
    have hlow : ∀ j : Nat, j < n →
        group_calls b (List.replicate j group_op.leave) u
          = some (u.set_value (LONG_MAX - n + j)) := by
      intro j hj
      have := group_calls_leaves b j u (by rw [k7]; omega) (by rw [k7]; omega)
      rw [this, k7]
    refine ⟨u, by rw [he]; exact k1, ?_, ?_⟩
    · intro j hj
      refine ⟨_, hlow j hj, rfl, ?_⟩
      intro timeout w1 hw
      have := (dispatch_group_wait_zero_iff b timeout _).mp ⟨w1, hw⟩
      simp only [set_value_dsema_value] at this
      omega
    · obtain ⟨m, hm⟩ : ∃ m, n = m + 1 := ⟨n - 1, by omega⟩
      have hpre := hlow m (by omega)
      have hval : (LONG_MAX - (n : Int) + m) = LONG_MAX - 1 := by
        rw [hm]
        push_cast
        omega
      rw [hval] at hpre
      have hl2 : notify_list (u.set_value LONG_MAX).heap
          (u.set_value LONG_MAX).dsema.dsema_notify_tail
          (u.set_value LONG_MAX).dsema.dsema_notify_head rs := k2
      obtain ⟨w2, m1, m2, _, _, m5, _, m7, _⟩ :=
        _dispatch_group_wake_list b (u.set_value LONG_MAX) rs hur hl2
      have hleave : dispatch_group_leave b (u.set_value (LONG_MAX - 1)) = Result.ret () w2 := by
        have hinc : dispatch_atomic_inc (LONG_MAX - 1) = LONG_MAX := by decide
        have h1 : ¬ (LONG_MAX < 0) := by decide
        simp only [dispatch_group_leave, set_value_dsema_value, hinc, h1, if_false, if_true,
          set_value_set_value, m1]
      refine ⟨w2, ?_, m2, m5, m7, ?_⟩
      · rw [hm, List.replicate_succ', group_calls_append, hpre]
        simp [group_calls, group_op.call, hleave]
      · intro timeout
        have : w2.dsema.dsema_value = LONG_MAX := m7
        simp [dispatch_group_wait, this]

/-- C18 at a concrete input: under `USE_MACH_SEM`, a group with one `enter`
outstanding; the `leave` brings the value to `LONG_MAX` and ends where the wake
ends. -/
theorem dispatch_group_leave_wakes_witness :
    (dispatch_group_leave sem_backend.mach
        ((dispatch_group_create sem_backend.mach (World.boot [])).set_value
          (LONG_MAX - 1))).world
      = (_dispatch_group_wake sem_backend.mach
          (((dispatch_group_create sem_backend.mach (World.boot [])).set_value
            (LONG_MAX - 1)).set_value LONG_MAX)).world :=
  (dispatch_group_leave_wakes sem_backend.mach
    ((dispatch_group_create sem_backend.mach (World.boot [])).set_value (LONG_MAX - 1))).1
    (by decide)

/-! ## Which kernel answers a wait consumes -/

theorem kernel_wait_retry_some (b : sem_backend) (again : kernel_answer → Bool) :
    ∀ (l : List kernel_answer) (e : Int) (a : kernel_answer),
      (kernel_wait_retry b again l e).1 = some a →
      (∃ pre, l = pre ++ a :: (kernel_wait_retry b again l e).2.1) ∧ again a = false ∧
      (b = sem_backend.posix → a.code = -1 → (kernel_wait_retry b again l e).2.2.2 = a.err) := by
  intro l
  induction l with
  | nil =>
    intro e a h
    simp [kernel_wait_retry] at h
  | cons x l ih =>
    intro e a h
    unfold kernel_wait_retry at h ⊢
    by_cases hx : again x = true
    · simp only [hx, if_true] at h ⊢
      obtain ⟨⟨pre, hpre⟩, h2, h3⟩ := ih _ a h
      exact ⟨⟨x :: pre, by rw [List.cons_append, ← hpre]⟩, h2, h3⟩
    · simp only [hx] at h ⊢
      simp only [Bool.false_eq_true, if_false, Option.some.injEq] at h ⊢
      subst h
      refine ⟨⟨[], rfl⟩, by simpa using hx, ?_⟩
      intro hb hc
      subst hb
      simp [errno_after, hc]

theorem kernel_wait_some {b : sem_backend} {again : kernel_answer → Bool} {c : kernel_call}
    {w w1 : World} {a : kernel_answer} (h : kernel_wait b again c w = (some a, w1)) :
    (∃ pre, w.kernel = pre ++ a :: w1.kernel) ∧ again a = false ∧
      (b = sem_backend.posix → a.code = -1 → w1.errno = a.err) := by
  have h1 : (kernel_wait b again c w).1 = some a := by rw [h]
  have h2 : w1 = (kernel_wait b again c w).2 := by rw [h]
  subst h2
  simp only [kernel_wait] at h1 ⊢
  exact kernel_wait_retry_some b again _ _ a h1

theorem _dispatch_group_wake_ret (b : sem_backend) (w w1 : World) (v : Int)
    (h : _dispatch_group_wake b w = Result.ret v w1) : v = 0 := by
  unfold _dispatch_group_wake at h
  simp only at h
  split at h
  · cases h
  · cases h
  · split at h
    · split at h
      · injection h with h1 _
        exact h1.symm
      · cases h
      · cases h
    · injection h with h1 _
      exact h1.symm

theorem group_wait_forever_suffix (b : sem_backend) (w w1 : World) (u : Unit)
    (h : group_wait_forever b w = Result.ret u w1) : ∃ pre, w.kernel = pre ++ w1.kernel := by
  unfold group_wait_forever at h
  cases b
  all_goals simp only at h
  all_goals split at h
  all_goals first
    | (exact Result.noConfusion h)
    | (split at h
       all_goals first
         | (exact Result.noConfusion h)
         | (injection h with _ h2
            subst h2
            obtain ⟨⟨pre, hpre⟩, _, _⟩ := kernel_wait_some (by assumption)
            exact ⟨pre ++ [_], by rw [hpre, List.append_assoc, List.singleton_append]⟩))

theorem group_wait_undo_kernel (b : sem_backend) (w w1 : World) (v : Int)
    (h : group_wait_undo b w = some (Result.ret v w1)) : w1.kernel = w.kernel := by
  unfold group_wait_undo at h
  simp only at h
  split at h
  · cases b
    all_goals simp only [Option.some.injEq, Result.ret.injEq] at h
    all_goals obtain ⟨_, h2⟩ := h
    all_goals subst h2
    all_goals rfl
  · cases h

theorem group_wait_switch_consumes (b : sem_backend) (timeout : Nat) (w w1 : World)
    (r : Option Int) (h : group_wait_switch b timeout w = Result.ret r w1) :
    (r ≠ none → wait_timed_out b timeout w.kernel w1.kernel) ∧
      (r = none → ∃ pre, w.kernel = pre ++ w1.kernel) := by
  have hforever : ∀ (w w1 : World) (r : Option Int),
      (match group_wait_forever b w with
        | Result.ret _ w => Result.ret none w
        | Result.crash c w => Result.crash c w
        | Result.hang w => Result.hang w) = Result.ret r w1 →
      r = none ∧ ∃ pre, w.kernel = pre ++ w1.kernel := by
    intro w w1 r h
    split at h
    · rename_i u w2 heq
      injection h with h1 h2
      subst h1 h2
      exact ⟨rfl, group_wait_forever_suffix b w w2 u heq⟩
    · cases h
    · cases h
  have hnow : ∀ (w w1 : World) (r : Option Int),
      (match group_wait_undo b w with
        | some (Result.ret v w) => Result.ret (some v) w
        | some (Result.crash c w) => Result.crash c w
        | some (Result.hang w) => Result.hang w
        | none =>
          match group_wait_forever b w with
          | Result.ret _ w => Result.ret none w
          | Result.crash c w => Result.crash c w
          | Result.hang w => Result.hang w) = Result.ret r w1 →
      (r ≠ none → w1.kernel = w.kernel) ∧ (r = none → ∃ pre, w.kernel = pre ++ w1.kernel) := by
    intro w w1 r h
    split at h
    · rename_i v w2 heq
      injection h with h1 h2
      subst h1 h2
      exact ⟨fun _ => group_wait_undo_kernel b w w2 v heq, fun hn => by cases hn⟩
    · cases h
    · cases h
    · obtain ⟨h1, h2⟩ := hforever w w1 r h
      exact ⟨fun hn => absurd h1 hn, fun _ => h2⟩
  unfold group_wait_switch at h
  simp only at h
  split at h
  · obtain ⟨h1, h2⟩ := hforever w w1 r h
    exact ⟨fun hn => absurd h1 hn, fun _ => h2⟩
  · rename_i hnf
    split at h
    · rename_i hn
      obtain ⟨h1, h2⟩ := hnow w w1 r h
      exact ⟨fun hr => ⟨hnf, Or.inl hn⟩, h2⟩
    · cases b
      all_goals simp only at h
      all_goals split at h
      all_goals first
        | (exact Result.noConfusion h)
        | (rename_i x a w2 heq
           obtain ⟨⟨pre, hpre⟩, _, herr⟩ := kernel_wait_some heq
           split at h
           · split at h
             · cases h
             · injection h with h1 h2
               subst h1 h2
               exact ⟨fun hr => absurd rfl hr,
                 fun _ => ⟨pre ++ [_], by rw [hpre, List.append_assoc, List.singleton_append]⟩⟩
           · rename_i hto
             obtain ⟨h1, h2⟩ := hnow _ w1 r h
             refine ⟨fun hr => ⟨hnf, Or.inr ⟨pre, a, ?_, ?_⟩⟩, fun hr => ?_⟩
             · rw [hpre, h1 hr]
             · first
                 | (simp only [is_timed_out]
                    simpa using hto)
                 | (simp only [is_timed_out]
                    have hto2 := not_not.mp hto
                    exact ⟨hto2.1, (herr rfl hto2.1).symm.trans hto2.2⟩)
             · obtain ⟨pre2, hpre2⟩ := h2 hr
               exact ⟨pre ++ _ :: pre2, by rw [hpre, hpre2, List.append_assoc,
                 List.cons_append]⟩)

theorem wait_timed_out_of_suffix (b : sem_backend) (timeout : Nat)
    (l1 l2 l3 pre : List kernel_answer) (h : l1 = pre ++ l2)
    (h2 : wait_timed_out b timeout l2 l3) : wait_timed_out b timeout l1 l3 := by
  obtain ⟨h3, h4⟩ := h2
  refine ⟨h3, ?_⟩
  rcases h4 with h4 | ⟨p, a, h5, h6⟩
  · exact Or.inl h4
  · exact Or.inr ⟨pre ++ p, a, by rw [h, h5, List.append_assoc], h6⟩

theorem group_wait_slow_loop_nonzero (b : sem_backend) (timeout : Nat) (n : Nat) :
    ∀ (w w1 : World) (v : Int), group_wait_slow_loop b timeout n w = Result.ret v w1 →
      (v = 0 ∨ v = timed_out_code b) ∧
      (v ≠ 0 → wait_timed_out b timeout w.kernel w1.kernel) := by
  induction n with
  | zero =>
    intro w w1 v h
    simp [group_wait_slow_loop] at h
  | succ n ih =>
    intro w w1 v h
    unfold group_wait_slow_loop at h
    split at h
    · have := _dispatch_group_wake_ret b _ _ _ h
      exact ⟨Or.inl this, fun hv => absurd this hv⟩
    · simp only at h
      split at h
      · have := _dispatch_group_wake_ret b _ _ _ h
        exact ⟨Or.inl this, fun hv => absurd this hv⟩
      · have hk : ∀ w2 : World, w2.kernel = w.kernel →
            (match group_wait_switch b timeout w2 with
              | Result.ret (some v) w => Result.ret v w
              | Result.ret none w => group_wait_slow_loop b timeout n w
              | Result.crash c w => Result.crash c w
              | Result.hang w => Result.hang w) = Result.ret v w1 →
            (v = 0 ∨ v = timed_out_code b) ∧
              (v ≠ 0 → wait_timed_out b timeout w.kernel w1.kernel) := by
          intro w2 hw2 h
          split at h
          · rename_i v2 w3 heq
            injection h with h1 h2
            subst h1 h2
            obtain ⟨c1, _⟩ := group_wait_switch_consumes b timeout _ _ _ heq
            obtain ⟨_, c3⟩ := group_wait_switch_ret b timeout _ _ _ heq
            have := c1 (by simp)
            rw [hw2] at this
            exact ⟨Or.inr (c3 _ rfl), fun _ => this⟩
          · rename_i w3 heq
            obtain ⟨_, c2⟩ := group_wait_switch_consumes b timeout _ _ _ heq
            obtain ⟨pre, hpre⟩ := c2 rfl
            rw [hw2] at hpre
            obtain ⟨i1, i2⟩ := ih w3 w1 v h
            exact ⟨i1, fun hv => wait_timed_out_of_suffix b timeout _ _ _ pre hpre (i2 hv)⟩
          · cases h
          · cases h
        cases b
        · exact hk _ (by rw [_dispatch_semaphore_create_port_kernel]; rfl) h
        · exact hk (w.set_group_waiters (dispatch_atomic_inc w.dsema.dsema_group_waiters)) rfl h

theorem semaphore_wait_forever_suffix (b : sem_backend) (w w1 : World) (u : Unit)
    (h : semaphore_wait_forever b w = Result.ret u w1) :
    ∃ pre, w.kernel = pre ++ w1.kernel := by
  unfold semaphore_wait_forever at h
  cases b
  all_goals simp only at h
  all_goals split at h
  all_goals first
    | (exact Result.noConfusion h)
    | (split at h
       all_goals first
         | (exact Result.noConfusion h)
         | (injection h with _ h2
            subst h2
            obtain ⟨⟨pre, hpre⟩, _, _⟩ := kernel_wait_some (by assumption)
            exact ⟨pre ++ [_], by rw [hpre, List.append_assoc, List.singleton_append]⟩))

theorem semaphore_wait_switch_consumes (timeout : Nat) (w w1 : World)
    (r : Option Int) (h : semaphore_wait_switch sem_backend.mach timeout w = Result.ret r w1) :
    (r ≠ none → wait_timed_out sem_backend.mach timeout w.kernel w1.kernel) ∧
      (r = none → ∃ pre, w.kernel = pre ++ w1.kernel) := by
  have hforever : ∀ (w w1 : World) (r : Option Int),
      (match semaphore_wait_forever sem_backend.mach w with
        | Result.ret _ w => Result.ret none w
        | Result.crash c w => Result.crash c w
        | Result.hang w => Result.hang w) = Result.ret r w1 →
      r = none ∧ ∃ pre, w.kernel = pre ++ w1.kernel := by
    intro w w1 r h
    split at h
    · rename_i u w2 heq
      injection h with h1 h2
      subst h1 h2
      exact ⟨rfl, semaphore_wait_forever_suffix _ w w2 u heq⟩
    · cases h
    · cases h
  have hnow : ∀ (w w1 : World) (r : Option Int),
      (match semaphore_wait_undo sem_backend.mach w with
        | some (Result.ret v w) => Result.ret (some v) w
        | some (Result.crash c w) => Result.crash c w
        | some (Result.hang w) => Result.hang w
        | none =>
          match semaphore_wait_forever sem_backend.mach w with
          | Result.ret _ w => Result.ret none w
          | Result.crash c w => Result.crash c w
          | Result.hang w => Result.hang w) = Result.ret r w1 →
      (r ≠ none → w1.kernel = w.kernel) ∧ (r = none → ∃ pre, w.kernel = pre ++ w1.kernel) := by
    intro w w1 r h
    split at h
    · rename_i v w2 heq
      injection h with h1 h2
      subst h1 h2
      exact ⟨fun _ => semaphore_wait_undo_kernel _ w w2 v heq, fun hn => by cases hn⟩
    · cases h
    · cases h
    · obtain ⟨h1, h2⟩ := hforever w w1 r h
      exact ⟨fun hn => absurd h1 hn, fun _ => h2⟩
  unfold semaphore_wait_switch at h
  simp only at h
  split at h
  · obtain ⟨h1, h2⟩ := hforever w w1 r h
    exact ⟨fun hn => absurd h1 hn, fun _ => h2⟩
  · rename_i hnf
    split at h
    · rename_i hn
      obtain ⟨h1, h2⟩ := hnow w w1 r h
      exact ⟨fun hr => ⟨hnf, Or.inl hn⟩, h2⟩
    · split at h
      · cases h
      · rename_i x a w2 heq
        obtain ⟨⟨pre, hpre⟩, _, herr⟩ := kernel_wait_some heq
        split at h
        · split at h
          · cases h
          · injection h with h1 h2
            subst h1 h2
            exact ⟨fun hr => absurd rfl hr,
              fun _ => ⟨pre ++ [_], by rw [hpre, List.append_assoc, List.singleton_append]⟩⟩
        · rename_i hto
          obtain ⟨h1, h2⟩ := hnow _ w1 r h
          refine ⟨fun hr => ⟨hnf, Or.inr ⟨pre, a, ?_, ?_⟩⟩, fun hr => ?_⟩
          · rw [hpre, h1 hr]
          · simp only [is_timed_out]
            simpa using hto
          · obtain ⟨pre2, hpre2⟩ := h2 hr
            exact ⟨pre ++ _ :: pre2, by rw [hpre, hpre2, List.append_assoc,
              List.cons_append]⟩

theorem semaphore_wait_slow_loop_code (b : sem_backend) (timeout : Nat) (n : Nat) :
    ∀ (w w1 : World) (v : Int), semaphore_wait_slow_loop b timeout n w = Result.ret v w1 →
      v = 0 ∨ v = timed_out_code b := by
  induction n with
  | zero =>
    intro w w1 v h
    simp [semaphore_wait_slow_loop] at h
  | succ n ih =>
    intro w w1 v h
    unfold semaphore_wait_slow_loop at h
    simp only at h
    split at h
    · injection h with h1 _
      exact Or.inl h1.symm
    · split at h
      · rename_i v2 w3 heq
        injection h with h1 h2
        subst h1
        exact Or.inr ((semaphore_wait_switch_ret b timeout _ _ _ heq).2 _ rfl)
      · exact ih _ w1 v h
      · cases h
      · cases h

theorem semaphore_wait_slow_loop_nonzero (timeout : Nat) (n : Nat) :
    ∀ (w w1 : World) (v : Int),
      semaphore_wait_slow_loop sem_backend.mach timeout n w = Result.ret v w1 →
      v ≠ 0 → wait_timed_out sem_backend.mach timeout w.kernel w1.kernel := by
  induction n with
  | zero =>
    intro w w1 v h
    simp [semaphore_wait_slow_loop] at h
  | succ n ih =>
    intro w w1 v h hv
    unfold semaphore_wait_slow_loop at h
    simp only at h
    split at h
    · injection h with h1 _
      exact absurd h1.symm hv
    · split at h
      · rename_i v2 w3 heq
        injection h with h1 h2
        subst h1 h2
        obtain ⟨c1, _⟩ := semaphore_wait_switch_consumes timeout _ _ _ heq
        have := c1 (by simp)
        rw [_dispatch_semaphore_create_port_kernel] at this
        exact this
      · rename_i w3 heq
        obtain ⟨_, c2⟩ := semaphore_wait_switch_consumes timeout _ _ _ heq
        obtain ⟨pre, hpre⟩ := c2 rfl
        rw [_dispatch_semaphore_create_port_kernel] at hpre
        exact wait_timed_out_of_suffix _ timeout _ _ _ pre hpre (ih w3 w1 v h hv)
      · cases h
      · cases h

/-! ## C14 -/

/-- C14, the claim fails: `dispatch_semaphore_signal` on a semaphore with one
waiter (`dsema_value == -1`) completes and returns `1`, not `0`, and no wait
timed out. -/
theorem dispatch_semaphore_signal_returns_one :
    ∃ w1, dispatch_semaphore_signal sem_backend.mach ((World.boot []).set_value (-1))
      = Result.ret 1 w1 :=
  ⟨_, rfl⟩

/-- C14, amended: `dispatch_semaphore_signal` returns `0` when the incremented
value is positive and `1` when it is not (it then took the slow path to wake a
waiter); `dispatch_semaphore_wait` and `dispatch_group_wait` return either `0`
or the time-out code; `dispatch_group_wait`, and `dispatch_semaphore_wait`
under `USE_MACH_SEM`, return the time-out code only when the wait timed out
(an immediate timeout, or a kernel timed wait whose deadline passed). -/
theorem wait_and_signal_return_values (b : sem_backend) (timeout : Nat) (w w1 : World)
    (v : Int) :
    (dispatch_semaphore_signal b w = Result.ret v w1 →
      (v = 0 ∧ dispatch_atomic_inc w.dsema.dsema_value > 0) ∨
      (v = 1 ∧ ¬ dispatch_atomic_inc w.dsema.dsema_value > 0)) ∧
    (dispatch_semaphore_wait b timeout w = Result.ret v w1 →
      (v = 0 ∨ v = timed_out_code b) ∧
      (b = sem_backend.mach → v ≠ 0 → wait_timed_out b timeout w.kernel w1.kernel)) ∧
    (dispatch_group_wait b timeout w = Result.ret v w1 →
      (v = 0 ∨ v = timed_out_code b) ∧
      (v ≠ 0 → wait_timed_out b timeout w.kernel w1.kernel)) := by
  refine ⟨?_, ?_, ?_⟩
  · intro h
    unfold dispatch_semaphore_signal at h
    simp only at h
    split at h
    · rename_i hpos
      injection h with h1 _
      exact Or.inl ⟨h1.symm, hpos⟩
    · rename_i hpos
      split at h
      · cases h
      · refine Or.inr ⟨?_, hpos⟩
        cases b
        all_goals unfold _dispatch_semaphore_signal_slow at h
        all_goals simp only at h
        all_goals split at h
        all_goals first
          | (exact Result.noConfusion h)
          | (injection h with h1 _
             exact h1.symm)
  · intro h
    unfold dispatch_semaphore_wait at h
    simp only at h
    split at h
    · injection h with h1 _
      exact ⟨Or.inl h1.symm, fun _ hv => absurd h1.symm hv⟩
    · refine ⟨semaphore_wait_slow_loop_code b timeout _ _ w1 v h, ?_⟩
      intro hb hv
      subst hb
      exact semaphore_wait_slow_loop_nonzero timeout _
        (w.set_value (dispatch_atomic_dec w.dsema.dsema_value)) w1 v h hv
  · intro h
    unfold dispatch_group_wait at h
    split at h
    · injection h with h1 _
      exact ⟨Or.inl h1.symm, fun hv => absurd h1.symm hv⟩
    · rename_i hq
      split at h
      · rename_i ht
        cases b
        all_goals simp only at h
        all_goals injection h with h1 h2
        all_goals subst h1 h2
        all_goals exact ⟨Or.inr rfl, fun _ => ⟨by rw [ht]; decide, Or.inl ht⟩⟩
      · exact group_wait_slow_loop_nonzero b timeout _ w w1 v h

/-- C14 amended, at a concrete input: the third wait on a `create(2)` under
`USE_MACH_SEM`, the kernel answering a time-out, returns the time-out code and
did time out. -/
theorem wait_and_signal_return_values_witness :
    (KERN_OPERATION_TIMED_OUT = 0 ∨ KERN_OPERATION_TIMED_OUT = timed_out_code sem_backend.mach) ∧
    (sem_backend.mach = sem_backend.mach → KERN_OPERATION_TIMED_OUT ≠ 0 →
      wait_timed_out sem_backend.mach 100 [timed_out_answer sem_backend.mach] []) :=
  (wait_and_signal_return_values sem_backend.mach 100
    ((_dispatch_semaphore_init sem_backend.mach 2
      (World.boot [timed_out_answer sem_backend.mach])).set_value 0)
    ({ (_dispatch_semaphore_create_port ((_dispatch_semaphore_init sem_backend.mach 2
      (World.boot [timed_out_answer sem_backend.mach])).set_value 0)) with
        kernel := []
        trace := [kernel_call.create 1, kernel_call.timedwait 1 100] })
    KERN_OPERATION_TIMED_OUT).2.1 rfl

/-! ## C15 -/

/-- C15: `dispatch_semaphore_signal` stores the incremented `dsema_value`
(exactly one more, short of `LONG_MAX`); when the value before the call is
`>= 0` it issues no kernel call and leaves `dsema_sent_ksignals` as it was;
when the value before the call is `< 0` it stores the incremented
`dsema_sent_ksignals` (exactly one more), issues exactly one kernel signal and,
the object carrying a usable handle, returns `1`. -/
theorem dispatch_semaphore_signal_effect (b : sem_backend) (w : World)
    (hv : is_long w.dsema.dsema_value) :
    (dispatch_semaphore_signal b w).world.dsema.dsema_value
      = dispatch_atomic_inc w.dsema.dsema_value ∧
    (w.dsema.dsema_value < LONG_MAX →
      (dispatch_semaphore_signal b w).world.dsema.dsema_value = w.dsema.dsema_value + 1) ∧
    (0 ≤ w.dsema.dsema_value →
      (dispatch_semaphore_signal b w).world.trace = w.trace ∧
      (dispatch_semaphore_signal b w).world.dsema.dsema_sent_ksignals
        = w.dsema.dsema_sent_ksignals) ∧
    (w.dsema.dsema_value < 0 →
      (dispatch_semaphore_signal b w).world.dsema.dsema_sent_ksignals
        = dispatch_atomic_inc w.dsema.dsema_sent_ksignals ∧
      (LONG_MIN ≤ w.dsema.dsema_sent_ksignals → w.dsema.dsema_sent_ksignals < LONG_MAX →
        (dispatch_semaphore_signal b w).world.dsema.dsema_sent_ksignals
          = w.dsema.dsema_sent_ksignals + 1) ∧
      kernel_signals (dispatch_semaphore_signal b w).world.trace
        = kernel_signals w.trace + 1 ∧
      (handle_ready b w → ∃ w1, dispatch_semaphore_signal b w = Result.ret 1 w1)) := by
  have hslow : w.dsema.dsema_value < 0 →
      dispatch_semaphore_signal b w
        = _dispatch_semaphore_signal_slow b
            (w.set_value (dispatch_atomic_inc w.dsema.dsema_value)) := by
    intro hneg
    have h1 : dispatch_atomic_inc w.dsema.dsema_value = w.dsema.dsema_value + 1 :=
      dispatch_atomic_inc_eq _ hv.1 (by unfold LONG_MAX; omega)
    have h2 : ¬ (w.dsema.dsema_value + 1 > 0) := by omega
    have h3 : ¬ (w.dsema.dsema_value + 1 = LONG_MIN) := by
      have := hv.1
      unfold LONG_MIN at this ⊢
      omega
    simp [dispatch_semaphore_signal, h1, h2, h3]
  have hval : (dispatch_semaphore_signal b w).world.dsema.dsema_value
      = dispatch_atomic_inc w.dsema.dsema_value := by
    unfold dispatch_semaphore_signal
    simp only
    split
    · rfl
    · split
      · rfl
      · cases b
        · by_cases hp : w.dsema.dsema_port = 0
          all_goals simp [_dispatch_semaphore_signal_slow, _dispatch_semaphore_create_port,
            World.set_value, World.set_sent_ksignals, hp, kernel_create, semaphore_signal,
            KERN_SUCCESS, Result.world]
        · by_cases hp : w.dsema.dsema_port = 0
          all_goals simp [_dispatch_semaphore_signal_slow, World.set_value,
            World.set_sent_ksignals, hp, sem_post, Result.world]
  refine ⟨hval, ?_, ?_, ?_⟩
  · intro hlt
    rw [hval, dispatch_atomic_inc_eq _ hv.1 hlt]
  · intro hge
    by_cases hmax : w.dsema.dsema_value = LONG_MAX
    · simp [dispatch_semaphore_signal, hmax, dispatch_atomic_inc_max,
        show ¬ (LONG_MIN > 0) by decide, Result.world, World.set_value]
    · have h1 : dispatch_atomic_inc w.dsema.dsema_value = w.dsema.dsema_value + 1 :=
        dispatch_atomic_inc_eq _ hv.1 (lt_of_le_of_ne hv.2 hmax)
      have h2 : w.dsema.dsema_value + 1 > 0 := by omega
      simp [dispatch_semaphore_signal, h1, h2, Result.world, World.set_value]
  · intro hneg
    rw [hslow hneg]
    cases b
    · by_cases hp : w.dsema.dsema_port = 0
      all_goals simp [_dispatch_semaphore_signal_slow, _dispatch_semaphore_create_port,
        World.set_value, World.set_sent_ksignals, hp, kernel_create, semaphore_signal,
        KERN_SUCCESS, Result.world, kernel_signals_append, kernel_signals]
      all_goals intro h1 h2
      all_goals exact dispatch_atomic_inc_eq _ h1 h2
    · by_cases hp : w.dsema.dsema_port = 0
      all_goals simp [_dispatch_semaphore_signal_slow, World.set_value,
        World.set_sent_ksignals, hp, sem_post, Result.world, kernel_signals_append,
        kernel_signals, handle_ready]
      all_goals intro h1 h2
      all_goals exact dispatch_atomic_inc_eq _ h1 h2

/-- C15 at a concrete input: a semaphore with one waiter (`dsema_value == -1`)
under `USE_MACH_SEM`. -/
theorem dispatch_semaphore_signal_effect_witness :
    (dispatch_semaphore_signal sem_backend.mach ((World.boot []).set_value (-1))).world.dsema.dsema_value
      = dispatch_atomic_inc ((World.boot []).set_value (-1)).dsema.dsema_value :=
  (dispatch_semaphore_signal_effect sem_backend.mach ((World.boot []).set_value (-1))
    (by decide)).1

/-! ## The wake of a timed kernel wait -/

theorem semaphore_wait_switch_mach_wake (timeout : Nat) (w : World) (a : kernel_answer)
    (rest : List kernel_answer) (ht1 : timeout ≠ DISPATCH_TIME_NOW)
    (ht2 : timeout ≠ DISPATCH_TIME_FOREVER) (hk : w.kernel = a :: rest)
    (ha : a.code = KERN_SUCCESS) :
    semaphore_wait_switch sem_backend.mach timeout w
      = Result.ret none { w with
          kernel := rest
          trace := w.trace ++ [kernel_call.timedwait w.dsema.dsema_port timeout] } := by
  simp [semaphore_wait_switch, ht1, ht2, kernel_wait, hk, kernel_wait_retry, ha, KERN_SUCCESS,
    KERN_ABORTED, KERN_OPERATION_TIMED_OUT, errno_after]

theorem semaphore_wait_switch_posix_wake (timeout : Nat) (w : World) (a : kernel_answer)
    (rest : List kernel_answer) (ht1 : timeout ≠ DISPATCH_TIME_NOW)
    (ht2 : timeout ≠ DISPATCH_TIME_FOREVER) (hk : w.kernel = a :: rest)
    (ha : a.code = 0) (hv : w.dsema.dsema_value < 0) :
    semaphore_wait_switch sem_backend.posix timeout w
      = Result.ret (some (-1)) { w with
          dsema := { w.dsema with dsema_value := wrap_long (w.dsema.dsema_value + 1) }
          kernel := rest
          trace := w.trace ++ [kernel_call.timedwait w.dsema.dsema_port timeout]
          errno := ETIMEDOUT } := by
  simp [semaphore_wait_switch, ht1, ht2, kernel_wait, hk, kernel_wait_retry, ha,
    errno_after, semaphore_wait_undo, hv, World.set_value]

theorem semaphore_wait_slow_loop_drain (b : sem_backend) (timeout : Nat) (n : Nat) (w : World)
    (hs : w.dsema.dsema_sent_ksignals ≠ 0) :
    semaphore_wait_slow_loop b timeout (n + 1) w
      = Result.ret 0 (w.set_sent_ksignals (wrap_long (w.dsema.dsema_sent_ksignals - 1))) := by
  simp [semaphore_wait_slow_loop, hs]

theorem _dispatch_semaphore_wait_slow_zero (b : sem_backend) (timeout : Nat) (w w1 : World)
    (h : _dispatch_semaphore_wait_slow b timeout w = Result.ret 0 w1) :
    w.dsema.dsema_sent_ksignals ≠ 0 ∧
      w1 = w.set_sent_ksignals (wrap_long (w.dsema.dsema_sent_ksignals - 1)) := by
  by_cases hs : w.dsema.dsema_sent_ksignals = 0
  · exact absurd h (semaphore_wait_slow_loop_ne_zero b timeout _ w w1 hs)
  · refine ⟨hs, ?_⟩
    unfold _dispatch_semaphore_wait_slow at h
    rw [semaphore_wait_slow_loop_drain b timeout _ w hs] at h
    injection h with _ h2
    exact h2.symm

/-! ## C16 -/

/-- C16, the code at the failing input: under `USE_POSIX_SEM`, a waiter in the
slow path with a deadline, `dsema_sent_ksignals == 0` and `dsema_value == -1`,
whose `sem_timedwait` is woken (returns `0`): the wake makes the wait return
(`-1`, `errno == ETIMEDOUT`) although no `dsema_sent_ksignals` was there to
consume, instead of sending the waiter back to waiting. -/
theorem posix_spurious_wake_returns :
    ∃ w1, _dispatch_semaphore_wait_slow sem_backend.posix 100
        (((_dispatch_semaphore_init sem_backend.posix 0
            (World.boot [{ code := 0, err := 0 }])).set_value (-1)))
        = Result.ret (-1) w1 ∧
      w1.dsema.dsema_sent_ksignals = 0 ∧ w1.dsema.dsema_value = 0 ∧ w1.errno = ETIMEDOUT ∧
      kernel_waits w1.trace = 1 := by
  refine ⟨_, rfl, ?_, ?_, ?_, ?_⟩ <;> decide

/-! ## C17 -/

/-- C17, the code at the failing input: a semaphore created with `0`, a wait
with a deadline, the kernel answering first a wake and then a time-out.  Under
`USE_MACH_SEM` the wake sends the waiter back to `again`: both answers are
consumed by two timed waits and the time-out is the second one's.  Under
`USE_POSIX_SEM` the wake itself is taken for a time-out: the call returns `-1`
with `errno == ETIMEDOUT` after one timed wait, having added one to
`dsema_value`, and the second answer is still pending. -/
theorem posix_timedwait_wake_taken_for_timeout :
    (∃ w1, dispatch_semaphore_wait sem_backend.mach 100
        (_dispatch_semaphore_init sem_backend.mach 0
          (World.boot [{ code := KERN_SUCCESS, err := 0 }, timed_out_answer sem_backend.mach]))
        = Result.ret KERN_OPERATION_TIMED_OUT w1 ∧
      kernel_waits w1.trace = 2 ∧ w1.kernel = []) ∧
    (∃ w1, dispatch_semaphore_wait sem_backend.posix 100
        (_dispatch_semaphore_init sem_backend.posix 0
          (World.boot [{ code := 0, err := 0 }, timed_out_answer sem_backend.posix]))
        = Result.ret (-1) w1 ∧
      kernel_waits w1.trace = 1 ∧ w1.kernel = [timed_out_answer sem_backend.posix] ∧
      w1.errno = ETIMEDOUT) ∧
    (∃ w1, semaphore_wait_switch sem_backend.mach 100
        ((_dispatch_semaphore_init sem_backend.mach 0
          (World.boot [{ code := KERN_SUCCESS, err := 0 }])).set_value (-1))
        = Result.ret none w1 ∧ w1.dsema.dsema_value = -1) ∧
    (∃ w1, semaphore_wait_switch sem_backend.posix 100
        ((_dispatch_semaphore_init sem_backend.posix 0
          (World.boot [{ code := 0, err := 0 }])).set_value (-1))
        = Result.ret (some (-1)) w1 ∧ w1.dsema.dsema_value = 0) := by
  refine ⟨⟨_, rfl, ?_, ?_⟩, ⟨_, rfl, ?_, ?_, ?_⟩, ⟨_, rfl, ?_⟩, ⟨_, rfl, ?_⟩⟩ <;> decide

/-! ## `dispatch_once_f`: the invariant of the interleavings -/

theorem once_run_append (a b : List Nat) (s : once_state) :
    once_run (a ++ b) s = once_run b (once_run a s) := by
  induction a generalizing s with
  | nil => rfl
  | cons i a ih => exact ih _

theorem dispatch_once_f_fresh (i : Nat) (s : once_state) (hpc : (s.frames i).pc = .line65)
    (hv : s.val = 0) :
    (dispatch_once_f i s).val = DISPATCH_ONCE_DONE ∧
    (dispatch_once_f i s).callouts = s.callouts ++ [(i, (s.frames i).ctxt, (s.frames i).func)] ∧
    ((dispatch_once_f i s).frames i).pc = .returned ∧
    (∀ j, j ≠ i → (dispatch_once_f i s).frames j = s.frames j) := by
  simp [dispatch_once_f, List.replicate, once_run, dispatch_once_f_step, once_state.set_frame,
    hpc, hv]
  intro j hj
  simp [hj]

theorem dispatch_once_f_done (i : Nat) (s : once_state) (hpc : (s.frames i).pc = .line65)
    (hv : s.val = DISPATCH_ONCE_DONE) :
    (dispatch_once_f i s).val = DISPATCH_ONCE_DONE ∧
    (dispatch_once_f i s).callouts = s.callouts ∧
    ((dispatch_once_f i s).frames i).pc = .returned ∧
    (∀ j, j ≠ i → (dispatch_once_f i s).frames j = s.frames j) := by
  have hdz : DISPATCH_ONCE_DONE ≠ 0 := by decide
  simp [dispatch_once_f, List.replicate, once_run, dispatch_once_f_step, once_state.set_frame,
    hpc, hv, hdz]
  intro j hj
  simp [hj]

theorem once_sequence_done (calls : List Nat) :
    ∀ (s : once_state), calls.Nodup → s.val = DISPATCH_ONCE_DONE →
      (∀ j ∈ calls, (s.frames j).pc = .line65) →
      (once_sequence calls s).val = DISPATCH_ONCE_DONE ∧
      (once_sequence calls s).callouts = s.callouts ∧
      (∀ j ∈ calls, ((once_sequence calls s).frames j).pc = .returned) ∧
      (∀ j, j ∉ calls → (once_sequence calls s).frames j = s.frames j) := by
  induction calls with
  | nil =>
    intro s _ hv _
    exact ⟨hv, rfl, fun j hj => absurd hj (List.not_mem_nil j), fun _ _ => rfl⟩
  | cons i calls ih =>
    intro s hn hv hpc
    obtain ⟨d1, d2, d3, d4⟩ := dispatch_once_f_done i s (hpc i (List.mem_cons_self i calls)) hv
    have hn2 := List.nodup_cons.mp hn
    have hpc2 : ∀ j ∈ calls, ((dispatch_once_f i s).frames j).pc = .line65 := by
      intro j hj
      rw [d4 j (fun h => hn2.1 (h ▸ hj))]
      exact hpc j (List.mem_cons_of_mem i hj)
    obtain ⟨e1, e2, e3, e4⟩ := ih (dispatch_once_f i s) hn2.2 d1 hpc2
    refine ⟨e1, e2.trans d2, ?_, ?_⟩
    · intro j hj
      rcases List.mem_cons.mp hj with h | h
      · subst h
        show ((once_sequence calls (dispatch_once_f j s)).frames j).pc = .returned
        rw [e4 j hn2.1]
        exact d3
      · exact e3 j h
    · intro j hj
      have hji : j ≠ i := fun h => hj (h ▸ List.mem_cons_self i calls)
      have hjc : j ∉ calls := fun h => hj (List.mem_cons_of_mem i h)
      show (once_sequence calls (dispatch_once_f i s)).frames j = s.frames j
      rw [e4 j hjc, d4 j hji]

/-! ## C12 -/

/-- C12: a call of `dispatch_once_f` that runs with no other call in progress:
on a site word that is `NULL` it makes exactly one callout, `func(ctxt)` of its
own arguments, leaves the site word equal to `DISPATCH_ONCE_DONE` (`~0l`) and
returns; on a site word that is `DISPATCH_ONCE_DONE` it makes no callout, leaves
the site word as it is and returns.  Hence calls made one after the other on a
`NULL` site word, however many, make one callout in all (the first call's), all
return, and the site word is `DISPATCH_ONCE_DONE` after each of them. -/
theorem dispatch_once_f_sequential (i : Nat) (s : once_state)
    (hpc : (s.frames i).pc = once_pc.line65) :
    (s.val = 0 →
      (dispatch_once_f i s).val = DISPATCH_ONCE_DONE ∧
      (dispatch_once_f i s).callouts
        = s.callouts ++ [(i, (s.frames i).ctxt, (s.frames i).func)] ∧
      ((dispatch_once_f i s).frames i).pc = once_pc.returned) ∧
    (s.val = DISPATCH_ONCE_DONE →
      (dispatch_once_f i s).val = DISPATCH_ONCE_DONE ∧
      (dispatch_once_f i s).callouts = s.callouts ∧
      ((dispatch_once_f i s).frames i).pc = once_pc.returned) ∧
    (∀ calls : List Nat, (i :: calls).Nodup →
      (∀ j ∈ calls, (s.frames j).pc = once_pc.line65) → s.val = 0 →
      (once_sequence (i :: calls) s).val = DISPATCH_ONCE_DONE ∧
      (once_sequence (i :: calls) s).callouts
        = s.callouts ++ [(i, (s.frames i).ctxt, (s.frames i).func)] ∧
      ∀ j ∈ i :: calls, ((once_sequence (i :: calls) s).frames j).pc = once_pc.returned) := by
  refine ⟨fun hv => ?_, fun hv => ?_, fun calls hn hc hv => ?_⟩
  · obtain ⟨d1, d2, d3, _⟩ := dispatch_once_f_fresh i s hpc hv
    exact ⟨d1, d2, d3⟩
  · obtain ⟨d1, d2, d3, _⟩ := dispatch_once_f_done i s hpc hv
    exact ⟨d1, d2, d3⟩
  · obtain ⟨d1, d2, d3, d4⟩ := dispatch_once_f_fresh i s hpc hv
    have hn2 := List.nodup_cons.mp hn
    have hpc2 : ∀ j ∈ calls, ((dispatch_once_f i s).frames j).pc = .line65 := by
      intro j hj
      rw [d4 j (fun h => hn2.1 (h ▸ hj))]
      exact hc j hj
    obtain ⟨e1, e2, e3, e4⟩ := once_sequence_done calls (dispatch_once_f i s) hn2.2 d1 hpc2
    refine ⟨e1, e2.trans d2, ?_⟩
    intro j hj
    rcases List.mem_cons.mp hj with h | h
    · subst h
      show ((once_sequence calls (dispatch_once_f j s)).frames j).pc = .returned
      rw [e4 j hn2.1]
      exact d3
    · exact e3 j h

/-- C12 at a concrete input: three calls, one after the other, on a `NULL` site
word; the one callout is the first call's. -/
theorem dispatch_once_f_sequential_witness :
    (once_sequence [0, 1, 2] (once_boot (fun k => (k + 5, 11)))).val = DISPATCH_ONCE_DONE ∧
    (once_sequence [0, 1, 2] (once_boot (fun k => (k + 5, 11)))).callouts = [(0, 5, 11)] ∧
    ∀ j ∈ [0, 1, 2],
      ((once_sequence [0, 1, 2] (once_boot (fun k => (k + 5, 11)))).frames j).pc
        = once_pc.returned :=
  (dispatch_once_f_sequential 0 (once_boot (fun k => (k + 5, 11))) rfl).2.2 [1, 2]
    (by decide) (fun _ _ => rfl) rfl

/-! ## C13 -/

theorem kernel_wait_retry_prefix (b : sem_backend) (again : kernel_answer → Bool)
    (a : kernel_answer) (rest : List kernel_answer) (ha : again a = false) :
    ∀ (pre : List kernel_answer) (e : Int), (∀ x ∈ pre, again x = true) →
      ∃ e1, kernel_wait_retry b again (pre ++ a :: rest) e
        = (some a, rest, pre.length + 1, errno_after b a e1) := by
  intro pre
  induction pre with
  | nil =>
    intro e _
    exact ⟨e, by simp [kernel_wait_retry, ha]⟩
  | cons x pre ih =>
    intro e hx
    obtain ⟨e1, h1⟩ := ih (errno_after b x e) (fun y hy => hx y (List.mem_cons_of_mem x hy))
    refine ⟨e1, ?_⟩
    simp [kernel_wait_retry, hx x (List.mem_cons_self x pre), h1]

theorem kernel_wait_prefix (b : sem_backend) (again : kernel_answer → Bool) (c : kernel_call)
    (w : World) (pre : List kernel_answer) (a : kernel_answer) (rest : List kernel_answer)
    (hk : w.kernel = pre ++ a :: rest) (ha : again a = false)
    (hp : ∀ x ∈ pre, again x = true) :
    ∃ e1, kernel_wait b again c w
      = (some a, { w with kernel := rest, trace := w.trace ++ List.replicate (pre.length + 1) c,
                          errno := errno_after b a e1 }) := by
  obtain ⟨e1, h1⟩ := kernel_wait_retry_prefix b again a rest ha pre w.errno hp
  exact ⟨e1, by simp [kernel_wait, hk, h1]⟩

theorem kernel_waits_replicate_timedwait (t : List kernel_call) (n port timeout : Nat) :
    kernel_waits (t ++ List.replicate n (kernel_call.timedwait port timeout))
      = kernel_waits t + n := by
  rw [kernel_waits_append]
  congr 1
  induction n with
  | zero => rfl
  | succ n ih => simp [List.replicate_succ, kernel_waits, ih]

theorem group_waiters_undo (g : Int) (hg : is_long g) (hg1 : g ≠ -1) :
    dispatch_atomic_inc g ≠ 0 ∧ wrap_long (dispatch_atomic_inc g - 1) = g := by
  unfold is_long LONG_MIN LONG_MAX at hg
  unfold dispatch_atomic_inc wrap_long
  constructor <;> omega

theorem group_wait_switch_timed_out (b : sem_backend) (timeout : Nat) (w : World)
    (pre : List kernel_answer) (a : kernel_answer) (rest : List kernel_answer)
    (ht1 : timeout ≠ DISPATCH_TIME_NOW) (ht2 : timeout ≠ DISPATCH_TIME_FOREVER)
    (hk : w.kernel = pre ++ a :: rest) (hp : ∀ x ∈ pre, is_interrupted b x)
    (ha : is_timed_out b a) (hg : w.dsema.dsema_group_waiters ≠ 0) :
    ∃ w1, group_wait_switch b timeout w = Result.ret (some (timed_out_code b)) w1 ∧
      w1.dsema = { w.dsema with
        dsema_group_waiters := wrap_long (w.dsema.dsema_group_waiters - 1) } ∧
      w1.heap = w.heap ∧ w1.async = w.async ∧ w1.kernel = rest ∧
      w1.trace = w.trace
        ++ List.replicate (pre.length + 1) (kernel_call.timedwait w.dsema.dsema_port timeout) := by
  cases b
  · have hc : a.code = KERN_OPERATION_TIMED_OUT := ha
    have ha1 : (fun x : kernel_answer => decide (x.code = KERN_ABORTED)) a = false := by
      simp [hc, KERN_OPERATION_TIMED_OUT, KERN_ABORTED]
    have hp1 : ∀ x ∈ pre, (fun x : kernel_answer => decide (x.code = KERN_ABORTED)) x = true := by
      intro x hx
      have : x.code = KERN_ABORTED := hp x hx
      simp [this]
    obtain ⟨e1, hkw⟩ := kernel_wait_prefix sem_backend.mach _
      (kernel_call.timedwait w.dsema.dsema_port timeout) w pre a rest hk ha1 hp1
    simp only [group_wait_switch, ht1, ht2, if_false, hkw, hc, ne_eq, not_true_eq_false,
      group_wait_undo, hg, not_false_eq_true, if_true, World.set_group_waiters, timed_out_code]
    exact ⟨_, rfl, rfl, rfl, rfl, rfl, rfl⟩
  · have hc : a.code = -1 ∧ a.err = ETIMEDOUT := ha
    have ha1 : (fun x : kernel_answer => decide (x.code = -1 ∧ x.err = EINTR)) a = false := by
      simp [hc, ETIMEDOUT, EINTR]
    have hp1 : ∀ x ∈ pre,
        (fun x : kernel_answer => decide (x.code = -1 ∧ x.err = EINTR)) x = true := by
      intro x hx
      have : x.code = -1 ∧ x.err = EINTR := hp x hx
      simp [this]
    obtain ⟨e1, hkw⟩ := kernel_wait_prefix sem_backend.posix _
      (kernel_call.timedwait w.dsema.dsema_port timeout) w pre a rest hk ha1 hp1
    simp only [group_wait_switch, ht1, ht2, if_false, hkw, hc, errno_after, ne_eq,
      not_true_eq_false, and_self, not_true,
      group_wait_undo, hg, not_false_eq_true, if_true, World.set_group_waiters, timed_out_code]
    exact ⟨_, rfl, rfl, rfl, rfl, rfl, rfl⟩

/-- C21: on a non-quiescent group, a `dispatch_group_wait` with a deadline
whose kernel timed wait (after any number of interrupted attempts) answers that
the deadline passed returns the time-out code, after exactly those kernel
waits; `dsema_group_waiters` is what it was before the call (the increment made
on entry is undone by one decrement), and `dsema_value`, the notification list,
the other counters, the continuations and the enqueued work are unchanged; no
kernel signal is issued. -/
theorem dispatch_group_wait_deadline_undone (b : sem_backend) (timeout : Nat) (w : World)
    (pre : List kernel_answer) (a : kernel_answer) (rest : List kernel_answer)
    (hq : w.dsema.dsema_value ≠ LONG_MAX)
    (ht1 : timeout ≠ DISPATCH_TIME_NOW) (ht2 : timeout ≠ DISPATCH_TIME_FOREVER)
    (hk : w.kernel = pre ++ a :: rest) (hp : ∀ x ∈ pre, is_interrupted b x)
    (ha : is_timed_out b a)
    (hg : is_long w.dsema.dsema_group_waiters) (hg1 : w.dsema.dsema_group_waiters ≠ -1) :
    ∃ w1, dispatch_group_wait b timeout w = Result.ret (timed_out_code b) w1 ∧
      w1.dsema.dsema_group_waiters = w.dsema.dsema_group_waiters ∧
      w1.dsema.dsema_value = w.dsema.dsema_value ∧
      w1.dsema.dsema_orig = w.dsema.dsema_orig ∧
      w1.dsema.dsema_sent_ksignals = w.dsema.dsema_sent_ksignals ∧
      w1.dsema.dsema_notify_head = w.dsema.dsema_notify_head ∧
      w1.dsema.dsema_notify_tail = w.dsema.dsema_notify_tail ∧
      w1.heap = w.heap ∧ w1.async = w.async ∧ w1.kernel = rest ∧
      kernel_waits w1.trace = kernel_waits w.trace + pre.length + 1 ∧
      kernel_signals w1.trace = kernel_signals w.trace := by
  obtain ⟨g1, g2⟩ := group_waiters_undo _ hg hg1
  have ht0 : ¬ timeout = 0 := ht1
  have key : ∀ w2 : World, w2.kernel = w.kernel →
      w2.dsema = { w.dsema with
        dsema_group_waiters := dispatch_atomic_inc w.dsema.dsema_group_waiters,
        dsema_port := w2.dsema.dsema_port } →
      w2.heap = w.heap → w2.async = w.async →
      kernel_waits w2.trace = kernel_waits w.trace →
      kernel_signals w2.trace = kernel_signals w.trace →
      ∃ w1, group_wait_switch b timeout w2 = Result.ret (some (timed_out_code b)) w1 ∧
        w1.dsema.dsema_group_waiters = w.dsema.dsema_group_waiters ∧
        w1.dsema.dsema_value = w.dsema.dsema_value ∧
        w1.dsema.dsema_orig = w.dsema.dsema_orig ∧
        w1.dsema.dsema_sent_ksignals = w.dsema.dsema_sent_ksignals ∧
        w1.dsema.dsema_notify_head = w.dsema.dsema_notify_head ∧
        w1.dsema.dsema_notify_tail = w.dsema.dsema_notify_tail ∧
        w1.heap = w.heap ∧ w1.async = w.async ∧ w1.kernel = rest ∧
        kernel_waits w1.trace = kernel_waits w.trace + pre.length + 1 ∧
        kernel_signals w1.trace = kernel_signals w.trace := by
    intro w2 k1 k2 k3 k4 k5 k6
    have hg2 : w2.dsema.dsema_group_waiters ≠ 0 := by rw [k2]; exact g1
    obtain ⟨w1, s1, s2, s3, s4, s5, s6⟩ :=
      group_wait_switch_timed_out b timeout w2 pre a rest ht1 ht2 (k1.trans hk) hp ha hg2
    have hgw : w2.dsema.dsema_group_waiters
        = dispatch_atomic_inc w.dsema.dsema_group_waiters := by rw [k2]
    refine ⟨w1, s1, ?_, ?_, ?_, ?_, ?_, ?_, s3.trans k3, s4.trans k4, s5, ?_, ?_⟩
    · rw [s2]
      show wrap_long (w2.dsema.dsema_group_waiters - 1) = _
      rw [hgw, g2]
    · rw [s2, k2]
    · rw [s2, k2]
    · rw [s2, k2]
    · rw [s2, k2]
    · rw [s2, k2]
    · rw [s6, kernel_waits_replicate_timedwait, k5, Nat.add_assoc]
    · rw [s6, kernel_signals_append, k6]
      have : ∀ n : Nat, kernel_signals
          (List.replicate n (kernel_call.timedwait w2.dsema.dsema_port timeout)) = 0 := by
        intro n
        induction n with
        | zero => rfl
        | succ n ih => simp [List.replicate_succ, kernel_signals, ih]
      rw [this]
      rfl
  cases b
  · obtain ⟨w1, s1, s2⟩ := key
      (_dispatch_semaphore_create_port
        (w.set_group_waiters (dispatch_atomic_inc w.dsema.dsema_group_waiters)))
      (by rw [_dispatch_semaphore_create_port_kernel]; rfl)
      (by unfold _dispatch_semaphore_create_port; split <;> simp [World.set_group_waiters, kernel_create])
      (by unfold _dispatch_semaphore_create_port; split <;> simp [World.set_group_waiters, kernel_create])
      (by unfold _dispatch_semaphore_create_port; split <;> simp [World.set_group_waiters, kernel_create])
      (by
        unfold _dispatch_semaphore_create_port
        split <;> simp [World.set_group_waiters, kernel_create, kernel_waits_append, kernel_waits])
      (by
        unfold _dispatch_semaphore_create_port
        split <;>
          simp [World.set_group_waiters, kernel_create, kernel_signals_append, kernel_signals])
    refine ⟨w1, ?_, s2⟩
    simp only [dispatch_group_wait, hq, ht0, if_false, _dispatch_group_wait_slow,
      group_wait_slow_loop, World.set_group_waiters] at s1 ⊢
    rw [s1]
  · obtain ⟨w1, s1, s2⟩ := key
      (w.set_group_waiters (dispatch_atomic_inc w.dsema.dsema_group_waiters))
      rfl rfl rfl rfl rfl rfl
    refine ⟨w1, ?_, s2⟩
    simp only [dispatch_group_wait, hq, ht0, if_false, _dispatch_group_wait_slow,
      group_wait_slow_loop, World.set_group_waiters] at s1 ⊢
    rw [s1]

/-- C21 at a concrete input: under `USE_MACH_SEM`, a group with one `enter`
outstanding; the timed wait is interrupted once and then answers that the
deadline passed. -/
theorem dispatch_group_wait_deadline_undone_witness :
    ∃ w1, dispatch_group_wait sem_backend.mach 100
        ((dispatch_group_create sem_backend.mach
          (World.boot [{ code := KERN_ABORTED, err := 0 },
            timed_out_answer sem_backend.mach])).set_value (LONG_MAX - 1))
        = Result.ret (timed_out_code sem_backend.mach) w1 ∧
      w1.dsema.dsema_group_waiters = 0 ∧ w1.dsema.dsema_value = LONG_MAX - 1 :=
  (dispatch_group_wait_deadline_undone sem_backend.mach 100
    ((dispatch_group_create sem_backend.mach
      (World.boot [{ code := KERN_ABORTED, err := 0 },
        timed_out_answer sem_backend.mach])).set_value (LONG_MAX - 1))
    [{ code := KERN_ABORTED, err := 0 }] (timed_out_answer sem_backend.mach) []
    (by decide) (by decide) (by decide) rfl
    (fun x hx => by rw [List.mem_singleton.mp hx]; rfl) rfl
    ⟨by decide, by decide⟩ (by decide)).elim
    fun w1 h => ⟨w1, h.1, h.2.1, h.2.2.1⟩

/-! ## C22 -/

theorem once_stack_congr (s t : once_state) (l : Nat)
    (h : ∀ j, j ≠ l → t.frames j = s.frames j) :
    ∀ (ws : List Nat) (a : Nat), once_stack s l a ws → once_stack t l a ws := by
  intro ws
  induction ws with
  | nil => exact fun a ha => ha
  | cons j ws ih =>
    intro a ha
    obtain ⟨h1, h2, h3, h4, h5⟩ := ha
    refine ⟨h1, h2, h3, ?_, ?_⟩
    · rw [h j h2]
      exact h4
    · rw [h j h2]
      exact ih _ h5

theorem once_walk_one (l j : Nat) (s : once_state) (hpc : (s.frames l).pc = .line122)
    (ht : (s.frames l).tmp = j + 1) (hj : j ≠ l) (hd : j + 1 ≠ DISPATCH_ONCE_DONE)
    (hn : (s.frames j).dow_next ≠ 0) :
    ((once_run (List.replicate 5 l) s).frames l).pc = .line122 ∧
    ((once_run (List.replicate 5 l) s).frames l).tmp = (s.frames j).dow_next ∧
    (∀ k, k ≠ l → (once_run (List.replicate 5 l) s).frames k = s.frames k) ∧
    (once_run (List.replicate 5 l) s).val = s.val ∧
    (once_run (List.replicate 5 l) s).callouts = s.callouts ∧
    (once_run (List.replicate 5 l) s).winners = s.winners ∧
    (once_run (List.replicate 5 l) s).signals = s.signals ++ [(s.frames j).dow_sema] ∧
    (once_run (List.replicate 5 l) s).sems
      = _dispatch_thread_semaphore_signal (s.frames j).dow_sema s.sems := by
  have hjl : j + 1 ≠ l + 1 := fun h => hj (Nat.succ_injective h)
  simp [List.replicate, once_run, dispatch_once_f_step, once_state.set_frame, hpc, ht, hjl, hd,
    hj, hn]
  intro k hk
  simp [hk]

theorem once_run_replicate_add (m n l : Nat) (s : once_state) :
    once_run (List.replicate (m + n) l) s
      = once_run (List.replicate n l) (once_run (List.replicate m l) s) := by
  rw [List.replicate_add, once_run_append]

theorem once_stack_ne (s : once_state) (l : Nat) :
    ∀ (ws : List Nat) (a : Nat), once_stack s l a ws → ∀ i ∈ ws, i ≠ l := by
  intro ws
  induction ws with
  | nil => exact fun _ _ i hi => absurd hi (List.not_mem_nil i)
  | cons j ws ih =>
    intro a ha i hi
    rcases List.mem_cons.mp hi with h | h
    · rw [h]
      exact ha.2.1
    · exact ih _ ha.2.2.2.2 i h

theorem once_walk (l : Nat) (ws : List Nat) :
    ∀ (s : once_state), (s.frames l).pc = .line122 →
      once_stack s l (s.frames l).tmp ws →
      ((once_run (List.replicate (5 * ws.length + 1) l) s).frames l).pc = .returned ∧
      (∀ k, k ≠ l →
        (once_run (List.replicate (5 * ws.length + 1) l) s).frames k = s.frames k) ∧
      (once_run (List.replicate (5 * ws.length + 1) l) s).val = s.val ∧
      (once_run (List.replicate (5 * ws.length + 1) l) s).callouts = s.callouts ∧
      (once_run (List.replicate (5 * ws.length + 1) l) s).winners = s.winners ∧
      (once_run (List.replicate (5 * ws.length + 1) l) s).signals
        = s.signals ++ ws.map (fun j => (s.frames j).dow_sema) ∧
      (∀ k, (once_run (List.replicate (5 * ws.length + 1) l) s).sems k
        = s.sems k + (ws.map (fun j => (s.frames j).dow_sema)).count k) := by
  induction ws with
  | nil =>
    intro s hpc hst
    have ht : (s.frames l).tmp = l + 1 := hst
    simp [List.replicate, once_run, dispatch_once_f_step, once_state.set_frame, hpc, ht]
    intro k hk
    simp [hk]
  | cons j ws ih =>
    intro s hpc hst
    obtain ⟨h1, h2, h3, h4, h5⟩ := hst
    obtain ⟨a1, a2, a3, a4, a5, a6, a7, a8⟩ := once_walk_one l j s hpc h1 h2 (h1 ▸ h3) h4
    have hst2 : once_stack (once_run (List.replicate 5 l) s) l
        ((once_run (List.replicate 5 l) s).frames l).tmp ws := by
      rw [a2]
      exact once_stack_congr s _ l a3 ws _ h5
    obtain ⟨b1, b2, b3, b4, b5, b6, b7⟩ := ih (once_run (List.replicate 5 l) s) a1 hst2
    have hlen : 5 * (j :: ws).length + 1 = 5 + (5 * ws.length + 1) := by
      simp only [List.length_cons]
      omega
    rw [hlen, once_run_replicate_add]
    have hmap : ws.map (fun i => ((once_run (List.replicate 5 l) s).frames i).dow_sema)
        = ws.map (fun i => (s.frames i).dow_sema) := by
      apply List.map_congr_left
      intro i hi
      rw [a3 i (once_stack_ne s l ws _ h5 i hi)]
    refine ⟨b1, fun k hk => (b2 k hk).trans (a3 k hk), b3.trans a4, b4.trans a5, b5.trans a6,
      ?_, ?_⟩
    · rw [b6, a7, hmap]
      simp
    · intro k
      rw [b7 k, a8, hmap]
      simp only [_dispatch_thread_semaphore_signal, List.map_cons, List.count_cons]
      split <;> rename_i hk
      · subst hk
        simp
        omega
      · have : ¬ ((s.frames j).dow_sema = k) := fun h => hk h.symm
        simp [this]

/-- C22: the leader of `dispatch_once_f`, standing at line 120 after its
callout with `k >= 0` waiter nodes linked on the site word (a stack whose
bottom is its own node, each waiter's `dow_next` published), stores
`DISPATCH_ONCE_DONE` in the site word and returns after issuing exactly `k`
`_dispatch_thread_semaphore_signal` calls: one on the `dow_sema` of each
waiter, in stack order from the most recently linked waiter down, and none for
its own node.  Nothing else changes: no callout is made and the waiters' frames
are as they were. -/
theorem dispatch_once_f_leader_signals (l : Nat) (s : once_state) (ws : List Nat)
    (hpc : (s.frames l).pc = once_pc.line120) (hst : once_stack s l s.val ws) :
    (once_run (List.replicate (5 * ws.length + 2) l) s).val = DISPATCH_ONCE_DONE ∧
    ((once_run (List.replicate (5 * ws.length + 2) l) s).frames l).pc = once_pc.returned ∧
    (once_run (List.replicate (5 * ws.length + 2) l) s).signals
      = s.signals ++ ws.map (fun j => (s.frames j).dow_sema) ∧
    (∀ k, (once_run (List.replicate (5 * ws.length + 2) l) s).sems k
      = s.sems k + (ws.map (fun j => (s.frames j).dow_sema)).count k) ∧
    (once_run (List.replicate (5 * ws.length + 2) l) s).callouts = s.callouts ∧
    (∀ j, j ≠ l →
      (once_run (List.replicate (5 * ws.length + 2) l) s).frames j = s.frames j) := by
  have hlen : 5 * ws.length + 2 = 1 + (5 * ws.length + 1) := by omega
  rw [hlen, once_run_replicate_add]
  have e1 : once_run (List.replicate 1 l) s
      = { s.set_frame l { s.frames l with pc := .line122, tmp := s.val } with
          val := DISPATCH_ONCE_DONE } := by
    simp [List.replicate, once_run, dispatch_once_f_step, hpc]
  have hf : ∀ j, j ≠ l → (once_run (List.replicate 1 l) s).frames j = s.frames j := by
    intro j hj
    rw [e1]
    simp [once_state.set_frame, hj]
  have hpc1 : ((once_run (List.replicate 1 l) s).frames l).pc = .line122 := by
    rw [e1]
    simp [once_state.set_frame]
  have htmp : ((once_run (List.replicate 1 l) s).frames l).tmp = s.val := by
    rw [e1]
    simp [once_state.set_frame]
  have hst1 : once_stack (once_run (List.replicate 1 l) s) l
      ((once_run (List.replicate 1 l) s).frames l).tmp ws := by
    rw [htmp]
    exact once_stack_congr s _ l hf ws _ hst
  obtain ⟨b1, b2, b3, b4, _, b6, b7⟩ := once_walk l ws _ hpc1 hst1
  have hmap : ws.map (fun i => ((once_run (List.replicate 1 l) s).frames i).dow_sema)
      = ws.map (fun i => (s.frames i).dow_sema) := by
    apply List.map_congr_left
    intro i hi
    rw [hf i (once_stack_ne s l ws _ hst i hi)]
  rw [hmap] at b6 b7
  refine ⟨?_, b1, ?_, ?_, ?_, fun j hj => (b2 j hj).trans (hf j hj)⟩
  · rw [b3, e1]
  · rw [b6, e1]
    rfl
  · intro k
    rw [b7 k, e1]
    rfl
  · rw [b4, e1]
    rfl

/-- C22 at a concrete input: call `0` is the leader, calls `1` and then `2`
have linked themselves as waiters (call `2` last); the leader signals the
semaphore of call `2`, then that of call `1`. -/
theorem dispatch_once_f_leader_signals_witness :
    (once_run (List.replicate (5 * [2, 1].length + 2) 0)
      (once_run [0, 0, 1, 1, 1, 1, 1, 1, 2, 2, 2, 2, 2, 2]
        (once_boot (fun k => (k + 5, 11))))).signals = [3, 2] :=
  (dispatch_once_f_leader_signals 0
    (once_run [0, 0, 1, 1, 1, 1, 1, 1, 2, 2, 2, 2, 2, 2] (once_boot (fun k => (k + 5, 11))))
    [2, 1] (by decide) (by decide)).2.2.1.trans (by decide)

/-! ## C24 -/

theorem sem_pc_drain_line309 (b : sem_backend) (orig : Int)
    (h : sem_pc.drain b orig = sem_pc.line309) : orig ≠ 0 := by
  unfold sem_pc.drain at h
  split at h
  · assumption
  · cases b <;> cases h

theorem sem_pc_undo_ne (orig : Int) : sem_pc.undo orig ≠ sem_pc.line309 := by
  unfold sem_pc.undo
  split <;> exact fun h => sem_pc.noConfusion h

theorem sem_step_inv (b : sem_backend) (i n : Nat) (s : sem_state)
    (hn : (n : Int) < LONG_MAX) (h : sem_inv n s) : sem_inv (n + 1) (sem_step b i s) := by
  obtain ⟨h0, h1, h2⟩ := h
  have hkeep : ∀ t : sem_state,
      t.world.dsema.dsema_sent_ksignals = s.world.dsema.dsema_sent_ksignals →
      (∀ j, j ≠ i → t.frames j = s.frames j) →
      ((t.frames i).pc = sem_pc.line309 → (t.frames i).orig ≠ 0) → sem_inv (n + 1) t := by
    intro t t1 t2 t3
    refine ⟨t1 ▸ h0, ?_, ?_⟩
    · rw [t1]
      push_cast
      omega
    · intro j hj
      by_cases hji : j = i
      · rw [hji] at hj ⊢
        exact t3 hj
      · rw [t2 j hji] at hj ⊢
        exact h2 j hj
  have hset : ∀ (t : sem_state) (v : Int), t.world.dsema.dsema_sent_ksignals = v →
      0 ≤ v → v ≤ (n : Int) + 1 →
      (∀ j, j ≠ i → t.frames j = s.frames j) →
      ((t.frames i).pc = sem_pc.line309 → (t.frames i).orig ≠ 0) → sem_inv (n + 1) t := by
    intro t v t0 t1 t1b t2 t3
    refine ⟨t0 ▸ t1, ?_, ?_⟩
    · rw [t0]
      push_cast
      exact t1b
    · intro j hj
      by_cases hji : j = i
      · rw [hji] at hj ⊢
        exact t3 hj
      · rw [t2 j hji] at hj ⊢
        exact h2 j hj
  have hinc : dispatch_atomic_inc s.world.dsema.dsema_sent_ksignals
      = s.world.dsema.dsema_sent_ksignals + 1 :=
    dispatch_atomic_inc_eq _ (by unfold LONG_MIN; omega) (by omega)
  unfold LONG_MAX at hn
  cases hpc : (s.frames i).pc
  all_goals unfold sem_step
  all_goals simp only [hpc]
  all_goals repeat' split
  all_goals first
    | exact hkeep s rfl (fun _ _ => rfl) (h2 i)
    | (refine hkeep _ ?_ ?_ ?_
       · first
         | rfl
         | exact _dispatch_semaphore_create_port_sent_ksignals _
         | (simp only [sem_post]; split <;> rfl)
       · intro j hj
         simp [sem_state.set_frame, hj]
       · first
         | (intro hx; simp [sem_state.set_frame] at hx; done)
         | (intro hx
            simp only [sem_state.set_frame, if_true] at hx ⊢
            first
              | exact sem_pc_drain_line309 b _ hx
              | exact absurd hx (sem_pc_undo_ne _)))
    | (refine hset _ _ hinc (by omega) (by omega) ?_ ?_
       · intro j hj
         simp [sem_state.set_frame, hj]
       · intro hx
         simp [sem_state.set_frame] at hx)
    | (rename_i hcas
       have ho : (s.frames i).orig ≠ 0 := h2 i hpc
       have hw : wrap_long ((s.frames i).orig - 1) = (s.frames i).orig - 1 := by
         unfold wrap_long
         omega
       refine hset _ _ hw (by omega) (by omega) ?_ ?_
       · intro j hj
         simp [sem_state.set_frame, hj]
       · intro hx
         simp [sem_state.set_frame] at hx)

theorem sem_step_sent (b : sem_backend) (i : Nat) (s : sem_state) :
    (sem_step b i s).world.dsema.dsema_sent_ksignals = s.world.dsema.dsema_sent_ksignals ∨
    ((s.frames i).pc = sem_pc.line247 ∧
      (sem_step b i s).world.dsema.dsema_sent_ksignals
        = dispatch_atomic_inc s.world.dsema.dsema_sent_ksignals) ∨
    ((s.frames i).pc = sem_pc.line309 ∧
      s.world.dsema.dsema_sent_ksignals = (s.frames i).orig ∧
      (sem_step b i s).world.dsema.dsema_sent_ksignals
        = wrap_long ((s.frames i).orig - 1)) := by
  unfold sem_step
  simp only
  split
  all_goals repeat' split
  all_goals first
    | exact Or.inl rfl
    | exact Or.inl (_dispatch_semaphore_create_port_sent_ksignals _)
    | (refine Or.inl ?_; simp only [sem_post]; split <;> rfl)
    | exact Or.inr (Or.inl ⟨by assumption, rfl⟩)
    | exact Or.inr (Or.inr ⟨by assumption, by assumption, rfl⟩)

theorem sem_run_inv (b : sem_backend) (sched : List Nat) :
    ∀ (n : Nat) (s : sem_state), ((n + sched.length : Nat) : Int) ≤ LONG_MAX → sem_inv n s →
      sem_inv (n + sched.length) (sem_run b sched s) := by
  induction sched with
  | nil => exact fun n s _ h => h
  | cons i sched ih =>
    intro n s hn h
    simp only [List.length_cons] at hn
    have h1 := sem_step_inv b i n s (by push_cast at hn; omega) h
    have h2 := ih (n + 1) (sem_step b i s) (by push_cast at hn ⊢; omega) h1
    have e : n + (i :: sched).length = n + 1 + sched.length := by
      simp only [List.length_cons]
      omega
    rw [e]
    exact h2

/-- C24: in every state that an interleaving of the steps of any signal and
wait calls (of fewer than `2^63` steps, so that the `long` counter cannot
wrap) reaches from a created semaphore, `dsema_sent_ksignals >= 0`: a step
leaves it alone, or is the increment of `_dispatch_semaphore_signal_slow`
(line 247), or is the compare-and-swap of line 309 from the observed `orig`,
which is non-zero, to `orig - 1`. -/
theorem dsema_sent_ksignals_nonneg (b : sem_backend) (value : Int) (w0 w : World)
    (ops : Nat → sem_op) (sched : List Nat)
    (hc : dispatch_semaphore_create b value w0 = some w)
    (hl : (sched.length : Int) ≤ LONG_MAX) :
    0 ≤ (sem_run b sched (sem_boot w ops)).world.dsema.dsema_sent_ksignals ∧
    (sem_run b sched (sem_boot w ops)).world.dsema.dsema_sent_ksignals ≤ sched.length ∧
    ∀ i,
      (sem_step b i (sem_run b sched (sem_boot w ops))).world.dsema.dsema_sent_ksignals
        = (sem_run b sched (sem_boot w ops)).world.dsema.dsema_sent_ksignals ∨
      (((sem_run b sched (sem_boot w ops)).frames i).pc = sem_pc.line247 ∧
        (sem_step b i (sem_run b sched (sem_boot w ops))).world.dsema.dsema_sent_ksignals
          = dispatch_atomic_inc
              (sem_run b sched (sem_boot w ops)).world.dsema.dsema_sent_ksignals) ∨
      (((sem_run b sched (sem_boot w ops)).frames i).pc = sem_pc.line309 ∧
        ((sem_run b sched (sem_boot w ops)).frames i).orig ≠ 0 ∧
        (sem_run b sched (sem_boot w ops)).world.dsema.dsema_sent_ksignals
          = ((sem_run b sched (sem_boot w ops)).frames i).orig ∧
        (sem_step b i (sem_run b sched (sem_boot w ops))).world.dsema.dsema_sent_ksignals
          = (sem_run b sched (sem_boot w ops)).world.dsema.dsema_sent_ksignals - 1) := by
  obtain ⟨_, _, _, hs, _⟩ := dispatch_semaphore_create_fresh b value w0 w hc
  have h0 : sem_inv 0 (sem_boot w ops) := by
    refine ⟨?_, ?_, ?_⟩
    · show 0 ≤ w.dsema.dsema_sent_ksignals
      rw [hs]
    · show w.dsema.dsema_sent_ksignals ≤ ((0 : Nat) : Int)
      rw [hs]
      rfl
    · intro i hi
      cases hi
  have h1 := sem_run_inv b sched 0 (sem_boot w ops) (by simpa using hl) h0
  rw [Nat.zero_add] at h1
  obtain ⟨i1, i2, i3⟩ := h1
  refine ⟨i1, i2, fun i => ?_⟩
  rcases sem_step_sent b i (sem_run b sched (sem_boot w ops)) with h | h | h
  · exact Or.inl h
  · exact Or.inr (Or.inl h)
  · obtain ⟨p1, p2, p3⟩ := h
    have ho := i3 i p1
    refine Or.inr (Or.inr ⟨p1, ho, p2, ?_⟩)
    rw [p3, p2]
    have hb : ((sched.length : Nat) : Int) ≤ LONG_MAX := hl
    unfold LONG_MAX at hb
    rw [p2] at i1 i2
    unfold wrap_long
    omega

/-- C24 at a concrete input: under `USE_MACH_SEM`, a semaphore created with
`0`, call `0` a wait with a deadline and call `1` a signal, interleaved: the
wait decrements, the signal takes its slow path, the wait consumes the
`dsema_sent_ksignals` it finds. -/
theorem dsema_sent_ksignals_nonneg_witness :
    0 ≤ (sem_run sem_backend.mach [0, 1, 1, 1, 1, 0, 0]
      (sem_boot
        (_dispatch_semaphore_init sem_backend.mach 0
          { World.boot [] with dsema := _dispatch_alloc })
        (fun i => if i = 0 then sem_op.wait 7 else sem_op.signal))).world.dsema.dsema_sent_ksignals :=
  (dsema_sent_ksignals_nonneg sem_backend.mach 0 (World.boot [])
    (_dispatch_semaphore_init sem_backend.mach 0 { World.boot [] with dsema := _dispatch_alloc })
    (fun i => if i = 0 then sem_op.wait 7 else sem_op.signal) [0, 1, 1, 1, 1, 0, 0]
    rfl (by decide)).1

end Dispatch

namespace Fishhook

/-! ## C23 -/

theorem match_in_entry_from (symbol_name : List Nat) (cur : List rebinding)
    (hb : cur.length < 4294967296) :
    ∀ (k j fuel : Nat), j + k = cur.length → k ≤ fuel →
      match_in_entry symbol_name cur fuel j
        = some (if symbol_name_longer_than_1 symbol_name then
            (cur.drop j).find? (fun r => strcmp_zero (symbol_name.drop 1) r.name)
          else none) := by
  intro k
  induction k with
  | zero =>
    intro j fuel hj _
    have hn : ¬ j < cur.length := by omega
    have hd : cur.drop j = [] := List.drop_eq_nil_of_le (by omega)
    cases fuel <;> simp [match_in_entry, hn, hd]
  | succ k ih =>
    intro j fuel hj hf
    have hlt : j < cur.length := by omega
    obtain ⟨f, rfl⟩ : ∃ f, fuel = f + 1 := ⟨fuel - 1, by omega⟩
    have hmod : (j + 1) % 4294967296 = j + 1 := Nat.mod_eq_of_lt (by omega)
    have hd : cur.drop j = cur[j] :: cur.drop (j + 1) := List.drop_eq_getElem_cons hlt
    unfold match_in_entry
    simp only [hlt, dite_true, hmod]
    rw [ih (j + 1) f (by omega) (by omega), hd, List.find?_cons]
    cases h1 : symbol_name_longer_than_1 symbol_name
    · simp
    · cases h2 : strcmp_zero (symbol_name.drop 1) cur[j].name
      · simp
      · simp

theorem match_in_entry_eq (symbol_name : List Nat) (e : List rebinding)
    (hb : e.length < 4294967296) :
    match_in_entry symbol_name e e.length 0
      = some (if symbol_name_longer_than_1 symbol_name then
          e.find? (fun r => strcmp_zero (symbol_name.drop 1) r.name)
        else none) := by
  have := match_in_entry_from symbol_name e hb e.length 0 e.length (by omega) (le_refl _)
  rw [this, List.drop_zero]

theorem match_in_entry_wraps (symbol_name : List Nat) (cur : List rebinding)
    (hb : 4294967296 ≤ cur.length)
    (hno : ∀ (j : Nat) (h : j < cur.length), j < 4294967296 →
      (symbol_name_longer_than_1 symbol_name
        && strcmp_zero (symbol_name.drop 1) cur[j].name) = false) :
    ∀ (fuel j : Nat), j < 4294967296 → match_in_entry symbol_name cur fuel j = none := by
  intro fuel
  induction fuel with
  | zero =>
    intro j hj
    have hlt : j < cur.length := by omega
    simp [match_in_entry, hlt]
  | succ fuel ih =>
    intro j hj
    have hlt : j < cur.length := by omega
    unfold match_in_entry
    simp only [hlt, dite_true, hno j hlt hj, Bool.false_eq_true, if_false]
    exact ih _ (Nat.mod_lt _ (by decide))

theorem match_in_list_eq (symbol_name : List Nat) (es : List (List rebinding))
    (hb : ∀ e ∈ es, e.length < 4294967296) :
    match_in_list symbol_name es
      = some (if symbol_name_longer_than_1 symbol_name then
          es.flatten.find? (fun r => strcmp_zero (symbol_name.drop 1) r.name)
        else none) := by
  induction es with
  | nil => simp [match_in_list]
  | cons e es ih =>
    unfold match_in_list
    rw [ih (fun x hx => hb x (List.mem_cons_of_mem e hx)),
      match_in_entry_eq symbol_name e (hb e (List.mem_cons_self e es))]
    cases h1 : symbol_name_longer_than_1 symbol_name
    · simp
    · simp only [if_true, List.flatten_cons, List.find?_append]
      cases h2 : e.find? (fun r => strcmp_zero (symbol_name.drop 1) r.name) <;> simp

theorem symbol_name_longer_than_1_iff (symbol_name : List Nat) :
    symbol_name_longer_than_1 symbol_name = true ↔ 2 ≤ (c_string symbol_name).length := by
  unfold symbol_name_longer_than_1 c_string
  match symbol_name with
  | [] => simp
  | [a] =>
    by_cases ha : a = 0 <;> simp [List.takeWhile, ha]
  | a :: b :: rest =>
    by_cases ha : a = 0 <;> by_cases hb : b = 0 <;> simp [List.takeWhile, ha, hb]

theorem c_string_drop_one (symbol_name : List Nat)
    (h : symbol_name_longer_than_1 symbol_name = true) :
    c_string (symbol_name.drop 1) = (c_string symbol_name).drop 1 := by
  unfold symbol_name_longer_than_1 at h
  unfold c_string
  match symbol_name with
  | [] => simp
  | a :: rest =>
    have ha : a ≠ 0 := by
      intro h0
      simp [h0] at h
    simp [List.takeWhile, ha]

theorem match_in_list_most_recent (symbol_name : List Nat) (es : List (List rebinding))
    (hb : ∀ e ∈ es, e.length < 4294967296) :
    match_in_list symbol_name es
      = some (if 2 ≤ (c_string symbol_name).length then most_recent_rebinding es symbol_name
        else none) := by
  rw [match_in_list_eq symbol_name es hb]
  by_cases h : symbol_name_longer_than_1 symbol_name = true
  · have h2 := (symbol_name_longer_than_1_iff symbol_name).mp h
    simp only [h, h2, if_true, most_recent_rebinding]
    congr 2
    funext r
    simp only [strcmp_zero, c_string_drop_one symbol_name h]
    exact decide_eq_decide.mpr eq_comm
  · have h2 : ¬ 2 ≤ (c_string symbol_name).length :=
      fun h3 => h ((symbol_name_longer_than_1_iff symbol_name).mpr h3)
    simp [h, h2]

theorem match_in_list_mem (symbol_name : List Nat) (es : List (List rebinding)) (r : rebinding)
    (hb : ∀ e ∈ es, e.length < 4294967296)
    (h : match_in_list symbol_name es = some (some r)) : ∃ e ∈ es, r ∈ e := by
  rw [match_in_list_eq symbol_name es hb] at h
  simp only [Option.some.injEq] at h
  split at h
  · have := List.mem_of_find?_eq_some h
    obtain ⟨e, he, hr⟩ := List.mem_flatten.mp this
    exact ⟨e, he, hr⟩
  · cases h

theorem slot_address_eq (sect : section_t) (slide i : Nat) (hi : i < sect.size / 8)
    (hs : (slide + sect.addr) % 18446744073709551616 + 8 * (sect.size / 8)
      ≤ 18446744073709551616) :
    slot_address sect slide i = (slide + sect.addr) % 18446744073709551616 + 8 * i := by
  unfold slot_address
  omega

theorem slot_address_inj (sect : section_t) (slide i j : Nat) (hi : i < sect.size / 8)
    (hj : j < sect.size / 8)
    (hs : (slide + sect.addr) % 18446744073709551616 + 8 * (sect.size / 8)
      ≤ 18446744073709551616)
    (h : slot_address sect slide i = slot_address sect slide j) : i = j := by
  rw [slot_address_eq sect slide i hi hs, slot_address_eq sect slide j hj hs] at h
  omega

theorem rebind_slot_effect (rebindings : List (List rebinding)) (sect : section_t)
    (slide : Nat) (symtab strtab indirect_symtab : List Nat) (i : Nat) (m : Memory)
    (hi : i < sect.size / 8)
    (hs : (slide + sect.addr) % 18446744073709551616 + 8 * (sect.size / 8)
      ≤ 18446744073709551616)
    (ht : ∃ idx, indirect_symtab.get? (sect.reserved1 + i) = some idx ∧
      (¬ is_abs_or_local idx → ∃ off, symtab.get? idx = some off))
    (hb : ∀ e ∈ rebindings, e.length < 4294967296)
    (ha : ∀ e ∈ rebindings, ∀ r ∈ e, ∀ j, j < sect.size / 8 →
      r.replaced ≠ slot_address sect slide j) :
    ∃ m1, rebind_slot rebindings sect slide symtab strtab indirect_symtab i m = some m1 ∧
      m1.mem (slot_address sect slide i)
        = rebound rebindings sect symtab strtab indirect_symtab i
            (m.mem (slot_address sect slide i)) ∧
      (∀ j, j < sect.size / 8 → j ≠ i →
        m1.mem (slot_address sect slide j) = m.mem (slot_address sect slide j)) ∧
      m1.mprotect = m.mprotect := by
  obtain ⟨idx, h1, h2⟩ := ht
  unfold rebind_slot rebound
  simp only [h1]
  by_cases hsp : is_abs_or_local idx
  · have hsp2 : idx = INDIRECT_SYMBOL_ABS ∨ idx = INDIRECT_SYMBOL_LOCAL ∨
        idx = INDIRECT_SYMBOL_LOCAL ||| INDIRECT_SYMBOL_ABS := hsp
    simp only [hsp2, if_true]
    exact ⟨m, rfl, rfl, fun _ _ _ => rfl, rfl⟩
  · have hsp2 : ¬ (idx = INDIRECT_SYMBOL_ABS ∨ idx = INDIRECT_SYMBOL_LOCAL ∨
        idx = INDIRECT_SYMBOL_LOCAL ||| INDIRECT_SYMBOL_ABS) := hsp
    obtain ⟨off, h3⟩ := h2 hsp
    simp only [hsp2, if_false, h3]
    obtain ⟨x, hm⟩ : ∃ x, match_in_list (strtab.drop off) rebindings = some x :=
      ⟨_, match_in_list_eq _ _ hb⟩
    simp only [hm]
    cases x with
    | none => exact ⟨m, rfl, rfl, fun _ _ _ => rfl, rfl⟩
    | some r =>
      obtain ⟨e, he, hr⟩ := match_in_list_mem _ _ r hb hm
      have hal := ha e he r hr
      refine ⟨_, rfl, ?_, ?_, ?_⟩
      · simp [Memory.write]
      · intro j hj hji
        have hne : slot_address sect slide j ≠ slot_address sect slide i :=
          fun h => hji (slot_address_inj sect slide j i hj hi hs h)
        have hnr : slot_address sect slide j ≠ r.replaced := fun h => hal j hj h.symm
        simp only [Memory.write, hne, if_false]
        split
        · simp only [hnr, if_false]
        · rfl
      · simp only [Memory.write]
        split <;> rfl

theorem rebind_loop_effect (rebindings : List (List rebinding)) (sect : section_t)
    (slide : Nat) (symtab strtab indirect_symtab : List Nat)
    (hn : sect.size / 8 < 4294967296)
    (hs : (slide + sect.addr) % 18446744073709551616 + 8 * (sect.size / 8)
      ≤ 18446744073709551616)
    (ht : ∀ i, i < sect.size / 8 →
      ∃ idx, indirect_symtab.get? (sect.reserved1 + i) = some idx ∧
        (¬ is_abs_or_local idx → ∃ off, symtab.get? idx = some off))
    (hb : ∀ e ∈ rebindings, e.length < 4294967296)
    (ha : ∀ e ∈ rebindings, ∀ r ∈ e, ∀ j, j < sect.size / 8 →
      r.replaced ≠ slot_address sect slide j) :
    ∀ (k i : Nat) (m : Memory), i + k = sect.size / 8 → ∀ fuel, k ≤ fuel →
      ∃ m1, rebind_loop rebindings sect slide symtab strtab indirect_symtab fuel i m = some m1 ∧
        (∀ j, j < sect.size / 8 →
          (j < i → m1.mem (slot_address sect slide j) = m.mem (slot_address sect slide j)) ∧
          (i ≤ j → m1.mem (slot_address sect slide j)
            = rebound rebindings sect symtab strtab indirect_symtab j
                (m.mem (slot_address sect slide j)))) ∧
        m1.mprotect = m.mprotect := by
  intro k
  induction k with
  | zero =>
    intro i m hik fuel _
    have hi : ¬ i < sect.size / 8 := by omega
    refine ⟨m, ?_, fun j hj => ⟨fun _ => rfl, fun h => ?_⟩, rfl⟩
    · cases fuel <;> simp [rebind_loop, hi]
    · omega
  | succ k ih =>
    intro i m hik fuel hf
    have hi : i < sect.size / 8 := by omega
    obtain ⟨f, rfl⟩ : ∃ f, fuel = f + 1 := ⟨fuel - 1, by omega⟩
    obtain ⟨m2, s1, s2, s3, s4⟩ := rebind_slot_effect rebindings sect slide symtab strtab
      indirect_symtab i m hi hs (ht i hi) hb ha
    have hmod : (i + 1) % 4294967296 = i + 1 := Nat.mod_eq_of_lt (by omega)
    obtain ⟨m1, l1, l2, l3⟩ := ih (i + 1) m2 (by omega) f (by omega)
    refine ⟨m1, ?_, fun j hj => ⟨fun hji => ?_, fun hij => ?_⟩, l3.trans s4⟩
    · simp only [rebind_loop, hi, if_true, s1, hmod]
      exact l1
    · rw [(l2 j hj).1 (by omega), s3 j hj (by omega)]
    · by_cases hje : j = i
      · subst hje
        rw [(l2 j hj).1 (by omega), s2]
      · rw [(l2 j hj).2 (by omega), s3 j hj hje]

theorem rebound_cases (rebindings : List (List rebinding)) (sect : section_t)
    (symtab strtab indirect_symtab : List Nat) (i old idx : Nat)
    (hb : ∀ e ∈ rebindings, e.length < 4294967296)
    (h1 : indirect_symtab.get? (sect.reserved1 + i) = some idx) :
    (is_abs_or_local idx →
      rebound rebindings sect symtab strtab indirect_symtab i old = old) ∧
    (¬ is_abs_or_local idx → ∀ off, symtab.get? idx = some off →
      ((c_string (strtab.drop off)).length ≤ 1 →
        rebound rebindings sect symtab strtab indirect_symtab i old = old) ∧
      (2 ≤ (c_string (strtab.drop off)).length →
        (∀ r, most_recent_rebinding rebindings (strtab.drop off) = some r →
          rebound rebindings sect symtab strtab indirect_symtab i old = r.replacement) ∧
        (most_recent_rebinding rebindings (strtab.drop off) = none →
          rebound rebindings sect symtab strtab indirect_symtab i old = old))) := by
  unfold rebound
  simp only [h1]
  refine ⟨fun hsp => ?_, fun hsp off h3 => ?_⟩
  · have hsp2 : idx = INDIRECT_SYMBOL_ABS ∨ idx = INDIRECT_SYMBOL_LOCAL ∨
        idx = INDIRECT_SYMBOL_LOCAL ||| INDIRECT_SYMBOL_ABS := hsp
    simp only [hsp2, if_true]
  · have hsp2 : ¬ (idx = INDIRECT_SYMBOL_ABS ∨ idx = INDIRECT_SYMBOL_LOCAL ∨
        idx = INDIRECT_SYMBOL_LOCAL ||| INDIRECT_SYMBOL_ABS) := hsp
    simp only [hsp2, if_false, h3, match_in_list_most_recent _ _ hb]
    refine ⟨fun hl => ?_, fun hl => ⟨fun r hr => ?_, fun hr => ?_⟩⟩
    · have : ¬ 2 ≤ (c_string (strtab.drop off)).length := by omega
      simp only [this, if_false]
    · simp only [hl, if_true, hr]
    · simp only [hl, if_true, hr]

/-- C23: `prepend_rebindings` puts the rebindings of a call at the head of the
list, so that a rebinding in the most recent call's array is the one in force
whatever the older entries hold; and `perform_rebinding_with_section` (on a
section of fewer than `2^32` slots whose tables are in bounds and whose slots
no `replaced` pointer aliases, every entry of the list holding fewer than
`2^32` rebindings, so that neither 32-bit loop counter wraps) ends and leaves
in every slot: the pointer it found when the indirect
symbol index is `ABS`, `LOCAL` or both, or when the symbol name has at most one
character; otherwise the `replacement` of the first rebinding, searching the
list from its head, whose name equals the symbol name without its first
character, and the pointer it found when there is none. -/
theorem perform_rebinding_most_recent (rebindings : List (List rebinding)) (sect : section_t)
    (slide : Nat) (symtab strtab indirect_symtab : List Nat) (oldProtection : Nat) (m : Memory)
    (hn : sect.size / 8 < 4294967296)
    (hs : (slide + sect.addr) % 18446744073709551616 + 8 * (sect.size / 8)
      ≤ 18446744073709551616)
    (ht : ∀ i, i < sect.size / 8 →
      ∃ idx, indirect_symtab.get? (sect.reserved1 + i) = some idx ∧
        (¬ is_abs_or_local idx → ∃ off, symtab.get? idx = some off))
    (hb : ∀ e ∈ rebindings, e.length < 4294967296)
    (ha : ∀ e ∈ rebindings, ∀ r ∈ e, ∀ j, j < sect.size / 8 →
      r.replaced ≠ slot_address sect slide j) :
    (∀ (head : List (List rebinding)) (rebs : List rebinding) (nel : Nat),
      prepend_rebindings (true, true) head rebs nel = (0, rebs.take nel :: head)) ∧
    (∀ (new : List rebinding) (older : List (List rebinding)) (name : List Nat) (r : rebinding),
      new.find? (fun r => c_string r.name = (c_string name).drop 1) = some r →
      most_recent_rebinding (new :: older) name = some r) ∧
    ∃ m1, perform_rebinding_with_section rebindings sect slide symtab strtab indirect_symtab
        oldProtection m = some m1 ∧
      ∀ i, i < sect.size / 8 → ∀ idx, indirect_symtab.get? (sect.reserved1 + i) = some idx →
        (is_abs_or_local idx →
          m1.mem (slot_address sect slide i) = m.mem (slot_address sect slide i)) ∧
        (¬ is_abs_or_local idx → ∀ off, symtab.get? idx = some off →
          ((c_string (strtab.drop off)).length ≤ 1 →
            m1.mem (slot_address sect slide i) = m.mem (slot_address sect slide i)) ∧
          (2 ≤ (c_string (strtab.drop off)).length →
            (∀ r, most_recent_rebinding rebindings (strtab.drop off) = some r →
              m1.mem (slot_address sect slide i) = r.replacement) ∧
            (most_recent_rebinding rebindings (strtab.drop off) = none →
              m1.mem (slot_address sect slide i) = m.mem (slot_address sect slide i)))) := by
  refine ⟨fun head rebs nel => by simp [prepend_rebindings], ?_, ?_⟩
  · intro new older name r hr
    simp only [most_recent_rebinding, List.flatten_cons, List.find?_append, hr]
    rfl
  · have key : ∀ m0 : Memory, m0.mem = m.mem →
        ∃ m1, rebind_loop rebindings sect slide symtab strtab indirect_symtab (sect.size / 8) 0 m0
            = some m1 ∧
          ∀ i, i < sect.size / 8 →
            m1.mem (slot_address sect slide i)
              = rebound rebindings sect symtab strtab indirect_symtab i
                  (m.mem (slot_address sect slide i)) := by
      intro m0 h0
      obtain ⟨m1, l1, l2, _⟩ := rebind_loop_effect rebindings sect slide symtab strtab
        indirect_symtab hn hs ht hb ha (sect.size / 8) 0 m0 (by omega) (sect.size / 8) (le_refl _)
      refine ⟨m1, l1, fun i hi => ?_⟩
      rw [(l2 i hi).2 (Nat.zero_le i), h0]
    have fin : ∀ m1 : Memory,
        (∀ i, i < sect.size / 8 →
          m1.mem (slot_address sect slide i)
            = rebound rebindings sect symtab strtab indirect_symtab i
                (m.mem (slot_address sect slide i))) →
        ∀ i, i < sect.size / 8 → ∀ idx,
          indirect_symtab.get? (sect.reserved1 + i) = some idx →
          (is_abs_or_local idx →
            m1.mem (slot_address sect slide i) = m.mem (slot_address sect slide i)) ∧
          (¬ is_abs_or_local idx → ∀ off, symtab.get? idx = some off →
            ((c_string (strtab.drop off)).length ≤ 1 →
              m1.mem (slot_address sect slide i) = m.mem (slot_address sect slide i)) ∧
            (2 ≤ (c_string (strtab.drop off)).length →
              (∀ r, most_recent_rebinding rebindings (strtab.drop off) = some r →
                m1.mem (slot_address sect slide i) = r.replacement) ∧
              (most_recent_rebinding rebindings (strtab.drop off) = none →
                m1.mem (slot_address sect slide i) = m.mem (slot_address sect slide i)))) := by
      intro m1 hm1 i hi idx hidx
      rw [hm1 i hi]
      exact rebound_cases rebindings sect symtab strtab indirect_symtab i _ idx hb hidx
    unfold perform_rebinding_with_section
    cases hd : strcmp_zero sect.segname SEG_DATA_CONST
    · obtain ⟨m1, l1, l2⟩ := key m rfl
      simp only [Bool.false_eq_true, if_false, l1]
      exact ⟨_, rfl, fin _ l2⟩
    · obtain ⟨m1, l1, l2⟩ := key { m with mprotect := m.mprotect ++
        [(slot_address sect slide 0, sect.size, PROT_READ ||| PROT_WRITE)] } rfl
      simp only [if_true, l1]
      exact ⟨_, rfl, fin _ l2⟩

/-- C23 at a concrete input: `open` is rebound by two `rebind_symbols` calls,
first to `400`, then to `500`; a section of two slots, the first for the
symbol `_open`, the second for the one-character symbol `_`, both holding `9`:
the first slot receives `500`, the second keeps `9`. -/
theorem perform_rebinding_most_recent_witness :
    ∃ m1, perform_rebinding_with_section
        (prepend_rebindings (true, true)
          (prepend_rebindings (true, true) [] [⟨[111, 112, 101, 110], 400, 0⟩] 1).2
          [⟨[111, 112, 101, 110], 500, 0⟩] 1).2
        ⟨[95], 1000, 16, 0⟩ 0 [1, 7] [0, 95, 111, 112, 101, 110, 0, 95, 0] [0, 1] 1
        ⟨fun _ => 9, []⟩ = some m1 ∧
      m1.mem 1000 = 500 ∧ m1.mem 1008 = 9 :=
  (perform_rebinding_most_recent
    (prepend_rebindings (true, true)
      (prepend_rebindings (true, true) [] [⟨[111, 112, 101, 110], 400, 0⟩] 1).2
      [⟨[111, 112, 101, 110], 500, 0⟩] 1).2
    ⟨[95], 1000, 16, 0⟩ 0 [1, 7] [0, 95, 111, 112, 101, 110, 0, 95, 0] [0, 1] 1
    ⟨fun _ => 9, []⟩ (by decide) (by decide)
    (fun i hi =>
      match i, hi with
      | 0, _ => ⟨0, rfl, fun _ => ⟨1, rfl⟩⟩
      | 1, _ => ⟨1, rfl, fun _ => ⟨7, rfl⟩⟩)
    (by decide) (by decide)).2.2.elim
    fun m1 h => ⟨m1, h.1,
      ((((h.2 0 (by decide) 0 rfl).2 (by decide) 1 rfl).2 (by decide)).1
        ⟨[111, 112, 101, 110], 500, 0⟩ (by decide)),
      ((((h.2 1 (by decide) 1 rfl).2 (by decide) 7 rfl).1 (by decide)))⟩

end Fishhook
